import Mathlib

/-!
# DBOF: object model and DBOF-1 codec

A shallow embedding of `src/src/dbof.c` (with the inline helpers of
`include/dbof/dbof.h` and the stdio adapters of `include/dbof/file.h`).

Modelling conventions

* Machine words are stored as their bit patterns: `Byte`, `U16`, `U32`, `U64` are
  `Fin (2^w)`.  Signed readings are taken with `int8`, `int32` where the C code
  converts to `int`.
* The data model is LP64 (`size_t`, `uint64_t` are 64 bits, `int` is 32 bits,
  enumerations are `unsigned int`).
* The signedness of plain `char` is implementation-defined.  Every function whose
  C text converts a plain `char` to a wider integer takes a parameter `cs`:
  `cs = true` is an ABI where plain `char` is signed (x86, x86-64), `cs = false`
  one where it is unsigned (AArch64, POWER).
* The allocator hooks (`DBOF_MALLOC`, `DBOF_CALLOC`, `DBOF_REALLOC`) never return `NULL`
  (in namespace `Heap`, `realloc` may).
* The array functions come twice.  The first set keeps the fields `capacity` and `size`
  and the cells below `size`; the set in namespace `Heap` keeps, with them, the block
  that `children` points to, under any behaviour of `realloc`.
* An object reference (`dbof_object`) is an `Option Obj`; `none` is the `NULL` pointer.
* Behaviour that C leaves undefined (for instance `strlen (NULL)`) is the fault
  `Fault.undefined_behaviour`; recursion that is bounded by a fuel counter reports
  `Fault.out_of_fuel` when the counter is used up.
-/

namespace Dbof

/-! ## Machine words -/

abbrev Byte := Fin 256
abbrev U16 := Fin 65536
abbrev U32 := Fin 4294967296
abbrev U64 := Fin 18446744073709551616

/-- Conversion to `uint8_t` (also the store of an integer into a `char` cell). -/
def byte (n : Nat) : Byte := ⟨n % 256, Nat.mod_lt _ (by decide)⟩

/-- Conversion to `uint16_t` / `unsigned short`. -/
def u16 (n : Nat) : U16 := ⟨n % 65536, Nat.mod_lt _ (by decide)⟩

/-- Conversion to `uint32_t`. -/
def u32 (n : Nat) : U32 := ⟨n % 4294967296, Nat.mod_lt _ (by decide)⟩

/-- Conversion to `uint64_t` / `size_t`. -/
def u64 (n : Nat) : U64 := ⟨n % 18446744073709551616, Nat.mod_lt _ (by decide)⟩

/-- Value of a plain `char` cell holding the byte `b`, as the C abstract machine sees it:
the byte itself when plain `char` is unsigned, its two's complement reading when signed. -/
def char_value (cs : Bool) (b : Byte) : Int :=
  if cs && decide (128 ≤ b.val) then (b.val : Int) - 256 else (b.val : Int)

/-- Conversion `(uintW_t) c` of a plain `char` cell to an unsigned type of `w` bits
(`w ≥ 8`): a negative value is reduced modulo `2^w`, which sign-extends the byte. -/
def char_to_unsigned (cs : Bool) (w : Nat) (b : Byte) : Nat :=
  if cs && decide (128 ≤ b.val) then 2 ^ w - 256 + b.val else b.val

/-- Two's complement reading of an 8-bit pattern (`int8_t`). -/
def int8 (b : Byte) : Int :=
  if b.val < 128 then (b.val : Int) else (b.val : Int) - 256

/-- Two's complement reading of the low 32 bits of `n` (conversion to `int`). -/
def int32 (n : Nat) : Int :=
  if n % 4294967296 < 2147483648 then ((n % 4294967296 : Nat) : Int)
  else ((n % 4294967296 : Nat) : Int) - 4294967296

/-- Two's complement reading of the low 64 bits of `n` (`int64_t`). -/
def int64 (n : Nat) : Int :=
  if n % 18446744073709551616 < 9223372036854775808 then
    ((n % 18446744073709551616 : Nat) : Int)
  else ((n % 18446744073709551616 : Nat) : Int) - 18446744073709551616

/-! ## Faults -/

inductive Fault where
  | undefined_behaviour
  | out_of_fuel
  deriving DecidableEq, Repr

/-! ## Type taxonomy (`dbof.h`) -/

/-- The enumeration `dbof_type`; enumerators carry no explicit values in `dbof.h`, so
they are numbered 0, 1, 2, ... in declaration order. -/
abbrev dbof_type := Nat

def DBOF_TYPE_NULL : dbof_type := 0
def DBOF_TYPE_SIGNED_BYTE : dbof_type := 1
def DBOF_TYPE_UNSIGNED_BYTE : dbof_type := 2
def DBOF_TYPE_SIGNED_INTEGER : dbof_type := 3
def DBOF_TYPE_UNSIGNED_INTEGER : dbof_type := 4
def DBOF_TYPE_SIGNED_LONG_INTEGER : dbof_type := 5
def DBOF_TYPE_UNSIGNED_LONG_INTEGER : dbof_type := 6
def DBOF_TYPE_BOOLEAN : dbof_type := 7
def DBOF_TYPE_SINGLE_FLOAT : dbof_type := 8
def DBOF_TYPE_DOUBLE_FLOAT : dbof_type := 9
def DBOF_TYPE_CHARACTER : dbof_type := 10
def DBOF_TYPE_UTF8_STRING : dbof_type := 11
def DBOF_TYPE_TYPED_ARRAY : dbof_type := 12
def DBOF_TYPE_UNTYPED_ARRAY : dbof_type := 13
def DBOF_TYPE_TYPED_MAP : dbof_type := 14
def DBOF_TYPE_UNTYPED_MAP : dbof_type := 15

def dbof_is_value_type (type : dbof_type) : Bool :=
  match type with
  | 0 | 1 | 2 | 3 | 4 | 5 | 6 | 7 | 8 | 9 | 10 | 11 => true
  | _ => false

def dbof_is_container_type (type : dbof_type) : Bool :=
  match type with
  | 12 | 13 | 14 | 15 => true
  | _ => false

/-! ## Objects -/

/-- In-memory objects: the type tag of `struct __object_impl` is the constructor, the
fields are those of the sixteen `struct __object_*_impl`.

* Scalars hold the bit pattern of their `value` field (floats: the IEEE pattern).
* `utf8_string`: `value` is `none` for a `NULL` pointer, otherwise the bytes of the
  allocated buffer that precede its final NUL terminator.
* Arrays: `capacity`, and `children` are the cells `children[0 .. size)`, so `size` is
  the length of the list; a typed array has the element `type` field as well.
* Maps: `size` and, when typed, `key_type`, `value_type`; the chain tables are never
  allocated by `dbof_new` and no function fills them. -/
inductive Obj where
  | null
  | signed_byte (value : Byte)
  | unsigned_byte (value : Byte)
  | signed_integer (value : U32)
  | unsigned_integer (value : U32)
  | signed_long_integer (value : U64)
  | unsigned_long_integer (value : U64)
  | boolean (value : Byte)
  | single_float (value : U32)
  | double_float (value : U64)
  | character (value : U32)
  | utf8_string (value : Option (List Byte))
  | typed_array (capacity : Nat) (children : List Obj) (type : dbof_type)
  | untyped_array (capacity : Nat) (children : List Obj)
  | typed_map (size : Nat) (key_type : dbof_type) (value_type : dbof_type)
  | untyped_map (size : Nat)

abbrev dbof_object := Option Obj

def dbof_typeof (object : Obj) : dbof_type :=
  match object with
  | .null => DBOF_TYPE_NULL
  | .signed_byte _ => DBOF_TYPE_SIGNED_BYTE
  | .unsigned_byte _ => DBOF_TYPE_UNSIGNED_BYTE
  | .signed_integer _ => DBOF_TYPE_SIGNED_INTEGER
  | .unsigned_integer _ => DBOF_TYPE_UNSIGNED_INTEGER
  | .signed_long_integer _ => DBOF_TYPE_SIGNED_LONG_INTEGER
  | .unsigned_long_integer _ => DBOF_TYPE_UNSIGNED_LONG_INTEGER
  | .boolean _ => DBOF_TYPE_BOOLEAN
  | .single_float _ => DBOF_TYPE_SINGLE_FLOAT
  | .double_float _ => DBOF_TYPE_DOUBLE_FLOAT
  | .character _ => DBOF_TYPE_CHARACTER
  | .utf8_string _ => DBOF_TYPE_UTF8_STRING
  | .typed_array _ _ _ => DBOF_TYPE_TYPED_ARRAY
  | .untyped_array _ _ => DBOF_TYPE_UNTYPED_ARRAY
  | .typed_map _ _ _ => DBOF_TYPE_TYPED_MAP
  | .untyped_map _ => DBOF_TYPE_UNTYPED_MAP

def dbof_same_category (a b : Obj) : Bool :=
  let type_a := dbof_typeof a
  let type_b := dbof_typeof b
  if dbof_is_value_type type_a && dbof_is_value_type type_b then true
  else if dbof_is_container_type type_a && dbof_is_container_type type_b then true
  else false

/-- The C library `strlen` on a buffer: the number of bytes before the first NUL. -/
def strlen (value : List Byte) : Nat := (value.takeWhile (fun b => b != 0)).length

/-! ## Stream abstractions (`dbof.h`, `file.h`) -/

/-- A `dbof_reader` whose callback is `__dbof_file_reader_impl_read`; `data` is the
part of the file that has not been consumed yet. -/
structure dbof_reader where
  data : List Byte
  use_version : U16
  no_header : Int

/-- The callback of `file.h`: `fread (ptr, 1, size, file)` hands over the next `size`
bytes, or all remaining bytes when fewer are left; the length of the returned list
is the returned count. -/
def __dbof_file_reader_impl_read (reader : dbof_reader) (size : Nat) :
    List Byte × dbof_reader :=
  (reader.data.take size, { reader with data := reader.data.drop size })

/-- A `dbof_writer`: the callback takes the sink state behind `data` and the block
to write, and returns the count it reports as written with the new sink state. -/
structure dbof_writer (σ : Type) where
  write : σ → List Byte → Nat × σ
  use_version : U16
  no_header : Int
  data : σ

/-- The call `writer->write (writer, ptr, size)` with `buf` the `size` bytes at `ptr`. -/
def dbof_writer.call {σ : Type} (writer : dbof_writer σ) (buf : List Byte) :
    Nat × dbof_writer σ :=
  let r := writer.write writer.data buf
  (r.1, { writer with data := r.2 })

/-- The callback of `file.h`: `fwrite (ptr, 1, size, file)` on a file that takes
every byte. -/
def __dbof_file_writer_impl_write (file : List Byte) (buf : List Byte) :
    Nat × List Byte :=
  (buf.length, file ++ buf)

/-- The writer that `dbof_file_write` sets up on a file with contents `file`. -/
def file_writer (file : List Byte) : dbof_writer (List Byte) :=
  { write := __dbof_file_writer_impl_write, use_version := 0, no_header := 0, data := file }

/-- The reader that `dbof_file_read` sets up on a file with unread contents `file`. -/
def file_reader (file : List Byte) : dbof_reader :=
  { data := file, use_version := 0, no_header := 0 }

/-! ## DBOF-1: scalar payloads -/

def __dbof_1_write_object_null {σ : Type} (writer : dbof_writer σ) : Int × dbof_writer σ :=
  (0, writer)

/-- Body shared by the one-byte writers (`signed_byte`, `unsigned_byte`, `boolean`):
the value cell is passed to the callback as it is. -/
def write_1 {σ : Type} (value : Byte) (writer : dbof_writer σ) : Int × dbof_writer σ :=
  let r := writer.call [value]
  if r.1 < 1 then (-1, r.2) else (0, r.2)

def __dbof_1_write_object_signed_byte {σ : Type} (value : Byte) (writer : dbof_writer σ) :=
  write_1 value writer

def __dbof_1_write_object_unsigned_byte {σ : Type} (value : Byte) (writer : dbof_writer σ) :=
  write_1 value writer

def __dbof_1_write_object_boolean {σ : Type} (value : Byte) (writer : dbof_writer σ) :=
  write_1 value writer

/-- The four packing statements of the 32-bit writers,
`value_buf[k] = (uint8_t) ((value & (0xffu << 8k)) >> 8k)`. -/
def pack_le32 (value : U32) : List Byte :=
  [ byte ((value.val &&& 0x000000ff) >>> 0),
    byte ((value.val &&& 0x0000ff00) >>> 8),
    byte ((value.val &&& 0x00ff0000) >>> 16),
    byte ((value.val &&& 0xff000000) >>> 24) ]

/-- The eight packing statements of the 64-bit writers. -/
def pack_le64 (value : U64) : List Byte :=
  [ byte ((value.val &&& 0x00000000000000ff) >>> 0),
    byte ((value.val &&& 0x000000000000ff00) >>> 8),
    byte ((value.val &&& 0x0000000000ff0000) >>> 16),
    byte ((value.val &&& 0x00000000ff000000) >>> 24),
    byte ((value.val &&& 0x000000ff00000000) >>> 32),
    byte ((value.val &&& 0x0000ff0000000000) >>> 40),
    byte ((value.val &&& 0x00ff000000000000) >>> 48),
    byte ((value.val &&& 0xff00000000000000) >>> 56) ]

/-- Body shared by the 32-bit writers: pack, write 4 bytes, fail on a short count. -/
def write_4 {σ : Type} (value : U32) (writer : dbof_writer σ) : Int × dbof_writer σ :=
  let r := writer.call (pack_le32 value)
  if r.1 < 4 then (-1, r.2) else (0, r.2)

/-- Body shared by the 64-bit writers: pack, write 8 bytes, fail on a short count. -/
def write_8 {σ : Type} (value : U64) (writer : dbof_writer σ) : Int × dbof_writer σ :=
  let r := writer.call (pack_le64 value)
  if r.1 < 8 then (-1, r.2) else (0, r.2)

def __dbof_1_write_object_signed_integer {σ : Type} (value : U32) (writer : dbof_writer σ) :=
  write_4 value writer

def __dbof_1_write_object_unsigned_integer {σ : Type} (value : U32) (writer : dbof_writer σ) :=
  write_4 value writer

def __dbof_1_write_object_signed_long_integer {σ : Type} (value : U64)
    (writer : dbof_writer σ) :=
  write_8 value writer

def __dbof_1_write_object_unsigned_long_integer {σ : Type} (value : U64)
    (writer : dbof_writer σ) :=
  write_8 value writer

def __dbof_1_write_object_single_float {σ : Type} (value : U32) (writer : dbof_writer σ) :=
  write_4 value writer

def __dbof_1_write_object_double_float {σ : Type} (value : U64) (writer : dbof_writer σ) :=
  write_8 value writer

/-- Reads its value through `dbof_get_value_unsigned_integer`, which finds the
character at the same offset. -/
def __dbof_1_write_object_character {σ : Type} (value : U32) (writer : dbof_writer σ) :=
  write_4 value writer

/-- Body shared by the one-byte readers: the byte read lands in the value cell. -/
def read_1 (reader : dbof_reader) : Option Byte × dbof_reader :=
  let r := __dbof_file_reader_impl_read reader 1
  match r.1 with
  | value :: _ => (some value, r.2)
  | [] => (none, r.2)

/-- The unpacking statements of the 32-bit readers on a `char value_buf[4]`:
`value |= ((uint32_t) value_buf[k]) << 8k`, starting from `value = 0`. -/
def unpack_le32 (cs : Bool) (b0 b1 b2 b3 : Byte) : U32 :=
  let value : Nat := 0
  let value := value ||| (u32 (char_to_unsigned cs 32 b0 <<< 0)).val
  let value := value ||| (u32 (char_to_unsigned cs 32 b1 <<< 8)).val
  let value := value ||| (u32 (char_to_unsigned cs 32 b2 <<< 16)).val
  let value := value ||| (u32 (char_to_unsigned cs 32 b3 <<< 24)).val
  u32 value

/-- The unpacking statements of the 64-bit readers on a `char value_buf[8]`. -/
def unpack_le64 (cs : Bool) (b0 b1 b2 b3 b4 b5 b6 b7 : Byte) : U64 :=
  let value : Nat := 0
  let value := value ||| (u64 (char_to_unsigned cs 64 b0 <<< 0)).val
  let value := value ||| (u64 (char_to_unsigned cs 64 b1 <<< 8)).val
  let value := value ||| (u64 (char_to_unsigned cs 64 b2 <<< 16)).val
  let value := value ||| (u64 (char_to_unsigned cs 64 b3 <<< 24)).val
  let value := value ||| (u64 (char_to_unsigned cs 64 b4 <<< 32)).val
  let value := value ||| (u64 (char_to_unsigned cs 64 b5 <<< 40)).val
  let value := value ||| (u64 (char_to_unsigned cs 64 b6 <<< 48)).val
  let value := value ||| (u64 (char_to_unsigned cs 64 b7 <<< 56)).val
  u64 value

/-- Body shared by the 32-bit readers: read 4 bytes, fail on a short count, unpack. -/
def read_4 (cs : Bool) (reader : dbof_reader) : Option U32 × dbof_reader :=
  let r := __dbof_file_reader_impl_read reader 4
  match r.1 with
  | [b0, b1, b2, b3] => (some (unpack_le32 cs b0 b1 b2 b3), r.2)
  | _ => (none, r.2)

/-- Body shared by the 64-bit readers: read 8 bytes, fail on a short count, unpack. -/
def read_8 (cs : Bool) (reader : dbof_reader) : Option U64 × dbof_reader :=
  let r := __dbof_file_reader_impl_read reader 8
  match r.1 with
  | [b0, b1, b2, b3, b4, b5, b6, b7] => (some (unpack_le64 cs b0 b1 b2 b3 b4 b5 b6 b7), r.2)
  | _ => (none, r.2)

def __dbof_1_read_object_null (reader : dbof_reader) : dbof_object × dbof_reader :=
  (some .null, reader)

def __dbof_1_read_object_signed_byte (reader : dbof_reader) : dbof_object × dbof_reader :=
  let r := read_1 reader
  (r.1.map Obj.signed_byte, r.2)

def __dbof_1_read_object_unsigned_byte (reader : dbof_reader) : dbof_object × dbof_reader :=
  let r := read_1 reader
  (r.1.map Obj.unsigned_byte, r.2)

def __dbof_1_read_object_boolean (reader : dbof_reader) : dbof_object × dbof_reader :=
  let r := read_1 reader
  (r.1.map Obj.boolean, r.2)

def __dbof_1_read_object_signed_integer (cs : Bool) (reader : dbof_reader) :
    dbof_object × dbof_reader :=
  let r := read_4 cs reader
  (r.1.map Obj.signed_integer, r.2)

def __dbof_1_read_object_unsigned_integer (cs : Bool) (reader : dbof_reader) :
    dbof_object × dbof_reader :=
  let r := read_4 cs reader
  (r.1.map Obj.unsigned_integer, r.2)

def __dbof_1_read_object_signed_long_integer (cs : Bool) (reader : dbof_reader) :
    dbof_object × dbof_reader :=
  let r := read_8 cs reader
  (r.1.map Obj.signed_long_integer, r.2)

def __dbof_1_read_object_unsigned_long_integer (cs : Bool) (reader : dbof_reader) :
    dbof_object × dbof_reader :=
  let r := read_8 cs reader
  (r.1.map Obj.unsigned_long_integer, r.2)

def __dbof_1_read_object_single_float (cs : Bool) (reader : dbof_reader) :
    dbof_object × dbof_reader :=
  let r := read_4 cs reader
  (r.1.map Obj.single_float, r.2)

def __dbof_1_read_object_double_float (cs : Bool) (reader : dbof_reader) :
    dbof_object × dbof_reader :=
  let r := read_8 cs reader
  (r.1.map Obj.double_float, r.2)

def __dbof_1_read_object_character (cs : Bool) (reader : dbof_reader) :
    dbof_object × dbof_reader :=
  let r := read_4 cs reader
  (r.1.map Obj.character, r.2)

/-! ## DBOF-1: flex lengths and strings -/

def __count_min_bytes_internal (value : U64) : Nat :=
  if value.val &&& 0x00000000000000ff = value.val then 1
  else if value.val &&& 0x000000000000ffff = value.val then 2
  else if value.val &&& 0x0000000000ffffff = value.val then 3
  else if value.val &&& 0x00000000ffffffff = value.val then 4
  else if value.val &&& 0x000000ffffffffff = value.val then 5
  else if value.val &&& 0x0000ffffffffffff = value.val then 6
  else if value.val &&& 0x00ffffffffffffff = value.val then 7
  else 8

/-- Cell `i` of `length_buf` after the packing loop:
`(uint8_t) ((length & (0xfful << i * 8)) >> i * 8)`. -/
def flex_cell (length : U64) (i : Nat) : Byte :=
  byte ((length.val &&& (u64 (0xff <<< (i * 8))).val) >>> (i * 8))

/-- Returns the status (0 on success, -1 otherwise) and the writer afterwards. -/
def __dbof_1_write_flex_length_internal {σ : Type} (writer : dbof_writer σ) (length : U64) :
    Int × dbof_writer σ :=
  let length_size := __count_min_bytes_internal length
  let r1 := writer.call [byte length_size]
  if r1.1 < 1 then (-1, r1.2)
  else
    let length_buf := (List.range length_size).map (flex_cell length)
    let r2 := r1.2.call length_buf
    if r2.1 < length_size then (-1, r2.2) else (0, r2.2)

/-- Returns `some length` for status 0 with `*out_length = length`, `none` for a
nonzero status.  The size byte lives in a plain `char`: it is compared with 8 and
converted to `size_t` as such.  `fread` stores what it delivers into the eight cells
of `length_buf`, so more than eight delivered bytes overrun the array. -/
def __dbof_1_read_flex_length_internal (cs : Bool) (reader : dbof_reader) :
    Except Fault (Option U64 × dbof_reader) :=
  let r1 := __dbof_file_reader_impl_read reader 1
  match r1.1 with
  | [] => .ok (none, r1.2)
  | b :: _ =>
    let length_size : Int := char_value cs b
    if length_size > 8 then .ok (none, r1.2)
    else
      let size : Nat := (length_size % 18446744073709551616).toNat
      let r2 := __dbof_file_reader_impl_read r1.2 size
      if 8 < r2.1.length then .error .undefined_behaviour
      else if r2.1.length < size then .ok (none, r2.2)
      else
        let length := (List.range length_size.toNat).foldl
          (fun length i =>
            length ||| (u64 (char_to_unsigned cs 64 (r2.1.getD i 0) <<< (i * 8))).val) 0
        .ok (some (u64 length), r2.2)

/-- The buffer of `length + 1` bytes comes from `malloc`; `fread` stores what it
delivers there, which overruns it only when `length + 1` wraps around to 0. -/
def __dbof_1_read_object_utf8_string (cs : Bool) (reader : dbof_reader) :
    Except Fault (dbof_object × dbof_reader) :=
  match __dbof_1_read_flex_length_internal cs reader with
  | .error e => .error e
  | .ok (none, reader) => .ok (none, reader)
  | .ok (some length, reader) =>
    let r := __dbof_file_reader_impl_read reader length.val
    if (u64 (length.val + 1)).val < r.1.length then .error .undefined_behaviour
    else if r.1.length < length.val then .ok (none, r.2)
    else .ok (some (.utf8_string (some r.1)), r.2)

/-- The function calls `strlen (value)`, undefined for a `NULL` value, and writes the
bytes before the first NUL. -/
def __dbof_1_write_object_string {σ : Type} (value : Option (List Byte))
    (writer : dbof_writer σ) : Except Fault (Int × dbof_writer σ) :=
  match value with
  | none => .error .undefined_behaviour
  | some buf =>
    let length := strlen buf
    let r1 := __dbof_1_write_flex_length_internal writer (u64 length)
    if r1.1 ≠ 0 then .ok (-1, r1.2)
    else
      let r2 := r1.2.call (buf.take length)
      if r2.1 < length then .ok (-1, r2.2) else .ok (0, r2.2)

/-! ## Array core, as far as the codec uses it -/

/-- The fields `capacity` and `children` of `struct __internal_array_base`; `size` is
the length of `children`. -/
structure internal_array_base where
  capacity : Nat
  children : List Obj

def __internal_array_base_construct : internal_array_base :=
  { capacity := 10, children := [] }

def __internal_array_base_get_size (array : internal_array_base) : Nat :=
  array.children.length

/-- In C: `children = realloc (...); if (children != NULL) return -1;` and only after
that the two assignments.  The allocator never returns `NULL`, so the function
returns -1 and leaves the fields as they were.  Only the fields are kept here: what
the call does to the block behind `children` is followed in
`Heap.__internal_array_base_resize`. -/
def __internal_array_base_resize (array : internal_array_base) (size : Nat) :
    Int × internal_array_base :=
  let children_is_null := false
  if !children_is_null then (-1, array)
  else (0, { capacity := size, children := [] })

def __internal_array_base_ensure_space (array : internal_array_base) :
    Int × internal_array_base :=
  if __internal_array_base_get_size array = array.capacity then
    let r1 := if array.capacity = 0 then __internal_array_base_resize array 1 else (0, array)
    if array.capacity = 0 ∧ r1.1 ≠ 0 then (-1, r1.2)
    else
      let r2 := __internal_array_base_resize r1.2 (r1.2.capacity * 2)
      if r2.1 ≠ 0 then (-1, r2.2) else (0, r2.2)
  else (0, array)

/-- Stores the object in cell `size` and increments `size`. -/
def __internal_array_base_push_back (array : internal_array_base) (object : Obj) :
    Int × internal_array_base :=
  let r := __internal_array_base_ensure_space array
  if r.1 ≠ 0 then (-1, r.2)
  else (0, { r.2 with children := r.2.children ++ [object] })

/-- The fields of `struct __object_typed_array_impl`. -/
structure object_typed_array_impl where
  base : internal_array_base
  type : dbof_type

def __object_typed_array_impl_is_empty (array : object_typed_array_impl) : Bool :=
  __internal_array_base_get_size array.base == 0

def __object_typed_array_impl_resize (array : object_typed_array_impl) (size : Nat) :
    object_typed_array_impl :=
  { array with base := (__internal_array_base_resize array.base size).2 }

def __object_typed_array_impl_push_back (array : object_typed_array_impl) (object : Obj) :
    object_typed_array_impl :=
  let type := dbof_typeof object
  let array := if __object_typed_array_impl_is_empty array then { array with type := type }
    else array
  if type = array.type then
    { array with base := (__internal_array_base_push_back array.base object).2 }
  else array

/-- The array part of `calloc` plus `__object_typed_array_impl_construct`. -/
def __new_object_typed_array : object_typed_array_impl :=
  { base := __internal_array_base_construct, type := 0 }

def __object_untyped_array_impl_resize (array : internal_array_base) (size : Nat) :
    internal_array_base :=
  (__internal_array_base_resize array size).2

def __object_untyped_array_impl_push_back (array : internal_array_base) (object : Obj) :
    internal_array_base :=
  (__internal_array_base_push_back array object).2

def __new_object_untyped_array : internal_array_base :=
  __internal_array_base_construct

def object_typed_array_impl.toObj (array : object_typed_array_impl) : Obj :=
  .typed_array array.base.capacity array.base.children array.type

def internal_array_base.toObj (array : internal_array_base) : Obj :=
  .untyped_array array.capacity array.children

/-! ## DBOF-1: objects -/

def __dbof_1_write_object_typed_map {σ : Type} (size : Nat) (key_type value_type : dbof_type)
    (writer : dbof_writer σ) : Int × dbof_writer σ :=
  let key_type_id := byte key_type
  let value_type_id := byte value_type
  let r1 := __dbof_1_write_flex_length_internal writer (u64 size)
  if r1.1 ≠ 0 then (-1, r1.2)
  else
    let r2 := r1.2.call [key_type_id]
    if r2.1 < 1 then (-1, r2.2)
    else
      let r3 := r2.2.call [value_type_id]
      if r3.1 < 1 then (-1, r3.2) else (0, r3.2)

def __dbof_1_write_object_untyped_map {σ : Type} (size : Nat) (writer : dbof_writer σ) :
    Int × dbof_writer σ :=
  let r1 := __dbof_1_write_flex_length_internal writer (u64 size)
  if r1.1 ≠ 0 then (-1, r1.2) else (0, r1.2)

mutual

/-- The switch on `type_id` is the match on the constructor, which hands each payload
writer the fields it would fetch from the object.  The parameter `write_type` is not
read by the C function.  The arms of the two array kinds hold the bodies of
`__dbof_1_write_object_typed_array` and `__dbof_1_write_object_untyped_array` up to
their loops. -/
def __dbof_1_write_object {σ : Type} (object : Obj) (writer : dbof_writer σ)
    (_write_type : Int) : Except Fault (Int × dbof_writer σ) :=
  let type_id := byte (dbof_typeof object)
  let r := writer.call [type_id]
  if r.1 < 1 then .ok (-1, r.2)
  else
    match object with
    | .null => .ok (__dbof_1_write_object_null r.2)
    | .signed_byte value => .ok (__dbof_1_write_object_signed_byte value r.2)
    | .unsigned_byte value => .ok (__dbof_1_write_object_unsigned_byte value r.2)
    | .signed_integer value => .ok (__dbof_1_write_object_signed_integer value r.2)
    | .unsigned_integer value => .ok (__dbof_1_write_object_unsigned_integer value r.2)
    | .signed_long_integer value => .ok (__dbof_1_write_object_signed_long_integer value r.2)
    | .unsigned_long_integer value =>
      .ok (__dbof_1_write_object_unsigned_long_integer value r.2)
    | .boolean value => .ok (__dbof_1_write_object_boolean value r.2)
    | .single_float value => .ok (__dbof_1_write_object_single_float value r.2)
    | .double_float value => .ok (__dbof_1_write_object_double_float value r.2)
    | .character value => .ok (__dbof_1_write_object_character value r.2)
    | .utf8_string value => __dbof_1_write_object_string value r.2
    | .typed_array _ children type =>
      let size := children.length
      let element_type_id := byte type
      let r1 := __dbof_1_write_flex_length_internal r.2 (u64 size)
      if r1.1 ≠ 0 then .ok (-1, r1.2)
      else
        let r2 := r1.2.call [element_type_id]
        if r2.1 < 1 then .ok (-1, r2.2)
        else
          match write_typed_array_children children r2.2 with
          | .error e => .error e
          | .ok writer => .ok (0, writer)
    | .untyped_array _ children =>
      let size := children.length
      let r1 := __dbof_1_write_flex_length_internal r.2 (u64 size)
      if r1.1 ≠ 0 then .ok (-1, r1.2)
      else write_untyped_array_children children r1.2
    | .typed_map size key_type value_type =>
      .ok (__dbof_1_write_object_typed_map size key_type value_type r.2)
    | .untyped_map size => .ok (__dbof_1_write_object_untyped_map size r.2)

/-- The loop of `__dbof_1_write_object_typed_array`: every child is written with
`write_type = 0` and the status of that call is dropped. -/
def write_typed_array_children {σ : Type} :
    List Obj → dbof_writer σ → Except Fault (dbof_writer σ)
  | [], writer => .ok writer
  | object :: rest, writer =>
    match __dbof_1_write_object object writer 0 with
    | .error e => .error e
    | .ok r => write_typed_array_children rest r.2

/-- The loop of `__dbof_1_write_object_untyped_array`: every child is written with
`write_type = 0`; a nonzero status ends the loop with -1, the loop's end gives 0. -/
def write_untyped_array_children {σ : Type} :
    List Obj → dbof_writer σ → Except Fault (Int × dbof_writer σ)
  | [], writer => .ok (0, writer)
  | object :: rest, writer =>
    match __dbof_1_write_object object writer 0 with
    | .error e => .error e
    | .ok r => if r.1 ≠ 0 then .ok (-1, r.2) else write_untyped_array_children rest r.2

end

/-- The element loop of the two array readers: `n` times, read an object with the
given reader function, give up with `NULL` when it returns `NULL`, else push it. -/
def read_children {α : Type}
    (read_object : dbof_reader → Except Fault (dbof_object × dbof_reader))
    (push_back : α → Obj → α) :
    Nat → α → dbof_reader → Except Fault (Option α × dbof_reader)
  | 0, array, reader => .ok (some array, reader)
  | n + 1, array, reader =>
    match read_object reader with
    | .error e => .error e
    | .ok (none, reader) => .ok (none, reader)
    | .ok (some object, reader) =>
      read_children read_object push_back n (push_back array object) reader

/-- The parameter `read_object` stands for the call `__dbof_1_read_object (reader, 0)`. -/
def __dbof_1_read_object_typed_array (cs : Bool)
    (read_object : dbof_reader → Except Fault (dbof_object × dbof_reader))
    (reader : dbof_reader) : Except Fault (dbof_object × dbof_reader) :=
  let array := __new_object_typed_array
  match __dbof_1_read_flex_length_internal cs reader with
  | .error e => .error e
  | .ok (none, reader) => .ok (none, reader)
  | .ok (some size, reader) =>
    let r := __dbof_file_reader_impl_read reader 1
    match r.1 with
    | [] => .ok (none, r.2)
    | element_type_id :: _ =>
      let array := __object_typed_array_impl_resize array size.val
      let array := { array with type := char_to_unsigned cs 32 element_type_id }
      match read_children read_object __object_typed_array_impl_push_back size.val array r.2 with
      | .error e => .error e
      | .ok (none, reader) => .ok (none, reader)
      | .ok (some array, reader) => .ok (some array.toObj, reader)

/-- The parameter `read_object` stands for the call `__dbof_1_read_object (reader, 0)`. -/
def __dbof_1_read_object_untyped_array (cs : Bool)
    (read_object : dbof_reader → Except Fault (dbof_object × dbof_reader))
    (reader : dbof_reader) : Except Fault (dbof_object × dbof_reader) :=
  let array := __new_object_untyped_array
  match __dbof_1_read_flex_length_internal cs reader with
  | .error e => .error e
  | .ok (none, reader) => .ok (none, reader)
  | .ok (some size, reader) =>
    let array := __object_untyped_array_impl_resize array size.val
    match read_children read_object __object_untyped_array_impl_push_back size.val array
      reader with
    | .error e => .error e
    | .ok (none, reader) => .ok (none, reader)
    | .ok (some array, reader) => .ok (some array.toObj, reader)

def __dbof_1_read_object_typed_map (cs : Bool) (reader : dbof_reader) :
    Except Fault (dbof_object × dbof_reader) :=
  match __dbof_1_read_flex_length_internal cs reader with
  | .error e => .error e
  | .ok (none, reader) => .ok (none, reader)
  | .ok (some size, reader) =>
    let r1 := __dbof_file_reader_impl_read reader 1
    match r1.1 with
    | [] => .ok (none, r1.2)
    | key_type_id :: _ =>
      let r2 := __dbof_file_reader_impl_read r1.2 1
      match r2.1 with
      | [] => .ok (none, r2.2)
      | value_type_id :: _ =>
        .ok (some (.typed_map size.val (char_to_unsigned cs 32 key_type_id)
          (char_to_unsigned cs 32 value_type_id)), r2.2)

def __dbof_1_read_object_untyped_map (cs : Bool) (reader : dbof_reader) :
    Except Fault (dbof_object × dbof_reader) :=
  match __dbof_1_read_flex_length_internal cs reader with
  | .error e => .error e
  | .ok (none, reader) => .ok (none, reader)
  | .ok (some size, reader) => .ok (some (.untyped_map size.val), reader)

/-- The first argument bounds the nesting depth that is followed; the parameter
`read_type` is not read by the C function.  The switch is on the plain `char`
`type_id`, promoted to `int`. -/
def __dbof_1_read_object (cs : Bool) :
    Nat → dbof_reader → Int → Except Fault (dbof_object × dbof_reader)
  | 0, _, _ => .error .out_of_fuel
  | fuel + 1, reader, _ =>
    let r := __dbof_file_reader_impl_read reader 1
    match r.1 with
    | [] => .ok (none, r.2)
    | b :: _ =>
      let type_id : Int := char_value cs b
      if type_id = DBOF_TYPE_NULL then .ok (__dbof_1_read_object_null r.2)
      else if type_id = DBOF_TYPE_SIGNED_BYTE then .ok (__dbof_1_read_object_signed_byte r.2)
      else if type_id = DBOF_TYPE_UNSIGNED_BYTE then
        .ok (__dbof_1_read_object_unsigned_byte r.2)
      else if type_id = DBOF_TYPE_SIGNED_INTEGER then
        .ok (__dbof_1_read_object_signed_integer cs r.2)
      else if type_id = DBOF_TYPE_UNSIGNED_INTEGER then
        .ok (__dbof_1_read_object_unsigned_integer cs r.2)
      else if type_id = DBOF_TYPE_SIGNED_LONG_INTEGER then
        .ok (__dbof_1_read_object_signed_long_integer cs r.2)
      else if type_id = DBOF_TYPE_UNSIGNED_LONG_INTEGER then
        .ok (__dbof_1_read_object_unsigned_long_integer cs r.2)
      else if type_id = DBOF_TYPE_BOOLEAN then .ok (__dbof_1_read_object_boolean r.2)
      else if type_id = DBOF_TYPE_SINGLE_FLOAT then
        .ok (__dbof_1_read_object_single_float cs r.2)
      else if type_id = DBOF_TYPE_DOUBLE_FLOAT then
        .ok (__dbof_1_read_object_double_float cs r.2)
      else if type_id = DBOF_TYPE_CHARACTER then .ok (__dbof_1_read_object_character cs r.2)
      else if type_id = DBOF_TYPE_UTF8_STRING then __dbof_1_read_object_utf8_string cs r.2
      else if type_id = DBOF_TYPE_TYPED_ARRAY then
        __dbof_1_read_object_typed_array cs (fun rd => __dbof_1_read_object cs fuel rd 0) r.2
      else if type_id = DBOF_TYPE_UNTYPED_ARRAY then
        __dbof_1_read_object_untyped_array cs (fun rd => __dbof_1_read_object cs fuel rd 0) r.2
      else if type_id = DBOF_TYPE_TYPED_MAP then __dbof_1_read_object_typed_map cs r.2
      else if type_id = DBOF_TYPE_UNTYPED_MAP then __dbof_1_read_object_untyped_map cs r.2
      else .ok (none, r.2)

/-! ## Dispatched serialization -/

def DBOF_SER_DEFAULT : Nat := 1

/-- The argument `junk` gives the contents of the automatic array `header` before the
call of the callback, whose count is not looked at; cell `i` keeps `junk i` when fewer
than `i + 1` bytes are delivered.  Every nesting level of the stream costs one byte,
so the depth bound passed on is the number of unread bytes plus one. -/
def dbof_read (cs : Bool) (reader : dbof_reader) (junk : Nat → Byte) :
    Except Fault dbof_object :=
  if reader.no_header ≠ 0 then
    if reader.use_version = 0 then .ok none
    else
      let version : U16 := reader.use_version
      if version = 1 then
        (__dbof_1_read_object cs (reader.data.length + 1) reader 1).map Prod.fst
      else .ok none
  else
    let r := __dbof_file_reader_impl_read reader 6
    let header : Nat → Byte := fun i => r.1.getD i (junk i)
    if ¬ (header 0 = 0x44 ∧ header 1 = 0x42 ∧ header 2 = 0x4F ∧ header 3 = 0x46) then
      .ok none
    else
      let version : U16 := 0
      let version := u16 (version.val ||| ((u16 (char_to_unsigned cs 16 (header 4))).val <<< 0))
      let version := u16 (version.val ||| ((u16 (char_to_unsigned cs 16 (header 5))).val <<< 8))
      if version = 1 then
        (__dbof_1_read_object cs (r.2.data.length + 1) r.2 1).map Prod.fst
      else .ok none

/-- The local `version` is a `short`; it is kept as its 16-bit pattern.  The count
returned for the header block is not looked at. -/
def dbof_write {σ : Type} (object : Obj) (writer : dbof_writer σ) :
    Except Fault (Int × dbof_writer σ) :=
  let version : U16 := writer.use_version
  let version := if version = 0 then u16 DBOF_SER_DEFAULT else version
  let writer :=
    if writer.no_header = 0 then
      let version_lsb := byte ((version.val &&& 0x00ff) >>> 0)
      let version_msb := byte ((version.val &&& 0xff00) >>> 8)
      (writer.call [0x44, 0x42, 0x4F, 0x46, version_lsb, version_msb]).2
    else writer
  if version = 1 then __dbof_1_write_object object writer 1
  else .ok (1, writer)

/-- From `file.h`: the file is the list of its bytes, the result is the status and the
file afterwards. -/
def dbof_file_write (object : Obj) (file : List Byte) : Except Fault (Int × List Byte) :=
  (dbof_write object (file_writer file)).map (fun r => (r.1, r.2.data))

/-- From `file.h`: reading starts at the first byte of `file`. -/
def dbof_file_read (cs : Bool) (file : List Byte) (junk : Nat → Byte) :
    Except Fault dbof_object :=
  dbof_read cs (file_reader file) junk

/-! ## Object core: creation, hashing, equality -/

def dbof_new (type : dbof_type) : Obj :=
  match type with
  | 0 => .null
  | 1 => .signed_byte 0
  | 2 => .unsigned_byte 0
  | 3 => .signed_integer 0
  | 4 => .unsigned_integer 0
  | 5 => .signed_long_integer 0
  | 6 => .unsigned_long_integer 0
  | 7 => .boolean 0
  | 8 => .single_float 0
  | 9 => .double_float 0
  | 10 => .character 0
  | 11 => .utf8_string none
  | 12 => __new_object_typed_array.toObj
  | 13 => __new_object_untyped_array.toObj
  | 14 => .typed_map 0 0 0
  | 15 => .untyped_map 0
  | _ => .null

/-- The setter stores through a cast to `struct __object_signed_byte_impl`; on an
object of another kind that is outside the model. -/
def dbof_set_value_signed_byte (object : Obj) (value : Int) : Except Fault Obj :=
  match object with
  | .signed_byte _ => .ok (.signed_byte (byte (value % 256).toNat))
  | _ => .error .undefined_behaviour

def dbof_get_value_signed_byte (object : Obj) : Except Fault Int :=
  match object with
  | .signed_byte value => .ok (int8 value)
  | _ => .error .undefined_behaviour

def dbof_set_value_signed_integer (object : Obj) (value : Int) : Except Fault Obj :=
  match object with
  | .signed_integer _ => .ok (.signed_integer (u32 (value % 4294967296).toNat))
  | _ => .error .undefined_behaviour

def dbof_get_value_signed_integer (object : Obj) : Except Fault Int :=
  match object with
  | .signed_integer value => .ok (int32 value.val)
  | _ => .error .undefined_behaviour

def dbof_get_value_signed_long_integer (object : Obj) : Except Fault Int :=
  match object with
  | .signed_long_integer value => .ok (int64 value.val)
  | _ => .error .undefined_behaviour

def __hash_object_signed_long_integer (value : U64) : Int :=
  let un := value.val
  int32 (un ^^^ (un >>> (8 * 8 / 2)))

def __hash_object_unsigned_long_integer (value : U64) : Int :=
  int32 (value.val ^^^ (value.val >>> (8 * 8 / 2)))

def __hash_object_boolean (value : Byte) : Int :=
  if value ≠ 0 then 1231 else 1237

def __hash_object_single_float (value : U32) : Int :=
  let out := value.val
  let MASK_EXPONENT := 0x7f800000
  let MASK_MANTISSA := 0x007fffff
  let exponent := out &&& MASK_EXPONENT
  let mantissa := out &&& MASK_MANTISSA
  if exponent = MASK_EXPONENT ∧ mantissa ≠ 0 then int32 0x7fc00000
  else int32 out

def __hash_object_double_float (value : U64) : Int :=
  let out := value.val
  let MASK_EXPONENT := 0x7ff0000000000000
  let MASK_MANTISSA := 0x000fffffffffffff
  let exponent := out &&& MASK_EXPONENT
  let mantissa := out &&& MASK_MANTISSA
  if exponent = MASK_EXPONENT ∧ mantissa ≠ 0 then
    let r := 0x7ff8000000000000
    int32 (r ^^^ (r >>> 32))
  else int32 (out ^^^ (out >>> 32))

/-- Conversion of an `int` expression to `int` with two's complement wrap-around. -/
def wrap_int (z : Int) : Int := int32 (z % 4294967296).toNat

/-- The loop adds the plain `char` cells `value[i]`, `i < strlen (value)`, in `int`
arithmetic, taken with wrap-around; `strlen (NULL)` is undefined. -/
def __hash_object_utf8_string (cs : Bool) (value : Option (List Byte)) : Except Fault Int :=
  match value with
  | none => .error .undefined_behaviour
  | some buf =>
    .ok ((buf.take (strlen buf)).foldl (fun hash c => wrap_int (char_value cs c + hash * 31)) 0)

/-- The argument is a reference: `none` is `NULL`, for which the function returns 0. -/
def dbof_hash (cs : Bool) (object : dbof_object) : Except Fault Int :=
  match object with
  | none => .ok 0
  | some .null => .ok 0
  | some (.signed_byte value) => .ok (int8 value)
  | some (.unsigned_byte value) => .ok (value.val : Int)
  | some (.signed_integer value) => .ok (int32 value.val)
  | some (.unsigned_integer value) => .ok (int32 value.val)
  | some (.signed_long_integer value) => .ok (__hash_object_signed_long_integer value)
  | some (.unsigned_long_integer value) => .ok (__hash_object_unsigned_long_integer value)
  | some (.boolean value) => .ok (__hash_object_boolean value)
  | some (.single_float value) => .ok (__hash_object_single_float value)
  | some (.double_float value) => .ok (__hash_object_double_float value)
  | some (.character value) => .ok (int32 value.val)
  | some (.utf8_string value) => __hash_object_utf8_string cs value
  | some (.typed_array _ _ _) => .ok 0
  | some (.untyped_array _ _) => .ok 0
  | some (.typed_map _ _ _) => .ok 0
  | some (.untyped_map _) => .ok 0

def dbof_equals (cs : Bool) (a b : dbof_object) : Except Fault Int :=
  match a, b with
  | none, none => .ok 1
  | none, some _ => .ok 0
  | some _, none => .ok 0
  | some oa, some ob =>
    if !dbof_same_category oa ob then .ok 0
    else
      let type_a := dbof_typeof oa
      let type_b := dbof_typeof ob
      if dbof_is_container_type type_a ∧ type_a ≠ type_b then .ok 1
      else
        match dbof_hash cs a, dbof_hash cs b with
        | .error e, _ => .error e
        | _, .error e => .error e
        | .ok hash_a, .ok hash_b => if hash_a ≠ hash_b then .ok 0 else .ok 1

/-! ## Arrays: the operations behind the public functions

Objects are passed by reference in C and the array functions update the array in
place; here every function returns the array as it is after the call.  The object
arguments are references to objects (not `NULL`). -/

def __internal_array_base_get_capacity (array : internal_array_base) : Nat :=
  array.capacity

/-- The status of the resize is dropped. -/
def __internal_array_base_maybe_downscale (array : internal_array_base) :
    internal_array_base :=
  if __internal_array_base_get_size array < array.capacity / 2 then
    (__internal_array_base_resize array (array.capacity / 2)).2
  else array

/-- The cell `children[index]`; the function checks nothing, and `dbof.h` restricts
`index` to `[0, size)`.  A cell from `size` on holds `NULL` or what an earlier call left
there, which the model does not keep, and from `capacity` on there is no cell: reading
either is outside the model. -/
def __internal_array_base_get (array : internal_array_base) (index : Nat) :
    Except Fault dbof_object :=
  match array.children[index]? with
  | some object => .ok (some object)
  | none => .error .undefined_behaviour

/-- The store `children[index] = object`; the function checks nothing.  A store to a
cell between `size` and `capacity` does not show in the cells below `size`; from
`capacity` on there is no cell. -/
def __internal_array_base_set (array : internal_array_base) (index : Nat) (object : Obj) :
    Except Fault internal_array_base :=
  if index < __internal_array_base_get_size array then
    .ok { array with children := array.children.set index object }
  else if index < array.capacity then .ok array
  else .error .undefined_behaviour

/-- The `memmove` copies the cells `[index, size)` to `[index + 1, size + 1)`, then cell
`index` takes the object and `size` is incremented.  Whether cell `size` lies inside
the block is not looked at here: `Heap.__internal_array_base_insert` does so. -/
def __internal_array_base_insert (array : internal_array_base) (index : Nat) (object : Obj) :
    Int × internal_array_base :=
  if index > __internal_array_base_get_size array then (-1, array)
  else
    let r := __internal_array_base_ensure_space array
    if r.1 ≠ 0 then (-1, r.2)
    else
      (0, { r.2 with
        children := r.2.children.take index ++ object :: r.2.children.drop index })

/-- The `memmove` copies `size - index` cells, those of `[index + 1, size + 1)`, to
`[index, size)`: it reads cell `size`, which does not exist when `size` is the
capacity.  Then `size` is decremented. -/
def __internal_array_base_remove (array : internal_array_base) (index : Nat) :
    Except Fault (dbof_object × internal_array_base) :=
  if index ≥ __internal_array_base_get_size array then .ok (none, array)
  else
    match array.children[index]? with
    | none => .error .undefined_behaviour
    | some object =>
      if __internal_array_base_get_size array ≥ array.capacity then
        .error .undefined_behaviour
      else
        let array :=
          { array with
            children := array.children.take index ++ array.children.drop (index + 1) }
        .ok (some object, __internal_array_base_maybe_downscale array)

/-- The index `array->size - 1` is computed in `size_t`: for an empty array it is
2^64 - 1. -/
def __internal_array_base_pop_back (array : internal_array_base) :
    Except Fault (dbof_object × internal_array_base) :=
  let index :=
    (__internal_array_base_get_size array + 18446744073709551616 - 1) % 18446744073709551616
  match __internal_array_base_remove array index with
  | .error e => .error e
  | .ok (object, array) => .ok (object, __internal_array_base_maybe_downscale array)

def __object_typed_array_impl_get_size (array : object_typed_array_impl) : Nat :=
  __internal_array_base_get_size array.base

def __object_typed_array_impl_set_type (array : object_typed_array_impl) (type : dbof_type) :
    object_typed_array_impl :=
  if __object_typed_array_impl_is_empty array then { array with type := type } else array

def __object_typed_array_impl_get (array : object_typed_array_impl) (index : Nat) :
    Except Fault dbof_object :=
  __internal_array_base_get array.base index

def __object_typed_array_impl_set (array : object_typed_array_impl) (index : Nat)
    (object : Obj) : Except Fault object_typed_array_impl :=
  if dbof_typeof object = array.type then
    match __internal_array_base_set array.base index object with
    | .error e => .error e
    | .ok base => .ok { array with base := base }
  else .ok array

/-- The status of the insertion is dropped; the kind of the object is not looked at. -/
def __object_typed_array_impl_insert (array : object_typed_array_impl) (index : Nat)
    (object : Obj) : object_typed_array_impl :=
  { array with base := (__internal_array_base_insert array.base index object).2 }

def __object_typed_array_impl_remove (array : object_typed_array_impl) (index : Nat) :
    Except Fault (dbof_object × object_typed_array_impl) :=
  match __internal_array_base_remove array.base index with
  | .error e => .error e
  | .ok (object, base) => .ok (object, { array with base := base })

def __object_typed_array_impl_pop_back (array : object_typed_array_impl) :
    Except Fault (dbof_object × object_typed_array_impl) :=
  match __internal_array_base_pop_back array.base with
  | .error e => .error e
  | .ok (object, base) => .ok (object, { array with base := base })

def __object_untyped_array_impl_get_size (array : internal_array_base) : Nat :=
  __internal_array_base_get_size array

def __object_untyped_array_impl_get (array : internal_array_base) (index : Nat) :
    Except Fault dbof_object :=
  __internal_array_base_get array index

/-! ### The public functions

Each takes a `dbof_object` and hands it to the function above as a pointer to the
array structure; on an object of another kind that is outside the model. -/

def as_typed_array (array : Obj) : Except Fault object_typed_array_impl :=
  match array with
  | .typed_array capacity children type =>
    .ok { base := { capacity := capacity, children := children }, type := type }
  | _ => .error .undefined_behaviour

def as_untyped_array (array : Obj) : Except Fault internal_array_base :=
  match array with
  | .untyped_array capacity children => .ok { capacity := capacity, children := children }
  | _ => .error .undefined_behaviour

def dbof_typed_array_get_size (array : Obj) : Except Fault Nat :=
  (as_typed_array array).map __object_typed_array_impl_get_size

def dbof_typed_array_set_type (array : Obj) (type : dbof_type) : Except Fault Obj :=
  (as_typed_array array).map (fun a => (__object_typed_array_impl_set_type a type).toObj)

def dbof_typed_array_get (array : Obj) (index : Nat) : Except Fault dbof_object :=
  match as_typed_array array with
  | .error e => .error e
  | .ok a => __object_typed_array_impl_get a index

def dbof_typed_array_set (array : Obj) (index : Nat) (object : Obj) : Except Fault Obj :=
  match as_typed_array array with
  | .error e => .error e
  | .ok a => (__object_typed_array_impl_set a index object).map (fun a => a.toObj)

def dbof_typed_array_insert (array : Obj) (index : Nat) (object : Obj) : Except Fault Obj :=
  (as_typed_array array).map (fun a => (__object_typed_array_impl_insert a index object).toObj)

def dbof_typed_array_remove (array : Obj) (index : Nat) : Except Fault (dbof_object × Obj) :=
  match as_typed_array array with
  | .error e => .error e
  | .ok a => (__object_typed_array_impl_remove a index).map (fun r => (r.1, r.2.toObj))

def dbof_typed_array_push_back (array : Obj) (object : Obj) : Except Fault Obj :=
  (as_typed_array array).map (fun a => (__object_typed_array_impl_push_back a object).toObj)

def dbof_typed_array_pop_back (array : Obj) : Except Fault (dbof_object × Obj) :=
  match as_typed_array array with
  | .error e => .error e
  | .ok a => (__object_typed_array_impl_pop_back a).map (fun r => (r.1, r.2.toObj))

def dbof_untyped_array_get_size (array : Obj) : Except Fault Nat :=
  (as_untyped_array array).map __object_untyped_array_impl_get_size

def dbof_untyped_array_get (array : Obj) (index : Nat) : Except Fault dbof_object :=
  match as_untyped_array array with
  | .error e => .error e
  | .ok a => __object_untyped_array_impl_get a index

def dbof_untyped_array_push_back (array : Obj) (object : Obj) : Except Fault Obj :=
  (as_untyped_array array).map (fun a => (__object_untyped_array_impl_push_back a object).toObj)

/-- Typed-array homogeneity: when the array is not empty, every element has the kind
that the field `type` holds. -/
def homogeneous (array : Obj) : Prop :=
  match array with
  | .typed_array _ children type =>
    0 < children.length → ∀ child ∈ children, dbof_typeof child = type
  | _ => True

/-- A call of one of the functions that change a typed array. -/
inductive typed_array_call where
  | set_type (type : dbof_type)
  | push_back (object : Obj)
  | insert (index : Nat) (object : Obj)
  | set (index : Nat) (object : Obj)
  | remove (index : Nat)
  | pop_back

/-- The array after the call. -/
def typed_array_call.run (array : Obj) (call : typed_array_call) : Except Fault Obj :=
  match call with
  | .set_type type => dbof_typed_array_set_type array type
  | .push_back object => dbof_typed_array_push_back array object
  | .insert index object => dbof_typed_array_insert array index object
  | .set index object => dbof_typed_array_set array index object
  | .remove index => (dbof_typed_array_remove array index).map Prod.snd
  | .pop_back => (dbof_typed_array_pop_back array).map Prod.snd

def typed_array_call.is_insert (call : typed_array_call) : Bool :=
  match call with
  | .insert _ _ => true
  | _ => false

/-! ### Capacity, shrinking, and the remaining functions of the untyped array -/

/-- The status of the resize is dropped. -/
def __internal_array_base_shrink_to_fit (array : internal_array_base) : internal_array_base :=
  if __internal_array_base_get_size array < array.capacity then
    (__internal_array_base_resize array (__internal_array_base_get_size array)).2
  else array

def __object_typed_array_impl_get_capacity (array : object_typed_array_impl) : Nat :=
  __internal_array_base_get_capacity array.base

def __object_typed_array_impl_shrink_to_fit (array : object_typed_array_impl) :
    object_typed_array_impl :=
  { array with base := __internal_array_base_shrink_to_fit array.base }

def __object_untyped_array_impl_get_capacity (array : internal_array_base) : Nat :=
  __internal_array_base_get_capacity array

def __object_untyped_array_impl_shrink_to_fit (array : internal_array_base) :
    internal_array_base :=
  __internal_array_base_shrink_to_fit array

def __object_untyped_array_impl_set (array : internal_array_base) (index : Nat)
    (object : Obj) : Except Fault internal_array_base :=
  __internal_array_base_set array index object

/-- The status of the insertion is dropped. -/
def __object_untyped_array_impl_insert (array : internal_array_base) (index : Nat)
    (object : Obj) : internal_array_base :=
  (__internal_array_base_insert array index object).2

def __object_untyped_array_impl_remove (array : internal_array_base) (index : Nat) :
    Except Fault (dbof_object × internal_array_base) :=
  __internal_array_base_remove array index

def __object_untyped_array_impl_pop_back (array : internal_array_base) :
    Except Fault (dbof_object × internal_array_base) :=
  __internal_array_base_pop_back array

def dbof_typed_array_get_capacity (array : Obj) : Except Fault Nat :=
  (as_typed_array array).map __object_typed_array_impl_get_capacity

def dbof_typed_array_shrink_to_fit (array : Obj) : Except Fault Obj :=
  (as_typed_array array).map (fun a => (__object_typed_array_impl_shrink_to_fit a).toObj)

def dbof_untyped_array_get_capacity (array : Obj) : Except Fault Nat :=
  (as_untyped_array array).map __object_untyped_array_impl_get_capacity

def dbof_untyped_array_shrink_to_fit (array : Obj) : Except Fault Obj :=
  (as_untyped_array array).map (fun a => (__object_untyped_array_impl_shrink_to_fit a).toObj)

def dbof_untyped_array_set (array : Obj) (index : Nat) (object : Obj) : Except Fault Obj :=
  match as_untyped_array array with
  | .error e => .error e
  | .ok a => (__object_untyped_array_impl_set a index object).map (fun a => a.toObj)

def dbof_untyped_array_insert (array : Obj) (index : Nat) (object : Obj) : Except Fault Obj :=
  (as_untyped_array array).map (fun a => (__object_untyped_array_impl_insert a index object).toObj)

def dbof_untyped_array_remove (array : Obj) (index : Nat) :
    Except Fault (dbof_object × Obj) :=
  match as_untyped_array array with
  | .error e => .error e
  | .ok a => (__object_untyped_array_impl_remove a index).map (fun r => (r.1, r.2.toObj))

def dbof_untyped_array_pop_back (array : Obj) : Except Fault (dbof_object × Obj) :=
  match as_untyped_array array with
  | .error e => .error e
  | .ok a => (__object_untyped_array_impl_pop_back a).map (fun r => (r.1, r.2.toObj))

/-- A call of one of the functions that change the cells of an array, typed or untyped. -/
inductive array_call where
  | push_back (object : Obj)
  | insert (index : Nat) (object : Obj)
  | set (index : Nat) (object : Obj)
  | remove (index : Nat)
  | pop_back
  | shrink_to_fit

/-- The array after the call: the typed array's function on a typed array, the untyped
array's function otherwise. -/
def array_call.run (array : Obj) (call : array_call) : Except Fault Obj :=
  match array with
  | .typed_array _ _ _ =>
    match call with
    | .push_back object => dbof_typed_array_push_back array object
    | .insert index object => dbof_typed_array_insert array index object
    | .set index object => dbof_typed_array_set array index object
    | .remove index => (dbof_typed_array_remove array index).map Prod.snd
    | .pop_back => (dbof_typed_array_pop_back array).map Prod.snd
    | .shrink_to_fit => dbof_typed_array_shrink_to_fit array
  | _ =>
    match call with
    | .push_back object => dbof_untyped_array_push_back array object
    | .insert index object => dbof_untyped_array_insert array index object
    | .set index object => dbof_untyped_array_set array index object
    | .remove index => (dbof_untyped_array_remove array index).map Prod.snd
    | .pop_back => (dbof_untyped_array_pop_back array).map Prod.snd
    | .shrink_to_fit => dbof_untyped_array_shrink_to_fit array

/-! ### The block behind `children`

`__internal_array_base_resize` hands `size * sizeof (dbof_object)` to `realloc`, which
resizes the block of `children`; the function then returns -1 before the new capacity is
stored, so the field `capacity` no longer tells how many cells the block has.  The
functions below list the sizes with which each array function reaches
`__internal_array_base_resize`, in the order of the calls; the block has as many cells
as the last of them says, and the 10 cells of `calloc` before the first.  The block is
taken to stay at its address. -/

/-- The resize calls of `__internal_array_base_ensure_space`: at capacity 0 the call
with size 1, whose status -1 ends the function; else the call with twice the
capacity. -/
def ensure_space_resize_calls (array : internal_array_base) : List Nat :=
  if __internal_array_base_get_size array = array.capacity then
    if array.capacity = 0 then [1] else [array.capacity * 2]
  else []

def maybe_downscale_resize_calls (array : internal_array_base) : List Nat :=
  if __internal_array_base_get_size array < array.capacity / 2 then [array.capacity / 2]
  else []

def shrink_to_fit_resize_calls (array : internal_array_base) : List Nat :=
  if __internal_array_base_get_size array < array.capacity then
    [__internal_array_base_get_size array]
  else []

def insert_resize_calls (array : internal_array_base) (index : Nat) : List Nat :=
  if index > __internal_array_base_get_size array then [] else ensure_space_resize_calls array

/-- The call of `__internal_array_base_maybe_downscale` comes after the decrement of
`size`. -/
def remove_resize_calls (array : internal_array_base) (index : Nat) : List Nat :=
  if index ≥ __internal_array_base_get_size array then []
  else
    maybe_downscale_resize_calls
      { array with
        children := array.children.take index ++ array.children.drop (index + 1) }

def pop_back_resize_calls (array : internal_array_base) : List Nat :=
  let index :=
    (__internal_array_base_get_size array + 18446744073709551616 - 1) % 18446744073709551616
  remove_resize_calls array index ++
    match __internal_array_base_remove array index with
    | .error _ => []
    | .ok (_, array) => maybe_downscale_resize_calls array

/-- The resize calls of a call on an array object.  The typed array's `push_back`
reaches the array core when the array is empty or the kind of the object is the
element kind; its `set` and the untyped array's never resize. -/
def array_call.resize_calls (array : Obj) (call : array_call) : List Nat :=
  match array with
  | .typed_array capacity children type =>
    let base : internal_array_base := { capacity := capacity, children := children }
    match call with
    | .push_back object =>
      if children.length = 0 ∨ dbof_typeof object = type then ensure_space_resize_calls base
      else []
    | .insert index _ => insert_resize_calls base index
    | .set _ _ => []
    | .remove index => remove_resize_calls base index
    | .pop_back => pop_back_resize_calls base
    | .shrink_to_fit => shrink_to_fit_resize_calls base
  | .untyped_array capacity children =>
    let base : internal_array_base := { capacity := capacity, children := children }
    match call with
    | .push_back _ => ensure_space_resize_calls base
    | .insert index _ => insert_resize_calls base index
    | .set _ _ => []
    | .remove index => remove_resize_calls base index
    | .pop_back => pop_back_resize_calls base
    | .shrink_to_fit => shrink_to_fit_resize_calls base
  | _ => []

/-- An array object together with the number of cells of the block behind `children`. -/
structure array_and_block where
  array : Obj
  block : Nat

/-- A fresh array: `calloc (array->capacity, sizeof (dbof_object))` with capacity 10. -/
def array_and_block.fresh (type : dbof_type) : array_and_block :=
  { array := dbof_new type, block := 10 }

/-- The array after the call, and the block after the last `realloc` of the call. -/
def array_call.run_with_block (state : array_and_block) (call : array_call) :
    Except Fault array_and_block :=
  (call.run state.array).map
    (fun array => { array := array, block := (call.resize_calls state.array).getLastD state.block })

/-- Number of cells in use: the stores of the array functions go to the cells below
`size`. -/
def array_and_block.size (state : array_and_block) : Nat :=
  match state.array with
  | .typed_array _ children _ => children.length
  | .untyped_array _ children => children.length
  | _ => 0

def array_and_block.capacity (state : array_and_block) : Nat :=
  match state.array with
  | .typed_array capacity _ _ => capacity
  | .untyped_array capacity _ => capacity
  | _ => 0

/-! ## The array core with the block behind `children`

The array functions above keep the fields `capacity` and `size` and the cells below
`size`.  The functions of this section are the same functions of `dbof.c`, followed
once more with one thing added: what `array->children` points to.  That is a block of
a number of cells, or a block that `realloc` has since freed, or nothing (`NULL`).
`realloc` may resize the block where it is, or move it, or return `NULL`: the choice is
the allocator's, which is a parameter of every function that reaches `realloc`.  A
read or a store of a cell that is not inside a live block is undefined behaviour, and
so is a `realloc` or a `free` of a block that has been freed. -/

/-- What the field `children` points to. -/
inductive Heap.children_pointer where
  | block (cells : Nat)
  | freed
  | null

/-- What a call `realloc (children, cells * sizeof (dbof_object))` does: `in_place`
returns the pointer it was given, the block now having the requested number of cells;
`moved` returns a new block after freeing the old one; `null` returns `NULL` (an
allocator may do so for a request of 0 bytes after freeing the block, as glibc does,
or when it has no memory). -/
inductive Heap.realloc_outcome where
  | in_place
  | moved
  | null

/-- The allocator: its answer to a `realloc`, given what the pointer points to and the
number of cells asked for.  A `realloc` of `NULL` allocates, and any answer but `null`
stands for the new block. -/
abbrev Heap.allocator : Type := Heap.children_pointer → Nat → Heap.realloc_outcome

/-- The fields `capacity` and `children` of `struct __internal_array_base`: `children`
as the contents of the cells below `size` (`size` is their number) and as the
pointer. -/
structure Heap.internal_array_base where
  capacity : Nat
  children : List Obj
  pointer : Heap.children_pointer

/-- The block comes from `calloc (array->capacity, sizeof (dbof_object))`, taken to
succeed. -/
def Heap.__internal_array_base_construct : Heap.internal_array_base :=
  { capacity := 10, children := [], pointer := .block 10 }

def Heap.__internal_array_base_get_capacity (array : Heap.internal_array_base) : Nat :=
  array.capacity

def Heap.__internal_array_base_get_size (array : Heap.internal_array_base) : Nat :=
  array.children.length

/-- Whether cell `index` of `children` lies inside a live block. -/
def Heap.cell_in_block (array : Heap.internal_array_base) (index : Nat) : Bool :=
  match array.pointer with
  | .block cells => decide (index < cells)
  | _ => false

/-- The loop `dbof_delete (array->children[i])` over the cells below `size`, then
`free (array->children)`. -/
def Heap.__internal_array_base_destruct (array : Heap.internal_array_base) : Except Fault Unit :=
  match array.pointer with
  | .block cells =>
    if Heap.__internal_array_base_get_size array ≤ cells then .ok ()
    else .error .undefined_behaviour
  | .freed => .error .undefined_behaviour
  | .null =>
    if Heap.__internal_array_base_get_size array = 0 then .ok () else .error .undefined_behaviour

/-- In C: `children = realloc (array->children, size * sizeof (dbof_object));
if (children != NULL) return -1;` and only then `array->children = children;
array->capacity = size; return 0;`.  So a `realloc` that succeeds leaves both fields
as they were, with `array->children` still holding the old pointer: to the resized
block when it stayed in place, to a freed block when it moved.  Only the answer `NULL`
is stored, with the new capacity.  The byte count is computed in `size_t`, with
`sizeof (dbof_object)` = 8; `cells` is the number of cells it makes. -/
def Heap.__internal_array_base_resize (realloc : Heap.allocator) (array : Heap.internal_array_base)
    (size : Nat) : Except Fault (Int × Heap.internal_array_base) :=
  let cells := size * 8 % 18446744073709551616 / 8
  match array.pointer with
  | .freed => .error .undefined_behaviour
  | .null =>
    match realloc .null cells with
    | .null => .ok (0, { array with capacity := size })
    | _ => .ok (-1, array)
  | .block old =>
    match realloc (.block old) cells with
    | .in_place => .ok (-1, { array with pointer := .block cells })
    | .moved => .ok (-1, { array with pointer := .freed })
    | .null => .ok (0, { array with capacity := size, pointer := .null })

/-- The status of the resize is dropped. -/
def Heap.__internal_array_base_shrink_to_fit (realloc : Heap.allocator)
    (array : Heap.internal_array_base) :
    Except Fault Heap.internal_array_base :=
  if Heap.__internal_array_base_get_size array < array.capacity then
    match Heap.__internal_array_base_resize realloc array
        (Heap.__internal_array_base_get_size array) with
    | .error e => .error e
    | .ok r => .ok r.2
  else .ok array

/-- The doubled capacity is computed in `size_t`. -/
def Heap.__internal_array_base_ensure_space (realloc : Heap.allocator)
    (array : Heap.internal_array_base) :
    Except Fault (Int × Heap.internal_array_base) :=
  if Heap.__internal_array_base_get_size array = array.capacity then
    let first :=
      if array.capacity = 0 then Heap.__internal_array_base_resize realloc array 1
      else .ok (0, array)
    match first with
    | .error e => .error e
    | .ok r1 =>
      if array.capacity = 0 ∧ r1.1 ≠ 0 then .ok (-1, r1.2)
      else
        match Heap.__internal_array_base_resize realloc r1.2
          (r1.2.capacity * 2 % 18446744073709551616) with
        | .error e => .error e
        | .ok r2 => if r2.1 ≠ 0 then .ok (-1, r2.2) else .ok (0, r2.2)
  else .ok (0, array)

/-- The status of the resize is dropped. -/
def Heap.__internal_array_base_maybe_downscale (realloc : Heap.allocator)
    (array : Heap.internal_array_base) : Except Fault Heap.internal_array_base :=
  if Heap.__internal_array_base_get_size array < array.capacity / 2 then
    match Heap.__internal_array_base_resize realloc array (array.capacity / 2) with
    | .error e => .error e
    | .ok r => .ok r.2
  else .ok array

/-- The read of `children[index]`.  A cell from `size` on holds what an earlier call
left there, which is not kept here. -/
def Heap.__internal_array_base_get (array : Heap.internal_array_base) (index : Nat) :
    Except Fault dbof_object :=
  if Heap.cell_in_block array index then
    match array.children[index]? with
    | some object => .ok (some object)
    | none => .error .undefined_behaviour
  else .error .undefined_behaviour

/-- The store `children[index] = object`.  A store to a cell from `size` on does not
show in the cells below `size`. -/
def Heap.__internal_array_base_set (array : Heap.internal_array_base) (index : Nat) (object : Obj) :
    Except Fault Heap.internal_array_base :=
  if Heap.cell_in_block array index then
    if index < Heap.__internal_array_base_get_size array then
      .ok { array with children := array.children.set index object }
    else .ok array
  else .error .undefined_behaviour

/-- The `memmove` copies the cells `[index, size)` to `[index + 1, size + 1)` and the
store goes to cell `index`: the highest cell written is cell `size`, in either case. -/
def Heap.__internal_array_base_insert (realloc : Heap.allocator) (array : Heap.internal_array_base)
    (index : Nat) (object : Obj) : Except Fault (Int × Heap.internal_array_base) :=
  if index > Heap.__internal_array_base_get_size array then .ok (-1, array)
  else
    match Heap.__internal_array_base_ensure_space realloc array with
    | .error e => .error e
    | .ok r =>
      if r.1 ≠ 0 then .ok (-1, r.2)
      else if Heap.cell_in_block r.2 (Heap.__internal_array_base_get_size r.2) then
        .ok (0, { r.2 with
          children := r.2.children.take index ++ object :: r.2.children.drop index })
      else .error .undefined_behaviour

/-- The `memmove` copies `size - index` cells, those of `[index + 1, size + 1)`, to
`[index, size)`: the highest cell read is cell `size`. -/
def Heap.__internal_array_base_remove (realloc : Heap.allocator) (array : Heap.internal_array_base)
    (index : Nat) : Except Fault (dbof_object × Heap.internal_array_base) :=
  if index ≥ Heap.__internal_array_base_get_size array then .ok (none, array)
  else
    match array.children[index]? with
    | none => .error .undefined_behaviour
    | some object =>
      if Heap.cell_in_block array (Heap.__internal_array_base_get_size array) then
        let array :=
          { array with
            children := array.children.take index ++ array.children.drop (index + 1) }
        match Heap.__internal_array_base_maybe_downscale realloc array with
        | .error e => .error e
        | .ok array => .ok (some object, array)
      else .error .undefined_behaviour

/-- The store goes to cell `size`. -/
def Heap.__internal_array_base_push_back (realloc : Heap.allocator)
    (array : Heap.internal_array_base)
    (object : Obj) : Except Fault (Int × Heap.internal_array_base) :=
  match Heap.__internal_array_base_ensure_space realloc array with
  | .error e => .error e
  | .ok r =>
    if r.1 ≠ 0 then .ok (-1, r.2)
    else if Heap.cell_in_block r.2 (Heap.__internal_array_base_get_size r.2) then
      .ok (0, { r.2 with children := r.2.children ++ [object] })
    else .error .undefined_behaviour

/-- The index `array->size - 1` is computed in `size_t`. -/
def Heap.__internal_array_base_pop_back (realloc : Heap.allocator)
    (array : Heap.internal_array_base) :
    Except Fault (dbof_object × Heap.internal_array_base) :=
  let index :=
    (Heap.__internal_array_base_get_size array + 18446744073709551616 - 1) % 18446744073709551616
  match Heap.__internal_array_base_remove realloc array index with
  | .error e => .error e
  | .ok (object, array) =>
    match Heap.__internal_array_base_maybe_downscale realloc array with
    | .error e => .error e
    | .ok array => .ok (object, array)

/-- The array core after a call.  The public functions of the untyped array hand their
arguments to these functions unchanged (`struct __object_untyped_array_impl` is the
array core alone); the statuses and the removed objects are dropped here. -/
def Heap.run (realloc : Heap.allocator) (array : Heap.internal_array_base) (call : array_call) :
    Except Fault Heap.internal_array_base :=
  match call with
  | .push_back object => (Heap.__internal_array_base_push_back realloc array object).map Prod.snd
  | .insert index object =>
    (Heap.__internal_array_base_insert realloc array index object).map Prod.snd
  | .set index object => Heap.__internal_array_base_set array index object
  | .remove index => (Heap.__internal_array_base_remove realloc array index).map Prod.snd
  | .pop_back => (Heap.__internal_array_base_pop_back realloc array).map Prod.snd
  | .shrink_to_fit => Heap.__internal_array_base_shrink_to_fit realloc array

/-- The fields of `struct __object_typed_array_impl`. -/
structure Heap.object_typed_array_impl where
  base : Heap.internal_array_base
  type : dbof_type

def Heap.__object_typed_array_impl_is_empty (array : Heap.object_typed_array_impl) : Bool :=
  Heap.__internal_array_base_get_size array.base == 0

/-- The status of the resize is dropped. -/
def Heap.__object_typed_array_impl_resize (realloc : Heap.allocator)
    (array : Heap.object_typed_array_impl)
    (size : Nat) : Except Fault Heap.object_typed_array_impl :=
  match Heap.__internal_array_base_resize realloc array.base size with
  | .error e => .error e
  | .ok r => .ok { array with base := r.2 }

/-- The status of the push is dropped. -/
def Heap.__object_typed_array_impl_push_back (realloc : Heap.allocator)
    (array : Heap.object_typed_array_impl) (object : Obj) :
    Except Fault Heap.object_typed_array_impl :=
  let type := dbof_typeof object
  let array := if Heap.__object_typed_array_impl_is_empty array then { array with type := type }
    else array
  if type = array.type then
    match Heap.__internal_array_base_push_back realloc array.base object with
    | .error e => .error e
    | .ok r => .ok { array with base := r.2 }
  else .ok array

def Heap.__object_typed_array_impl_get (array : Heap.object_typed_array_impl) (index : Nat) :
    Except Fault dbof_object :=
  Heap.__internal_array_base_get array.base index

def Heap.__new_object_typed_array : Heap.object_typed_array_impl :=
  { base := Heap.__internal_array_base_construct, type := 0 }

/-- The array core's destructor, then `free (array)`. -/
def Heap.__delete_object_typed_array (array : Heap.object_typed_array_impl) : Except Fault Unit :=
  Heap.__internal_array_base_destruct array.base

/-- The status of the resize is dropped. -/
def Heap.__object_untyped_array_impl_resize (realloc : Heap.allocator)
    (array : Heap.internal_array_base)
    (size : Nat) : Except Fault Heap.internal_array_base :=
  match Heap.__internal_array_base_resize realloc array size with
  | .error e => .error e
  | .ok r => .ok r.2

/-- The status of the push is dropped. -/
def Heap.__object_untyped_array_impl_push_back (realloc : Heap.allocator)
    (array : Heap.internal_array_base)
    (object : Obj) : Except Fault Heap.internal_array_base :=
  match Heap.__internal_array_base_push_back realloc array object with
  | .error e => .error e
  | .ok r => .ok r.2

def Heap.__new_object_untyped_array : Heap.internal_array_base :=
  Heap.__internal_array_base_construct

def Heap.__delete_object_untyped_array (array : Heap.internal_array_base) : Except Fault Unit :=
  Heap.__internal_array_base_destruct array

/-- The element loop of the two array readers: `n` times, read an object with the
given reader function and push it.  The flag tells whether all `n` were read: when the
reader function returns `NULL` the loop is left for `fail_protocol` with the array as
it is then. -/
def Heap.read_children {α : Type}
    (read_object : dbof_reader → Except Fault (dbof_object × dbof_reader))
    (push_back : α → Obj → Except Fault α) :
    Nat → α → dbof_reader → Except Fault (Bool × α × dbof_reader)
  | 0, array, reader => .ok (true, array, reader)
  | n + 1, array, reader =>
    match read_object reader with
    | .error e => .error e
    | .ok (none, reader) => .ok (false, array, reader)
    | .ok (some object, reader) =>
      match push_back array object with
      | .error e => .error e
      | .ok array => Heap.read_children read_object push_back n array reader

/-- The parameter `read_object` stands for the call `__dbof_1_read_object (reader, 0)`.
Every path to `fail`, `fail_eof` or `fail_protocol` deletes the array before it returns
`NULL`. -/
def Heap.__dbof_1_read_object_typed_array (realloc : Heap.allocator) (cs : Bool)
    (read_object : dbof_reader → Except Fault (dbof_object × dbof_reader))
    (reader : dbof_reader) : Except Fault (Option Heap.object_typed_array_impl × dbof_reader) :=
  let array := Heap.__new_object_typed_array
  match __dbof_1_read_flex_length_internal cs reader with
  | .error e => .error e
  | .ok (none, reader) =>
    match Heap.__delete_object_typed_array array with
    | .error e => .error e
    | .ok _ => .ok (none, reader)
  | .ok (some size, reader) =>
    let r := __dbof_file_reader_impl_read reader 1
    match r.1 with
    | [] =>
      match Heap.__delete_object_typed_array array with
      | .error e => .error e
      | .ok _ => .ok (none, r.2)
    | element_type_id :: _ =>
      match Heap.__object_typed_array_impl_resize realloc array size.val with
      | .error e => .error e
      | .ok array =>
        let array := { array with type := char_to_unsigned cs 32 element_type_id }
        match Heap.read_children read_object (Heap.__object_typed_array_impl_push_back realloc)
          size.val array r.2 with
        | .error e => .error e
        | .ok (false, array, reader) =>
          match Heap.__delete_object_typed_array array with
          | .error e => .error e
          | .ok _ => .ok (none, reader)
        | .ok (true, array, reader) => .ok (some array, reader)

/-- The parameter `read_object` stands for the call `__dbof_1_read_object (reader, 0)`. -/
def Heap.__dbof_1_read_object_untyped_array (realloc : Heap.allocator) (cs : Bool)
    (read_object : dbof_reader → Except Fault (dbof_object × dbof_reader))
    (reader : dbof_reader) : Except Fault (Option Heap.internal_array_base × dbof_reader) :=
  let array := Heap.__new_object_untyped_array
  match __dbof_1_read_flex_length_internal cs reader with
  | .error e => .error e
  | .ok (none, reader) =>
    match Heap.__delete_object_untyped_array array with
    | .error e => .error e
    | .ok _ => .ok (none, reader)
  | .ok (some size, reader) =>
    match Heap.__object_untyped_array_impl_resize realloc array size.val with
    | .error e => .error e
    | .ok array =>
      match Heap.read_children read_object (Heap.__object_untyped_array_impl_push_back realloc)
        size.val array reader with
      | .error e => .error e
      | .ok (false, array, reader) =>
        match Heap.__delete_object_untyped_array array with
        | .error e => .error e
        | .ok _ => .ok (none, reader)
      | .ok (true, array, reader) => .ok (some array, reader)

/-- Bytes of the chunk that an allocator in the manner of glibc on LP64 uses for a
block of `cells` pointers: the request plus 8 bytes, rounded up to a multiple of 16, at
least 32. -/
def Heap.chunk_bytes (cells : Nat) : Nat :=
  max 32 ((cells * 8 + 8 + 15) / 16 * 16)

/-- An allocator for the examples, in the manner of glibc: a request for 0 bytes frees
the block and returns `NULL`; a request that fits the chunk of the block is served in
place; a larger one moves the block, the chunk behind it being in use. -/
def Heap.chunk_allocator : Heap.allocator := fun pointer cells =>
  if cells = 0 then .null
  else
    match pointer with
    | .block old => if Heap.chunk_bytes cells ≤ Heap.chunk_bytes old then .in_place else .moved
    | _ => .moved

/-- The fields of an array core, without the pointer: the array as the functions
outside `Heap` see it. -/
def fields_of (array : Heap.internal_array_base) : internal_array_base :=
  { capacity := array.capacity, children := array.children }

/-! ## Maps

`dbof_new` makes a map with `__new_empty_object` alone (`calloc`):
`__internal_map_base_construct` is not called, so capacity and size are 0 and there is
no table.  The four functions that would work on the table have a comment for a body. -/

def __internal_map_base_get_size (map : Obj) : Except Fault Nat :=
  match map with
  | .typed_map size _ _ => .ok size
  | .untyped_map size => .ok size
  | _ => .error .undefined_behaviour

/-- The C function returns `map->size == 0`. -/
def __internal_map_base_is_empty (map : Obj) : Except Fault Int :=
  match map with
  | .typed_map size _ _ => .ok (if size = 0 then 1 else 0)
  | .untyped_map size => .ok (if size = 0 then 1 else 0)
  | _ => .error .undefined_behaviour

/-- The body is the comment `// TODO: Put to the map`: the call changes nothing. -/
def __internal_map_base_put (map : Obj) (_key _value : Obj) : Obj :=
  map

/-- The body is the comment `// TODO: Get from the map`: control reaches the end of a
function that returns `dbof_object`, and the callers use the value. -/
def __internal_map_base_get (_map _key : Obj) : Except Fault dbof_object :=
  .error .undefined_behaviour

/-- The body is the comment `// TODO: Remove from the map`: as for `get`. -/
def __internal_map_base_remove (_map _key : Obj) : Except Fault dbof_object :=
  .error .undefined_behaviour

/-- The body is the comment `// TODO: Test for key`: control reaches the end of a
function that returns `int`, and the callers use the value. -/
def __internal_map_base_has_key (_map _key : Obj) : Except Fault Int :=
  .error .undefined_behaviour

def as_typed_map (map : Obj) : Except Fault Obj :=
  match map with
  | .typed_map _ _ _ => .ok map
  | _ => .error .undefined_behaviour

def as_untyped_map (map : Obj) : Except Fault Obj :=
  match map with
  | .untyped_map _ => .ok map
  | _ => .error .undefined_behaviour

def dbof_typed_map_get_size (map : Obj) : Except Fault Nat :=
  match as_typed_map map with
  | .error e => .error e
  | .ok m => __internal_map_base_get_size m

def dbof_typed_map_is_empty (map : Obj) : Except Fault Int :=
  match as_typed_map map with
  | .error e => .error e
  | .ok m => __internal_map_base_is_empty m

def dbof_typed_map_get (map key : Obj) : Except Fault dbof_object :=
  match as_typed_map map with
  | .error e => .error e
  | .ok m => __internal_map_base_get m key

def dbof_typed_map_put (map key value : Obj) : Except Fault Obj :=
  (as_typed_map map).map (fun m => __internal_map_base_put m key value)

def dbof_typed_map_remove (map key : Obj) : Except Fault dbof_object :=
  match as_typed_map map with
  | .error e => .error e
  | .ok m => __internal_map_base_remove m key

def dbof_typed_map_has_key (map key : Obj) : Except Fault Int :=
  match as_typed_map map with
  | .error e => .error e
  | .ok m => __internal_map_base_has_key m key

def dbof_untyped_map_get_size (map : Obj) : Except Fault Nat :=
  match as_untyped_map map with
  | .error e => .error e
  | .ok m => __internal_map_base_get_size m

def dbof_untyped_map_is_empty (map : Obj) : Except Fault Int :=
  match as_untyped_map map with
  | .error e => .error e
  | .ok m => __internal_map_base_is_empty m

def dbof_untyped_map_get (map key : Obj) : Except Fault dbof_object :=
  match as_untyped_map map with
  | .error e => .error e
  | .ok m => __internal_map_base_get m key

def dbof_untyped_map_put (map key value : Obj) : Except Fault Obj :=
  (as_untyped_map map).map (fun m => __internal_map_base_put m key value)

def dbof_untyped_map_remove (map key : Obj) : Except Fault dbof_object :=
  match as_untyped_map map with
  | .error e => .error e
  | .ok m => __internal_map_base_remove m key

def dbof_untyped_map_has_key (map key : Obj) : Except Fault Int :=
  match as_untyped_map map with
  | .error e => .error e
  | .ok m => __internal_map_base_has_key m key

/-! ## The hash table of the specification

The values that the specification's table gives, in arithmetic terms, to compare
`dbof_hash` with. -/

/-- The value of the low 32 bits of `v` XOR that of its high 32 bits, read as a 32-bit
signed integer. -/
def lo32_xor_hi32 (v : U64) : Int :=
  int32 ((v.val % 4294967296) ^^^ (v.val / 4294967296))

/-- A binary32 pattern is a NaN when its exponent field (bits 23 .. 30) is all ones
and its fraction field (bits 0 .. 22) is not zero. -/
def is_nan32 (p : U32) : Bool :=
  decide (p.val / 2 ^ 23 % 256 = 255 ∧ p.val % 2 ^ 23 ≠ 0)

/-- A binary64 pattern is a NaN when its exponent field (bits 52 .. 62) is all ones
and its fraction field (bits 0 .. 51) is not zero. -/
def is_nan64 (p : U64) : Bool :=
  decide (p.val / 2 ^ 52 % 2048 = 2047 ∧ p.val % 2 ^ 52 ≠ 0)

/-- The table for the fixed-width scalar kinds; `none` for the other kinds. -/
def scalar_hash_table (object : Obj) : Option Int :=
  match object with
  | .null => some 0
  | .signed_byte value => some (if value.val < 128 then value.val else (value.val : Int) - 256)
  | .unsigned_byte value => some value.val
  | .signed_integer value => some (int32 value.val)
  | .unsigned_integer value => some (int32 value.val)
  | .character value => some (int32 value.val)
  | .signed_long_integer value => some (lo32_xor_hi32 value)
  | .unsigned_long_integer value => some (lo32_xor_hi32 value)
  | .boolean value => some (if value.val ≠ 0 then 1231 else 1237)
  | .single_float value => some (if is_nan32 value then int32 0x7FC00000 else int32 value.val)
  | .double_float value =>
    some (lo32_xor_hi32 (if is_nan64 value then 0x7FF8000000000000 else value))
  | _ => none

/-- The accumulator of the table's string row, `h := b + 31 h` from `h = 0` over the
bytes in order with each byte taken as its value 0 .. 255, computed in the integers,
then reduced modulo 2^32 and read as a 32-bit signed integer. -/
def string_hash_table (bytes : List Byte) : Int :=
  wrap_int (bytes.foldl (fun h b => (b.val : Int) + 31 * h) 0)

/-- The same accumulator with each byte taken as its plain `char` value. -/
def plain_char_string_hash (cs : Bool) (bytes : List Byte) : Int :=
  wrap_int (bytes.foldl (fun h b => char_value cs b + 31 * h) 0)

/-! ## The byte string of an object

`encoding` describes, as a function of the object, the bytes that
`__dbof_1_write_object` passes to a sink that takes everything; it is used in proofs
only, through `write_object_file_writer`. -/

/-- The size byte and the cells that `__dbof_1_write_flex_length_internal` writes. -/
def flex_encoding (length : U64) : List Byte :=
  byte (__count_min_bytes_internal length) ::
    (List.range (__count_min_bytes_internal length)).map (flex_cell length)

mutual

def encoding : Obj → Except Fault (List Byte)
  | .null => .ok [0]
  | .signed_byte value => .ok [1, value]
  | .unsigned_byte value => .ok [2, value]
  | .signed_integer value => .ok (3 :: pack_le32 value)
  | .unsigned_integer value => .ok (4 :: pack_le32 value)
  | .signed_long_integer value => .ok (5 :: pack_le64 value)
  | .unsigned_long_integer value => .ok (6 :: pack_le64 value)
  | .boolean value => .ok [7, value]
  | .single_float value => .ok (8 :: pack_le32 value)
  | .double_float value => .ok (9 :: pack_le64 value)
  | .character value => .ok (10 :: pack_le32 value)
  | .utf8_string none => .error .undefined_behaviour
  | .utf8_string (some buf) =>
    .ok (11 :: (flex_encoding (u64 (strlen buf)) ++ buf.take (strlen buf)))
  | .typed_array _ children type =>
    match encodings children with
    | .error e => .error e
    | .ok bs => .ok (12 :: (flex_encoding (u64 children.length) ++ byte type :: bs))
  | .untyped_array _ children =>
    match encodings children with
    | .error e => .error e
    | .ok bs => .ok (13 :: (flex_encoding (u64 children.length) ++ bs))
  | .typed_map size key_type value_type =>
    .ok (14 :: (flex_encoding (u64 size) ++ [byte key_type, byte value_type]))
  | .untyped_map size => .ok (15 :: flex_encoding (u64 size))

def encodings : List Obj → Except Fault (List Byte)
  | [] => .ok []
  | object :: rest =>
    match encoding object with
    | .error e => .error e
    | .ok b =>
      match encodings rest with
      | .error e => .error e
      | .ok bs => .ok (b ++ bs)

end

/-! ## Observing writers and readers -/

/-- A writer whose sink state is the list of the blocks it was handed, oldest first, and
whose reported count is `accept log buf` for the block `buf` after the blocks `log`.
The codec sees nothing of a callback but the counts it reports, and a deterministic
callback's count is a function of the blocks handed over so far, so `accept` ranges
over every behaviour a callback can show. -/
def recording_writer (accept : List (List Byte) → List Byte → Nat) (use_version : U16)
    (no_header : Int) : dbof_writer (List (List Byte)) :=
  { write := fun log buf => (accept log buf, log ++ [buf]),
    use_version := use_version, no_header := no_header, data := [] }

/-- The byte `b`, seen as the plain `char` tag that `__dbof_1_read_object` switches
on, is none of the sixteen enumerators of `dbof_type`. -/
def unknown_type_id (cs : Bool) (b : Byte) : Bool :=
  decide (char_value cs b < 0 ∨ 15 < char_value cs b)

/-- Cell `i` of the array `header` of `dbof_read` after the callback was asked for six
bytes: the byte delivered, or `junk i` when fewer than `i + 1` bytes were delivered. -/
def header_cell (reader : dbof_reader) (junk : Nat → Byte) (i : Nat) : Byte :=
  (reader.data.take 6).getD i (junk i)

/-- The reader at the point where `dbof_read` starts on the object: the reader itself
when `no_header` is set, else the reader after the six header bytes. -/
def body_reader (reader : dbof_reader) : dbof_reader :=
  if reader.no_header ≠ 0 then reader else { reader with data := reader.data.drop 6 }

/-- The writer `w'` has the callback of `w` and a log that continues the log of `w`. -/
def log_extends (w w' : dbof_writer (List (List Byte))) : Prop :=
  w'.write = w.write ∧ ∃ more, w'.data = w.data ++ more

/-! ## Words and bytes -/

theorem and_shifted_mask (v k : Nat) :
    (v &&& (0xff <<< k)) >>> k = (v >>> k) &&& 0xff := by
  apply Nat.eq_of_testBit_eq
  intro j
  simp [Nat.testBit_shiftRight, Nat.testBit_and, Nat.testBit_shiftLeft]

theorem and_shifted_mask_mod (v k : Nat) :
    ((v &&& (0xff <<< k)) >>> k) % 256 = v / 2 ^ k % 256 := by
  rw [and_shifted_mask, Nat.shiftRight_eq_div_pow]
  have h := Nat.and_pow_two_sub_one_eq_mod (v / 2 ^ k) 8
  norm_num at h
  rw [h]
  exact Nat.mod_mod _ _

theorem byte_mask_shift (v k : Nat) :
    byte ((v &&& (0xff <<< k)) >>> k) = byte (v / 2 ^ k) := by
  apply Fin.ext
  simp only [byte]
  exact and_shifted_mask_mod v k

theorem pack_le32_eq (v : U32) :
    pack_le32 v =
      [byte (v.val / 2 ^ 0), byte (v.val / 2 ^ 8), byte (v.val / 2 ^ 16),
        byte (v.val / 2 ^ 24)] := by
  rw [← byte_mask_shift v.val 0, ← byte_mask_shift v.val 8, ← byte_mask_shift v.val 16,
    ← byte_mask_shift v.val 24]
  rfl

theorem pack_le64_eq (v : U64) :
    pack_le64 v =
      [byte (v.val / 2 ^ 0), byte (v.val / 2 ^ 8), byte (v.val / 2 ^ 16),
        byte (v.val / 2 ^ 24), byte (v.val / 2 ^ 32), byte (v.val / 2 ^ 40),
        byte (v.val / 2 ^ 48), byte (v.val / 2 ^ 56)] := by
  rw [← byte_mask_shift v.val 0, ← byte_mask_shift v.val 8, ← byte_mask_shift v.val 16,
    ← byte_mask_shift v.val 24, ← byte_mask_shift v.val 32, ← byte_mask_shift v.val 40,
    ← byte_mask_shift v.val 48, ← byte_mask_shift v.val 56]
  rfl

/-! ## Writing to a sink that takes every byte -/

theorem call_file_writer (w : dbof_writer (List Byte))
    (hw : w.write = __dbof_file_writer_impl_write) (buf : List Byte) :
    w.call buf = (buf.length, { w with data := w.data ++ buf }) := by
  simp [dbof_writer.call, hw, __dbof_file_writer_impl_write]

theorem write_1_file_writer (w : dbof_writer (List Byte))
    (hw : w.write = __dbof_file_writer_impl_write) (v : Byte) :
    write_1 v w = (0, { w with data := w.data ++ [v] }) := by
  simp [write_1, call_file_writer w hw]

theorem write_4_file_writer (w : dbof_writer (List Byte))
    (hw : w.write = __dbof_file_writer_impl_write) (v : U32) :
    write_4 v w = (0, { w with data := w.data ++ pack_le32 v }) := by
  simp [write_4, call_file_writer w hw, pack_le32]

theorem write_8_file_writer (w : dbof_writer (List Byte))
    (hw : w.write = __dbof_file_writer_impl_write) (v : U64) :
    write_8 v w = (0, { w with data := w.data ++ pack_le64 v }) := by
  simp [write_8, call_file_writer w hw, pack_le64]

theorem write_flex_file_writer (w : dbof_writer (List Byte))
    (hw : w.write = __dbof_file_writer_impl_write) (length : U64) :
    __dbof_1_write_flex_length_internal w length =
      (0, { w with data := w.data ++ flex_encoding length }) := by
  simp [__dbof_1_write_flex_length_internal, call_file_writer w hw, call_file_writer,
    hw, flex_encoding]

theorem write_string_file_writer (w : dbof_writer (List Byte))
    (hw : w.write = __dbof_file_writer_impl_write) (value : Option (List Byte)) :
    __dbof_1_write_object_string value w =
      match value with
      | none => .error .undefined_behaviour
      | some buf =>
        .ok (0, { w with
          data := w.data ++ (flex_encoding (u64 (strlen buf)) ++ buf.take (strlen buf)) }) := by
  cases value with
  | none => rfl
  | some buf =>
    have hlen : (List.take (strlen buf) buf).length = strlen buf := by
      simp only [strlen, List.length_take]
      exact Nat.min_eq_left (List.takeWhile_prefix _).length_le
    simp [__dbof_1_write_object_string, write_flex_file_writer w hw, call_file_writer, hw,
      hlen]

mutual

theorem write_object_file_writer (object : Obj) (w : dbof_writer (List Byte))
    (hw : w.write = __dbof_file_writer_impl_write) (t : Int) :
    __dbof_1_write_object object w t =
      (encoding object).map (fun bs => (0, { w with data := w.data ++ bs })) := by
  match object with
  | .null =>
    simp [__dbof_1_write_object, encoding, call_file_writer w hw, dbof_typeof, byte,
      DBOF_TYPE_NULL, __dbof_1_write_object_null, Except.map]
  | .signed_byte v =>
    simp [__dbof_1_write_object, encoding, call_file_writer w hw, dbof_typeof, byte,
      DBOF_TYPE_SIGNED_BYTE, __dbof_1_write_object_signed_byte, write_1_file_writer, hw, Except.map]
  | .unsigned_byte v =>
    simp [__dbof_1_write_object, encoding, call_file_writer w hw, dbof_typeof, byte,
      DBOF_TYPE_UNSIGNED_BYTE, __dbof_1_write_object_unsigned_byte, write_1_file_writer, hw, Except.map]
  | .signed_integer v =>
    simp [__dbof_1_write_object, encoding, call_file_writer w hw, dbof_typeof, byte,
      DBOF_TYPE_SIGNED_INTEGER, __dbof_1_write_object_signed_integer, write_4_file_writer, hw, Except.map]
  | .unsigned_integer v =>
    simp [__dbof_1_write_object, encoding, call_file_writer w hw, dbof_typeof, byte,
      DBOF_TYPE_UNSIGNED_INTEGER, __dbof_1_write_object_unsigned_integer, write_4_file_writer, hw, Except.map]
  | .signed_long_integer v =>
    simp [__dbof_1_write_object, encoding, call_file_writer w hw, dbof_typeof, byte,
      DBOF_TYPE_SIGNED_LONG_INTEGER, __dbof_1_write_object_signed_long_integer, write_8_file_writer, hw, Except.map]
  | .unsigned_long_integer v =>
    simp [__dbof_1_write_object, encoding, call_file_writer w hw, dbof_typeof, byte,
      DBOF_TYPE_UNSIGNED_LONG_INTEGER, __dbof_1_write_object_unsigned_long_integer, write_8_file_writer, hw, Except.map]
  | .boolean v =>
    simp [__dbof_1_write_object, encoding, call_file_writer w hw, dbof_typeof, byte,
      DBOF_TYPE_BOOLEAN, __dbof_1_write_object_boolean, write_1_file_writer, hw, Except.map]
  | .single_float v =>
    simp [__dbof_1_write_object, encoding, call_file_writer w hw, dbof_typeof, byte,
      DBOF_TYPE_SINGLE_FLOAT, __dbof_1_write_object_single_float, write_4_file_writer, hw, Except.map]
  | .double_float v =>
    simp [__dbof_1_write_object, encoding, call_file_writer w hw, dbof_typeof, byte,
      DBOF_TYPE_DOUBLE_FLOAT, __dbof_1_write_object_double_float, write_8_file_writer, hw, Except.map]
  | .character v =>
    simp [__dbof_1_write_object, encoding, call_file_writer w hw, dbof_typeof, byte,
      DBOF_TYPE_CHARACTER, __dbof_1_write_object_character, write_4_file_writer, hw, Except.map]
  | .utf8_string v =>
    cases v with
    | none =>
      simp [__dbof_1_write_object, encoding, call_file_writer w hw, dbof_typeof, byte,
        DBOF_TYPE_UTF8_STRING, write_string_file_writer, hw, Except.map]
    | some buf =>
      simp [__dbof_1_write_object, encoding, call_file_writer w hw, dbof_typeof, byte,
        DBOF_TYPE_UTF8_STRING, write_string_file_writer, hw, Except.map]
  | .typed_array c children ty =>
    have ih := write_typed_array_children_file_writer children
    simp [__dbof_1_write_object, encoding, call_file_writer w hw, call_file_writer, dbof_typeof,
      byte, DBOF_TYPE_TYPED_ARRAY, write_flex_file_writer, hw, ih]
    cases encodings children <;> simp [Except.map, List.append_assoc]
  | .untyped_array c children =>
    have ih := write_untyped_array_children_file_writer children
    simp [__dbof_1_write_object, encoding, call_file_writer w hw, call_file_writer, dbof_typeof,
      byte, DBOF_TYPE_UNTYPED_ARRAY, write_flex_file_writer, hw, ih]
    cases encodings children <;> simp [Except.map, List.append_assoc]
  | .typed_map n k v =>
    simp [__dbof_1_write_object, encoding, call_file_writer w hw, call_file_writer, dbof_typeof,
      byte, DBOF_TYPE_TYPED_MAP, __dbof_1_write_object_typed_map, write_flex_file_writer, hw,
      Except.map]
  | .untyped_map n =>
    simp [__dbof_1_write_object, encoding, call_file_writer w hw, dbof_typeof, byte,
      DBOF_TYPE_UNTYPED_MAP, __dbof_1_write_object_untyped_map, write_flex_file_writer, hw,
      Except.map]

theorem write_typed_array_children_file_writer (children : List Obj)
    (w : dbof_writer (List Byte)) (hw : w.write = __dbof_file_writer_impl_write) :
    write_typed_array_children children w =
      (encodings children).map (fun bs => { w with data := w.data ++ bs }) := by
  match children with
  | [] => simp [write_typed_array_children, encodings, Except.map]
  | object :: rest =>
    have ih1 := write_object_file_writer object w hw 0
    rw [write_typed_array_children, ih1, encodings]
    cases h : encoding object with
    | error e => simp [Except.map]
    | ok b =>
      have ih2 := write_typed_array_children_file_writer rest { w with data := w.data ++ b } hw
      simp only [Except.map]
      rw [ih2]
      cases encodings rest <;> simp [Except.map, List.append_assoc]

theorem write_untyped_array_children_file_writer (children : List Obj)
    (w : dbof_writer (List Byte)) (hw : w.write = __dbof_file_writer_impl_write) :
    write_untyped_array_children children w =
      (encodings children).map (fun bs => (0, { w with data := w.data ++ bs })) := by
  match children with
  | [] => simp [write_untyped_array_children, encodings, Except.map]
  | object :: rest =>
    have ih1 := write_object_file_writer object w hw 0
    rw [write_untyped_array_children, ih1, encodings]
    cases h : encoding object with
    | error e => simp [Except.map]
    | ok b =>
      have ih2 := write_untyped_array_children_file_writer rest { w with data := w.data ++ b } hw
      simp only [Except.map]
      simp only [ne_eq, not_true_eq_false, if_false]
      rw [ih2]
      cases encodings rest <;> simp [Except.map, List.append_assoc]

end

theorem dbof_file_write_eq (object : Obj) (file : List Byte) :
    dbof_file_write object file =
      (encoding object).map
        (fun bs => (0, file ++ ([0x44, 0x42, 0x4F, 0x46, 0x01, 0x00] ++ bs))) := by
  have h := write_object_file_writer object
    { file_writer file with data := file ++ [0x44, 0x42, 0x4F, 0x46, 0x01, 0x00] } rfl 1
  have hcall : (file_writer file).call [0x44, 0x42, 0x4F, 0x46, 0x01, 0x00] =
      (6, { file_writer file with data := file ++ [0x44, 0x42, 0x4F, 0x46, 0x01, 0x00] }) :=
    rfl
  have hstep : dbof_write object (file_writer file) =
      __dbof_1_write_object object
        { file_writer file with data := file ++ [0x44, 0x42, 0x4F, 0x46, 0x01, 0x00] } 1 := by
    simp [dbof_write, file_writer, u16, DBOF_SER_DEFAULT, dbof_writer.call,
      __dbof_file_writer_impl_write, byte]
  rw [dbof_file_write, hstep, h]
  cases encoding object <;> simp [Except.map, file_writer]

/-! ## Scalar payloads -/

theorem int32_pattern (p : U32) : (int32 p.val % 4294967296).toNat = p.val := by
  have hp := p.isLt
  unfold int32
  split <;> omega

theorem int64_pattern (p : U64) : (int64 p.val % 18446744073709551616).toNat = p.val := by
  have hp := p.isLt
  unfold int64
  split <;> omega

/-- C5: the payload of a SignedInteger, UnsignedInteger or Character object is the four
bytes of its 32-bit pattern, least significant first, and that of a SignedLongInteger or
UnsignedLongInteger object the eight bytes of its 64-bit pattern; the pattern is the
value modulo 2^32 (2^64) in two's complement; `dbof_write` of SignedInteger(1) gives
44 42 4F 46 01 00 03 01 00 00 00. -/
theorem integer_payload_little_endian (out : List Byte) :
    (∀ p : U32,
      __dbof_1_write_object_signed_integer p (file_writer out) =
          (0, file_writer (out ++ [byte p.val, byte (p.val / 256), byte (p.val / 256 ^ 2),
            byte (p.val / 256 ^ 3)])) ∧
        __dbof_1_write_object_unsigned_integer p (file_writer out) =
          (0, file_writer (out ++ [byte p.val, byte (p.val / 256), byte (p.val / 256 ^ 2),
            byte (p.val / 256 ^ 3)])) ∧
        __dbof_1_write_object_character p (file_writer out) =
          (0, file_writer (out ++ [byte p.val, byte (p.val / 256), byte (p.val / 256 ^ 2),
            byte (p.val / 256 ^ 3)])) ∧
        dbof_get_value_signed_integer (.signed_integer p) = .ok (int32 p.val) ∧
        (int32 p.val % 4294967296).toNat = p.val) ∧
    (∀ p : U64,
      __dbof_1_write_object_signed_long_integer p (file_writer out) =
          (0, file_writer (out ++ [byte p.val, byte (p.val / 256), byte (p.val / 256 ^ 2),
            byte (p.val / 256 ^ 3), byte (p.val / 256 ^ 4), byte (p.val / 256 ^ 5),
            byte (p.val / 256 ^ 6), byte (p.val / 256 ^ 7)])) ∧
        __dbof_1_write_object_unsigned_long_integer p (file_writer out) =
          (0, file_writer (out ++ [byte p.val, byte (p.val / 256), byte (p.val / 256 ^ 2),
            byte (p.val / 256 ^ 3), byte (p.val / 256 ^ 4), byte (p.val / 256 ^ 5),
            byte (p.val / 256 ^ 6), byte (p.val / 256 ^ 7)])) ∧
        dbof_get_value_signed_long_integer (.signed_long_integer p) = .ok (int64 p.val) ∧
        (int64 p.val % 18446744073709551616).toNat = p.val) ∧
    dbof_set_value_signed_integer (dbof_new DBOF_TYPE_SIGNED_INTEGER) 1 =
      .ok (.signed_integer 1) ∧
    dbof_file_write (.signed_integer 1) [] =
      .ok (0, [0x44, 0x42, 0x4F, 0x46, 0x01, 0x00, 0x03, 0x01, 0x00, 0x00, 0x00]) := by
  refine ⟨fun p => ?_, fun p => ?_, rfl, rfl⟩
  · have h := write_4_file_writer (file_writer out) rfl p
    rw [pack_le32_eq] at h
    norm_num at h
    exact ⟨h, h, h, rfl, int32_pattern p⟩
  · have h := write_8_file_writer (file_writer out) rfl p
    rw [pack_le64_eq] at h
    norm_num at h
    exact ⟨h, h, rfl, int64_pattern p⟩

/-! ## Reading: dispatch on the tag -/

theorem char_value_small (cs : Bool) (b : Byte) (h : b.val < 128) :
    char_value cs b = (b.val : Int) := by
  unfold char_value
  have : ¬ (128 ≤ b.val) := by omega
  simp [this]

theorem char_to_unsigned_small (cs : Bool) (w : Nat) (b : Byte) (h : b.val < 128) :
    char_to_unsigned cs w b = b.val := by
  unfold char_to_unsigned
  have : ¬ (128 ≤ b.val) := by omega
  simp [this]

theorem read_object_null_tag (cs : Bool) (fuel : Nat) (rest : List Byte) (uv : U16)
    (nh t : Int) :
    __dbof_1_read_object cs (fuel + 1) ⟨0 :: rest, uv, nh⟩ t =
      .ok (__dbof_1_read_object_null ⟨rest, uv, nh⟩) := by
  have hcv : char_value cs 0 = 0 := char_value_small cs 0 (by decide)
  simp only [__dbof_1_read_object, __dbof_file_reader_impl_read, List.take_succ_cons,
    List.take_zero, List.drop_succ_cons, List.drop_zero, hcv]
  norm_num [DBOF_TYPE_NULL]

theorem read_object_signed_byte_tag (cs : Bool) (fuel : Nat) (rest : List Byte) (uv : U16)
    (nh t : Int) :
    __dbof_1_read_object cs (fuel + 1) ⟨1 :: rest, uv, nh⟩ t =
      .ok (__dbof_1_read_object_signed_byte ⟨rest, uv, nh⟩) := by
  have hcv : char_value cs 1 = 1 := char_value_small cs 1 (by decide)
  simp only [__dbof_1_read_object, __dbof_file_reader_impl_read, List.take_succ_cons,
    List.take_zero, List.drop_succ_cons, List.drop_zero, hcv]
  norm_num [DBOF_TYPE_NULL, DBOF_TYPE_SIGNED_BYTE]

theorem read_object_unsigned_byte_tag (cs : Bool) (fuel : Nat) (rest : List Byte) (uv : U16)
    (nh t : Int) :
    __dbof_1_read_object cs (fuel + 1) ⟨2 :: rest, uv, nh⟩ t =
      .ok (__dbof_1_read_object_unsigned_byte ⟨rest, uv, nh⟩) := by
  have hcv : char_value cs 2 = 2 := char_value_small cs 2 (by decide)
  simp only [__dbof_1_read_object, __dbof_file_reader_impl_read, List.take_succ_cons,
    List.take_zero, List.drop_succ_cons, List.drop_zero, hcv]
  norm_num [DBOF_TYPE_NULL, DBOF_TYPE_SIGNED_BYTE, DBOF_TYPE_UNSIGNED_BYTE]

theorem read_object_signed_integer_tag (cs : Bool) (fuel : Nat) (rest : List Byte) (uv : U16)
    (nh t : Int) :
    __dbof_1_read_object cs (fuel + 1) ⟨3 :: rest, uv, nh⟩ t =
      .ok (__dbof_1_read_object_signed_integer cs ⟨rest, uv, nh⟩) := by
  have hcv : char_value cs 3 = 3 := char_value_small cs 3 (by decide)
  simp only [__dbof_1_read_object, __dbof_file_reader_impl_read, List.take_succ_cons,
    List.take_zero, List.drop_succ_cons, List.drop_zero, hcv]
  norm_num [DBOF_TYPE_NULL, DBOF_TYPE_SIGNED_BYTE, DBOF_TYPE_UNSIGNED_BYTE, DBOF_TYPE_SIGNED_INTEGER]

theorem read_object_unsigned_integer_tag (cs : Bool) (fuel : Nat) (rest : List Byte) (uv : U16)
    (nh t : Int) :
    __dbof_1_read_object cs (fuel + 1) ⟨4 :: rest, uv, nh⟩ t =
      .ok (__dbof_1_read_object_unsigned_integer cs ⟨rest, uv, nh⟩) := by
  have hcv : char_value cs 4 = 4 := char_value_small cs 4 (by decide)
  simp only [__dbof_1_read_object, __dbof_file_reader_impl_read, List.take_succ_cons,
    List.take_zero, List.drop_succ_cons, List.drop_zero, hcv]
  norm_num [DBOF_TYPE_NULL, DBOF_TYPE_SIGNED_BYTE, DBOF_TYPE_UNSIGNED_BYTE, DBOF_TYPE_SIGNED_INTEGER,
    DBOF_TYPE_UNSIGNED_INTEGER]

theorem read_object_signed_long_integer_tag (cs : Bool) (fuel : Nat) (rest : List Byte) (uv : U16)
    (nh t : Int) :
    __dbof_1_read_object cs (fuel + 1) ⟨5 :: rest, uv, nh⟩ t =
      .ok (__dbof_1_read_object_signed_long_integer cs ⟨rest, uv, nh⟩) := by
  have hcv : char_value cs 5 = 5 := char_value_small cs 5 (by decide)
  simp only [__dbof_1_read_object, __dbof_file_reader_impl_read, List.take_succ_cons,
    List.take_zero, List.drop_succ_cons, List.drop_zero, hcv]
  norm_num [DBOF_TYPE_NULL, DBOF_TYPE_SIGNED_BYTE, DBOF_TYPE_UNSIGNED_BYTE, DBOF_TYPE_SIGNED_INTEGER,
    DBOF_TYPE_UNSIGNED_INTEGER, DBOF_TYPE_SIGNED_LONG_INTEGER]

theorem read_object_unsigned_long_integer_tag (cs : Bool) (fuel : Nat) (rest : List Byte) (uv : U16)
    (nh t : Int) :
    __dbof_1_read_object cs (fuel + 1) ⟨6 :: rest, uv, nh⟩ t =
      .ok (__dbof_1_read_object_unsigned_long_integer cs ⟨rest, uv, nh⟩) := by
  have hcv : char_value cs 6 = 6 := char_value_small cs 6 (by decide)
  simp only [__dbof_1_read_object, __dbof_file_reader_impl_read, List.take_succ_cons,
    List.take_zero, List.drop_succ_cons, List.drop_zero, hcv]
  norm_num [DBOF_TYPE_NULL, DBOF_TYPE_SIGNED_BYTE, DBOF_TYPE_UNSIGNED_BYTE, DBOF_TYPE_SIGNED_INTEGER,
    DBOF_TYPE_UNSIGNED_INTEGER, DBOF_TYPE_SIGNED_LONG_INTEGER, DBOF_TYPE_UNSIGNED_LONG_INTEGER]

theorem read_object_boolean_tag (cs : Bool) (fuel : Nat) (rest : List Byte) (uv : U16)
    (nh t : Int) :
    __dbof_1_read_object cs (fuel + 1) ⟨7 :: rest, uv, nh⟩ t =
      .ok (__dbof_1_read_object_boolean ⟨rest, uv, nh⟩) := by
  have hcv : char_value cs 7 = 7 := char_value_small cs 7 (by decide)
  simp only [__dbof_1_read_object, __dbof_file_reader_impl_read, List.take_succ_cons,
    List.take_zero, List.drop_succ_cons, List.drop_zero, hcv]
  norm_num [DBOF_TYPE_NULL, DBOF_TYPE_SIGNED_BYTE, DBOF_TYPE_UNSIGNED_BYTE, DBOF_TYPE_SIGNED_INTEGER,
    DBOF_TYPE_UNSIGNED_INTEGER, DBOF_TYPE_SIGNED_LONG_INTEGER,
    DBOF_TYPE_UNSIGNED_LONG_INTEGER, DBOF_TYPE_BOOLEAN]

theorem read_object_single_float_tag (cs : Bool) (fuel : Nat) (rest : List Byte) (uv : U16)
    (nh t : Int) :
    __dbof_1_read_object cs (fuel + 1) ⟨8 :: rest, uv, nh⟩ t =
      .ok (__dbof_1_read_object_single_float cs ⟨rest, uv, nh⟩) := by
  have hcv : char_value cs 8 = 8 := char_value_small cs 8 (by decide)
  simp only [__dbof_1_read_object, __dbof_file_reader_impl_read, List.take_succ_cons,
    List.take_zero, List.drop_succ_cons, List.drop_zero, hcv]
  norm_num [DBOF_TYPE_NULL, DBOF_TYPE_SIGNED_BYTE, DBOF_TYPE_UNSIGNED_BYTE, DBOF_TYPE_SIGNED_INTEGER,
    DBOF_TYPE_UNSIGNED_INTEGER, DBOF_TYPE_SIGNED_LONG_INTEGER,
    DBOF_TYPE_UNSIGNED_LONG_INTEGER, DBOF_TYPE_BOOLEAN, DBOF_TYPE_SINGLE_FLOAT]

theorem read_object_double_float_tag (cs : Bool) (fuel : Nat) (rest : List Byte) (uv : U16)
    (nh t : Int) :
    __dbof_1_read_object cs (fuel + 1) ⟨9 :: rest, uv, nh⟩ t =
      .ok (__dbof_1_read_object_double_float cs ⟨rest, uv, nh⟩) := by
  have hcv : char_value cs 9 = 9 := char_value_small cs 9 (by decide)
  simp only [__dbof_1_read_object, __dbof_file_reader_impl_read, List.take_succ_cons,
    List.take_zero, List.drop_succ_cons, List.drop_zero, hcv]
  norm_num [DBOF_TYPE_NULL, DBOF_TYPE_SIGNED_BYTE, DBOF_TYPE_UNSIGNED_BYTE, DBOF_TYPE_SIGNED_INTEGER,
    DBOF_TYPE_UNSIGNED_INTEGER, DBOF_TYPE_SIGNED_LONG_INTEGER,
    DBOF_TYPE_UNSIGNED_LONG_INTEGER, DBOF_TYPE_BOOLEAN, DBOF_TYPE_SINGLE_FLOAT,
    DBOF_TYPE_DOUBLE_FLOAT]

theorem read_object_character_tag (cs : Bool) (fuel : Nat) (rest : List Byte) (uv : U16)
    (nh t : Int) :
    __dbof_1_read_object cs (fuel + 1) ⟨10 :: rest, uv, nh⟩ t =
      .ok (__dbof_1_read_object_character cs ⟨rest, uv, nh⟩) := by
  have hcv : char_value cs 10 = 10 := char_value_small cs 10 (by decide)
  simp only [__dbof_1_read_object, __dbof_file_reader_impl_read, List.take_succ_cons,
    List.take_zero, List.drop_succ_cons, List.drop_zero, hcv]
  norm_num [DBOF_TYPE_NULL, DBOF_TYPE_SIGNED_BYTE, DBOF_TYPE_UNSIGNED_BYTE, DBOF_TYPE_SIGNED_INTEGER,
    DBOF_TYPE_UNSIGNED_INTEGER, DBOF_TYPE_SIGNED_LONG_INTEGER,
    DBOF_TYPE_UNSIGNED_LONG_INTEGER, DBOF_TYPE_BOOLEAN, DBOF_TYPE_SINGLE_FLOAT,
    DBOF_TYPE_DOUBLE_FLOAT, DBOF_TYPE_CHARACTER]

theorem read_object_utf8_string_tag (cs : Bool) (fuel : Nat) (rest : List Byte) (uv : U16)
    (nh t : Int) :
    __dbof_1_read_object cs (fuel + 1) ⟨11 :: rest, uv, nh⟩ t =
      __dbof_1_read_object_utf8_string cs ⟨rest, uv, nh⟩ := by
  have hcv : char_value cs 11 = 11 := char_value_small cs 11 (by decide)
  simp only [__dbof_1_read_object, __dbof_file_reader_impl_read, List.take_succ_cons,
    List.take_zero, List.drop_succ_cons, List.drop_zero, hcv]
  norm_num [DBOF_TYPE_NULL, DBOF_TYPE_SIGNED_BYTE, DBOF_TYPE_UNSIGNED_BYTE, DBOF_TYPE_SIGNED_INTEGER,
    DBOF_TYPE_UNSIGNED_INTEGER, DBOF_TYPE_SIGNED_LONG_INTEGER,
    DBOF_TYPE_UNSIGNED_LONG_INTEGER, DBOF_TYPE_BOOLEAN, DBOF_TYPE_SINGLE_FLOAT,
    DBOF_TYPE_DOUBLE_FLOAT, DBOF_TYPE_CHARACTER, DBOF_TYPE_UTF8_STRING]

theorem read_object_typed_array_tag (cs : Bool) (fuel : Nat) (rest : List Byte) (uv : U16)
    (nh t : Int) :
    __dbof_1_read_object cs (fuel + 1) ⟨12 :: rest, uv, nh⟩ t =
      __dbof_1_read_object_typed_array cs (fun rd => __dbof_1_read_object cs fuel rd 0)
        ⟨rest, uv, nh⟩ := by
  have hcv : char_value cs 12 = 12 := char_value_small cs 12 (by decide)
  simp only [__dbof_1_read_object, __dbof_file_reader_impl_read, List.take_succ_cons,
    List.take_zero, List.drop_succ_cons, List.drop_zero, hcv]
  norm_num [DBOF_TYPE_NULL, DBOF_TYPE_SIGNED_BYTE, DBOF_TYPE_UNSIGNED_BYTE, DBOF_TYPE_SIGNED_INTEGER,
    DBOF_TYPE_UNSIGNED_INTEGER, DBOF_TYPE_SIGNED_LONG_INTEGER,
    DBOF_TYPE_UNSIGNED_LONG_INTEGER, DBOF_TYPE_BOOLEAN, DBOF_TYPE_SINGLE_FLOAT,
    DBOF_TYPE_DOUBLE_FLOAT, DBOF_TYPE_CHARACTER, DBOF_TYPE_UTF8_STRING, DBOF_TYPE_TYPED_ARRAY]

theorem read_object_untyped_array_tag (cs : Bool) (fuel : Nat) (rest : List Byte) (uv : U16)
    (nh t : Int) :
    __dbof_1_read_object cs (fuel + 1) ⟨13 :: rest, uv, nh⟩ t =
      __dbof_1_read_object_untyped_array cs (fun rd => __dbof_1_read_object cs fuel rd 0)
        ⟨rest, uv, nh⟩ := by
  have hcv : char_value cs 13 = 13 := char_value_small cs 13 (by decide)
  simp only [__dbof_1_read_object, __dbof_file_reader_impl_read, List.take_succ_cons,
    List.take_zero, List.drop_succ_cons, List.drop_zero, hcv]
  norm_num [DBOF_TYPE_NULL, DBOF_TYPE_SIGNED_BYTE, DBOF_TYPE_UNSIGNED_BYTE, DBOF_TYPE_SIGNED_INTEGER,
    DBOF_TYPE_UNSIGNED_INTEGER, DBOF_TYPE_SIGNED_LONG_INTEGER,
    DBOF_TYPE_UNSIGNED_LONG_INTEGER, DBOF_TYPE_BOOLEAN, DBOF_TYPE_SINGLE_FLOAT,
    DBOF_TYPE_DOUBLE_FLOAT, DBOF_TYPE_CHARACTER, DBOF_TYPE_UTF8_STRING, DBOF_TYPE_TYPED_ARRAY,
    DBOF_TYPE_UNTYPED_ARRAY]

theorem read_object_typed_map_tag (cs : Bool) (fuel : Nat) (rest : List Byte) (uv : U16)
    (nh t : Int) :
    __dbof_1_read_object cs (fuel + 1) ⟨14 :: rest, uv, nh⟩ t =
      __dbof_1_read_object_typed_map cs ⟨rest, uv, nh⟩ := by
  have hcv : char_value cs 14 = 14 := char_value_small cs 14 (by decide)
  simp only [__dbof_1_read_object, __dbof_file_reader_impl_read, List.take_succ_cons,
    List.take_zero, List.drop_succ_cons, List.drop_zero, hcv]
  norm_num [DBOF_TYPE_NULL, DBOF_TYPE_SIGNED_BYTE, DBOF_TYPE_UNSIGNED_BYTE, DBOF_TYPE_SIGNED_INTEGER,
    DBOF_TYPE_UNSIGNED_INTEGER, DBOF_TYPE_SIGNED_LONG_INTEGER,
    DBOF_TYPE_UNSIGNED_LONG_INTEGER, DBOF_TYPE_BOOLEAN, DBOF_TYPE_SINGLE_FLOAT,
    DBOF_TYPE_DOUBLE_FLOAT, DBOF_TYPE_CHARACTER, DBOF_TYPE_UTF8_STRING, DBOF_TYPE_TYPED_ARRAY,
    DBOF_TYPE_UNTYPED_ARRAY, DBOF_TYPE_TYPED_MAP]

theorem read_object_untyped_map_tag (cs : Bool) (fuel : Nat) (rest : List Byte) (uv : U16)
    (nh t : Int) :
    __dbof_1_read_object cs (fuel + 1) ⟨15 :: rest, uv, nh⟩ t =
      __dbof_1_read_object_untyped_map cs ⟨rest, uv, nh⟩ := by
  have hcv : char_value cs 15 = 15 := char_value_small cs 15 (by decide)
  simp only [__dbof_1_read_object, __dbof_file_reader_impl_read, List.take_succ_cons,
    List.take_zero, List.drop_succ_cons, List.drop_zero, hcv]
  norm_num [DBOF_TYPE_NULL, DBOF_TYPE_SIGNED_BYTE, DBOF_TYPE_UNSIGNED_BYTE, DBOF_TYPE_SIGNED_INTEGER,
    DBOF_TYPE_UNSIGNED_INTEGER, DBOF_TYPE_SIGNED_LONG_INTEGER,
    DBOF_TYPE_UNSIGNED_LONG_INTEGER, DBOF_TYPE_BOOLEAN, DBOF_TYPE_SINGLE_FLOAT,
    DBOF_TYPE_DOUBLE_FLOAT, DBOF_TYPE_CHARACTER, DBOF_TYPE_UTF8_STRING, DBOF_TYPE_TYPED_ARRAY,
    DBOF_TYPE_UNTYPED_ARRAY, DBOF_TYPE_TYPED_MAP, DBOF_TYPE_UNTYPED_MAP]

theorem dbof_file_read_header (cs : Bool) (body : List Byte) (junk : Nat → Byte) :
    dbof_file_read cs (0x44 :: 0x42 :: 0x4F :: 0x46 :: 0x01 :: 0x00 :: body) junk =
      (__dbof_1_read_object cs (body.length + 1) ⟨body, 0, 0⟩ 1).map Prod.fst := by
  simp [dbof_file_read, dbof_read, file_reader, __dbof_file_reader_impl_read,
    char_to_unsigned, u16]

/-- C6: for every byte `v`, on either kind of plain `char`, `dbof_file_write` of a
SignedByte, UnsignedByte or Boolean object holding `v` gives the six header bytes, the
tag (1, 2, 7) and `v`, and `dbof_file_read` of these eight bytes gives back an object of
the same kind holding `v`; SignedByte(-1) is the pattern FF, written as
44 42 4F 46 01 00 01 FF and read back with value -1. -/
theorem single_byte_kinds_roundtrip (v : Byte) (cs : Bool) (junk : Nat → Byte) :
    (dbof_file_write (.signed_byte v) [] =
        .ok (0, [0x44, 0x42, 0x4F, 0x46, 0x01, 0x00, 0x01, v]) ∧
      dbof_file_read cs [0x44, 0x42, 0x4F, 0x46, 0x01, 0x00, 0x01, v] junk =
        .ok (some (.signed_byte v))) ∧
    (dbof_file_write (.unsigned_byte v) [] =
        .ok (0, [0x44, 0x42, 0x4F, 0x46, 0x01, 0x00, 0x02, v]) ∧
      dbof_file_read cs [0x44, 0x42, 0x4F, 0x46, 0x01, 0x00, 0x02, v] junk =
        .ok (some (.unsigned_byte v))) ∧
    (dbof_file_write (.boolean v) [] =
        .ok (0, [0x44, 0x42, 0x4F, 0x46, 0x01, 0x00, 0x07, v]) ∧
      dbof_file_read cs [0x44, 0x42, 0x4F, 0x46, 0x01, 0x00, 0x07, v] junk =
        .ok (some (.boolean v))) ∧
    dbof_set_value_signed_byte (dbof_new DBOF_TYPE_SIGNED_BYTE) (-1) =
      .ok (.signed_byte 0xFF) ∧
    dbof_file_write (.signed_byte 0xFF) [] =
      .ok (0, [0x44, 0x42, 0x4F, 0x46, 0x01, 0x00, 0x01, 0xFF]) ∧
    dbof_file_read cs [0x44, 0x42, 0x4F, 0x46, 0x01, 0x00, 0x01, 0xFF] junk =
      .ok (some (.signed_byte 0xFF)) ∧
    dbof_get_value_signed_byte (.signed_byte 0xFF) = .ok (-1) := by
  have hread : ∀ w : Byte,
      dbof_file_read cs [0x44, 0x42, 0x4F, 0x46, 0x01, 0x00, 0x01, w] junk =
          .ok (some (.signed_byte w)) ∧
        dbof_file_read cs [0x44, 0x42, 0x4F, 0x46, 0x01, 0x00, 0x02, w] junk =
          .ok (some (.unsigned_byte w)) ∧
        dbof_file_read cs [0x44, 0x42, 0x4F, 0x46, 0x01, 0x00, 0x07, w] junk =
          .ok (some (.boolean w)) := by
    intro w
    simp only [dbof_file_read_header, List.length_singleton, read_object_signed_byte_tag,
      read_object_unsigned_byte_tag, read_object_boolean_tag]
    exact ⟨rfl, rfl, rfl⟩
  exact ⟨⟨rfl, (hread v).1⟩, ⟨rfl, (hread v).2.1⟩, ⟨rfl, (hread v).2.2⟩, rfl, rfl,
    (hread 0xFF).1, rfl⟩

/-! ## Flex lengths -/

theorem and_low_mask_iff (x n : Nat) : x &&& (2 ^ n - 1) = x ↔ x < 2 ^ n := by
  rw [Nat.and_pow_two_sub_one_eq_mod]
  constructor
  · intro h
    rw [← h]
    exact Nat.mod_lt _ (by positivity)
  · exact Nat.mod_eq_of_lt

theorem count_min_bytes_spec (v : U64) :
    1 ≤ __count_min_bytes_internal v ∧ __count_min_bytes_internal v ≤ 8 ∧
      v.val < 2 ^ (8 * __count_min_bytes_internal v) ∧
      (1 < __count_min_bytes_internal v → 2 ^ (8 * (__count_min_bytes_internal v - 1)) ≤ v.val) := by
  have hv := v.isLt
  have h1 := and_low_mask_iff v.val 8
  have h2 := and_low_mask_iff v.val 16
  have h3 := and_low_mask_iff v.val 24
  have h4 := and_low_mask_iff v.val 32
  have h5 := and_low_mask_iff v.val 40
  have h6 := and_low_mask_iff v.val 48
  have h7 := and_low_mask_iff v.val 56
  norm_num at h1 h2 h3 h4 h5 h6 h7
  simp only [__count_min_bytes_internal, h1, h2, h3, h4, h5, h6, h7]
  split_ifs <;> norm_num <;> omega

theorem flex_cell_eq (v : U64) (i : Nat) (hi : i < 8) :
    flex_cell v i = byte (v.val / 256 ^ i) := by
  have hm : (u64 (0xff <<< (i * 8))).val = 0xff <<< (i * 8) := by
    simp only [u64]
    apply Nat.mod_eq_of_lt
    interval_cases i <;> decide
  have hp : (2 : Nat) ^ (i * 8) = 256 ^ i := by
    rw [Nat.mul_comm, Nat.pow_mul]
  unfold flex_cell
  rw [hm, byte_mask_shift, hp]

theorem flex_encoding_eq (v : U64) :
    flex_encoding v =
      byte (__count_min_bytes_internal v) ::
        (List.range (__count_min_bytes_internal v)).map (fun i => byte (v.val / 256 ^ i)) := by
  unfold flex_encoding
  congr 1
  apply List.map_congr_left
  intro i hi
  have := (count_min_bytes_spec v).2.1
  exact flex_cell_eq v i (by have := List.mem_range.mp hi; omega)

/-- C3 (as amended): for every `v` below 2^64 the flex-length encoder writes one byte
`N` and then exactly `N` bytes, the little-endian base-256 digits of `v`, where `N` is
between 1 and 8 and is the least `N ≥ 1` with `v ≤ 2^(8N) - 1`. -/
theorem flex_length_encoder_layout (v : U64) (out : List Byte) :
    ∃ N : Nat, 1 ≤ N ∧ N ≤ 8 ∧
      __dbof_1_write_flex_length_internal (file_writer out) v =
        (0, file_writer
          (out ++ byte N :: (List.range N).map (fun i => byte (v.val / 256 ^ i)))) ∧
      v.val ≤ 2 ^ (8 * N) - 1 ∧
      ∀ M : Nat, 1 ≤ M → v.val ≤ 2 ^ (8 * M) - 1 → N ≤ M := by
  obtain ⟨h1, h8, hlt, hge⟩ := count_min_bytes_spec v
  refine ⟨__count_min_bytes_internal v, h1, h8, ?_, by omega, ?_⟩
  · rw [write_flex_file_writer (file_writer out) rfl v, flex_encoding_eq]
    rfl
  · intro M hM hvM
    by_contra hlt'
    have hN : 1 < __count_min_bytes_internal v := by omega
    have hpow : 2 ^ (8 * M) ≤ 2 ^ (8 * (__count_min_bytes_internal v - 1)) :=
      Nat.pow_le_pow_right (by decide) (by omega)
    have hpos : 0 < 2 ^ (8 * M) := by positivity
    have := hge hN
    omega

/-- C3 (counterexample): for `v = 0` the encoder writes the size byte 1 and one zero
byte, although `N = 0` already satisfies `0 ≤ 2^(8N) - 1`; so the size byte is not the
least `N` with `v ≤ 2^(8N) - 1`. -/
theorem flex_length_encoder_zero_not_minimal :
    __dbof_1_write_flex_length_internal (file_writer []) 0 = (0, file_writer [1, 0]) ∧
      ¬ (∀ M : Nat, (0 : Nat) ≤ 2 ^ (8 * M) - 1 → 1 ≤ M) := by
  refine ⟨rfl, ?_⟩
  intro h
  have := h 0 (by decide)
  omega

/-- C2: on an ABI with signed plain `char` the flex-length decoder does not return what
the encoder was given: for `v = 128` the encoder writes 01 80 and the decoder, fed
these two bytes, succeeds with 18446744073709551488 (the byte 80 is sign-extended). -/
theorem flex_length_roundtrip_128_signed_char :
    __dbof_1_write_flex_length_internal (file_writer []) 128 = (0, file_writer [0x01, 0x80]) ∧
      __dbof_1_read_flex_length_internal true (file_reader [0x01, 0x80]) =
        .ok (some 18446744073709551488, file_reader []) := by
  exact ⟨rfl, rfl⟩

/-- C4: on an ABI with signed plain `char` the 32-bit and 64-bit decoders sign-extend
every payload byte: the payload 80 00 00 00 is decoded as 4294967168 (that is -128 for
the signed kind) and not as 128, and so is the 8-byte payload 80 00 .. 00 decoded as
18446744073709551488; UnsignedInteger(128) is written with payload 80 00 00 00, so
decoding its encoded payload does not return it. -/
theorem integer_decoders_sign_extend_signed_char :
    __dbof_1_read_object_signed_integer true (file_reader [0x80, 0, 0, 0]) =
        (some (.signed_integer 4294967168), file_reader []) ∧
      dbof_get_value_signed_integer (.signed_integer 4294967168) = .ok (-128) ∧
      __dbof_1_read_object_unsigned_integer true (file_reader [0x80, 0, 0, 0]) =
        (some (.unsigned_integer 4294967168), file_reader []) ∧
      __dbof_1_read_object_character true (file_reader [0x80, 0, 0, 0]) =
        (some (.character 4294967168), file_reader []) ∧
      __dbof_1_read_object_signed_long_integer true (file_reader [0x80, 0, 0, 0, 0, 0, 0, 0]) =
        (some (.signed_long_integer 18446744073709551488), file_reader []) ∧
      __dbof_1_read_object_unsigned_long_integer true
          (file_reader [0x80, 0, 0, 0, 0, 0, 0, 0]) =
        (some (.unsigned_long_integer 18446744073709551488), file_reader []) ∧
      __dbof_1_write_object_unsigned_integer 128 (file_writer []) =
        (0, file_writer [0x80, 0, 0, 0]) := by
  exact ⟨rfl, rfl, rfl, rfl, rfl, rfl, rfl⟩

/-! ## Strings and arrays -/

theorem strlen_of_nul_free (s : List Byte) (hnul : ∀ b ∈ s, b ≠ 0) : strlen s = s.length := by
  unfold strlen
  have h : s.takeWhile (fun b => b != 0) = s := by
    rw [List.takeWhile_eq_self_iff]
    intro b hb
    simpa using hnul b hb
  rw [h]

theorem u64_of_lt (n : Nat) (h : n < 18446744073709551616) : u64 n = ⟨n, h⟩ := by
  apply Fin.ext
  simp only [u64]
  exact Nat.mod_eq_of_lt h

theorem flex_written_eq (length : U64) :
    (__dbof_1_write_flex_length_internal (file_writer []) length).2.data =
      flex_encoding length := by
  rw [write_flex_file_writer (file_writer []) rfl length]
  rfl

/-- C8: for a Utf8String whose value is a NUL-free byte string `s`, the bytes written
for the object are the tag 0B, the bytes that the flex-length encoder writes for the
length of `s`, and the bytes of `s`, with status 0 and nothing else. -/
theorem utf8_string_body (s : List Byte) (out : List Byte) (hnul : ∀ b ∈ s, b ≠ 0)
    (hlen : s.length < 18446744073709551616) :
    __dbof_1_write_object (.utf8_string (some s)) (file_writer out) 1 =
      .ok (0, file_writer (out ++ 0x0B ::
        ((__dbof_1_write_flex_length_internal (file_writer []) ⟨s.length, hlen⟩).2.data
          ++ s))) := by
  rw [write_object_file_writer _ (file_writer out) rfl 1, flex_written_eq]
  simp only [encoding, strlen_of_nul_free s hnul, u64_of_lt s.length hlen, List.take_length,
    Except.map]
  rfl

/-- C8 (witness): the string "hi" is written as 0B 01 02 68 69. -/
theorem utf8_string_body_witness :
    (∀ b ∈ ([0x68, 0x69] : List Byte), b ≠ 0) ∧
      ([0x68, 0x69] : List Byte).length < 18446744073709551616 ∧
      __dbof_1_write_object (.utf8_string (some [0x68, 0x69])) (file_writer []) 1 =
        .ok (0, file_writer [0x0B, 0x01, 0x02, 0x68, 0x69]) := by
  have hnul : ∀ b ∈ ([0x68, 0x69] : List Byte), b ≠ 0 := by simp
  have h := utf8_string_body [0x68, 0x69] [] hnul (by norm_num)
  exact ⟨hnul, by norm_num, h⟩

set_option maxRecDepth 100000 in
/-- C7: on an ABI with signed plain `char` a string of 128 bytes does not survive the
round trip: `dbof_file_write` writes the length as 01 80, the decoder reads it back as
18446744073709551488 and `dbof_file_read` returns `NULL` on a short read. -/
theorem utf8_string_128_roundtrip_signed_char (junk : Nat → Byte) :
    dbof_file_write (.utf8_string (some (List.replicate 128 0x61))) [] =
        .ok (0, [0x44, 0x42, 0x4F, 0x46, 0x01, 0x00, 0x0B, 0x01, 0x80] ++
          List.replicate 128 0x61) ∧
      dbof_file_read true ([0x44, 0x42, 0x4F, 0x46, 0x01, 0x00, 0x0B, 0x01, 0x80] ++
          List.replicate 128 0x61) junk = .ok none := by
  refine ⟨rfl, ?_⟩
  have h := dbof_file_read_header true ([0x0B, 0x01, 0x80] ++ List.replicate 128 0x61) junk
  rw [show ([0x44, 0x42, 0x4F, 0x46, 0x01, 0x00, 0x0B, 0x01, 0x80] : List Byte) ++
      List.replicate 128 0x61 =
    0x44 :: 0x42 :: 0x4F :: 0x46 :: 0x01 :: 0x00 :: ([0x0B, 0x01, 0x80] ++
      List.replicate 128 0x61) from rfl, h]
  rfl

/-- C9: the typed array built by pushing SignedInteger 7 and 8 is written as
0C 01 02 03 03 07 00 00 00 03 08 00 00 00: the tag is 0C (the enumerator's ordinal 12),
not 80, and each element is written with its own tag byte 03. -/
theorem typed_array_body_has_element_tags :
    (__object_typed_array_impl_push_back
        (__object_typed_array_impl_push_back __new_object_typed_array (.signed_integer 7))
        (.signed_integer 8)).toObj =
      .typed_array 10 [.signed_integer 7, .signed_integer 8] 3 ∧
    __dbof_1_write_object (.typed_array 10 [.signed_integer 7, .signed_integer 8] 3)
        (file_writer []) 1 =
      .ok (0, file_writer [0x0C, 0x01, 0x02, 0x03, 0x03, 0x07, 0x00, 0x00, 0x00,
        0x03, 0x08, 0x00, 0x00, 0x00]) := by
  exact ⟨rfl, rfl⟩

theorem encoding_of_written (e : Obj) (bs : List Byte)
    (h : __dbof_1_write_object e (file_writer []) 0 = .ok (0, file_writer bs)) :
    encoding e = .ok bs := by
  rw [write_object_file_writer e (file_writer []) rfl 0] at h
  cases he : encoding e with
  | error err => rw [he] at h; simp [Except.map] at h
  | ok b =>
    rw [he] at h
    simp only [Except.map, Except.ok.injEq, Prod.mk.injEq, true_and] at h
    have := congrArg dbof_writer.data h
    simp [file_writer] at this
    rw [this]

theorem encodings_of_written (children : List Obj) (encs : List (List Byte))
    (henc : List.Forall₂
      (fun e bs => __dbof_1_write_object e (file_writer []) 0 = .ok (0, file_writer bs))
      children encs) :
    encodings children = .ok encs.flatten := by
  induction henc with
  | nil => rfl
  | cons h _ ih => simp [encodings, encoding_of_written _ _ h, ih]

/-- C10: for an untyped array whose elements `e_0 .. e_(n-1)` have the tagged encodings
`bs_0 .. bs_(n-1)` (what `__dbof_1_write_object` writes for each on its own, tag byte
then payload, no header), the bytes written for the array are its own tag, the bytes
that the flex-length encoder writes for `n`, and `bs_0 .. bs_(n-1)` in index order. -/
theorem untyped_array_body (capacity : Nat) (children : List Obj) (encs : List (List Byte))
    (out : List Byte) (hlen : children.length < 18446744073709551616)
    (henc : List.Forall₂
      (fun e bs => __dbof_1_write_object e (file_writer []) 0 = .ok (0, file_writer bs))
      children encs) :
    __dbof_1_write_object (.untyped_array capacity children) (file_writer out) 1 =
      .ok (0, file_writer (out ++ byte DBOF_TYPE_UNTYPED_ARRAY ::
        ((__dbof_1_write_flex_length_internal (file_writer [])
            ⟨children.length, hlen⟩).2.data ++ encs.flatten))) := by
  rw [write_object_file_writer _ (file_writer out) rfl 1, flex_written_eq]
  simp only [encoding, encodings_of_written children encs henc,
    u64_of_lt children.length hlen, Except.map]
  rfl

/-- C10 (witness): the untyped array holding SignedInteger(7) and the string "hi" is
written as 0D 01 02, then 03 07 00 00 00, then 0B 01 02 68 69. -/
theorem untyped_array_body_witness :
    ([Obj.signed_integer 7, Obj.utf8_string (some [0x68, 0x69])]).length <
        18446744073709551616 ∧
      List.Forall₂
        (fun e bs => __dbof_1_write_object e (file_writer []) 0 = .ok (0, file_writer bs))
        [Obj.signed_integer 7, Obj.utf8_string (some [0x68, 0x69])]
        [[0x03, 0x07, 0x00, 0x00, 0x00], [0x0B, 0x01, 0x02, 0x68, 0x69]] ∧
      __dbof_1_write_object
          (.untyped_array 10 [.signed_integer 7, .utf8_string (some [0x68, 0x69])])
          (file_writer []) 1 =
        .ok (0, file_writer [0x0D, 0x01, 0x02, 0x03, 0x07, 0x00, 0x00, 0x00,
          0x0B, 0x01, 0x02, 0x68, 0x69]) := by
  have henc : List.Forall₂
      (fun e bs => __dbof_1_write_object e (file_writer []) 0 = .ok (0, file_writer bs))
      [Obj.signed_integer 7, Obj.utf8_string (some [0x68, 0x69])]
      [[0x03, 0x07, 0x00, 0x00, 0x00], [0x0B, 0x01, 0x02, 0x68, 0x69]] :=
    .cons rfl (.cons rfl .nil)
  have h := untyped_array_body 10 [.signed_integer 7, .utf8_string (some [0x68, 0x69])]
    [[0x03, 0x07, 0x00, 0x00, 0x00], [0x0B, 0x01, 0x02, 0x68, 0x69]] [] (by norm_num) henc
  exact ⟨by norm_num, henc, h⟩

/-! ## Round trip through `dbof_file_write` and `dbof_file_read` -/

/-- C1: two objects built through the public API do not survive the round trip.
SignedInteger(128) is written as 44 42 4F 46 01 00 03 80 00 00 00; on an ABI with
signed plain `char`, `dbof_file_read` of these bytes returns SignedInteger(-128), which
`dbof_equals` tells apart from the original.  The string object that `dbof_new` returns
has a `NULL` value, on which the writer calls `strlen`: behaviour undefined on every
ABI. -/
theorem roundtrip_fails_signed_integer_128_and_new_string (junk : Nat → Byte) :
    dbof_set_value_signed_integer (dbof_new DBOF_TYPE_SIGNED_INTEGER) 128 =
        .ok (.signed_integer 128) ∧
      dbof_file_write (.signed_integer 128) [] =
        .ok (0, [0x44, 0x42, 0x4F, 0x46, 0x01, 0x00, 0x03, 0x80, 0x00, 0x00, 0x00]) ∧
      dbof_file_read true [0x44, 0x42, 0x4F, 0x46, 0x01, 0x00, 0x03, 0x80, 0x00, 0x00, 0x00]
          junk = .ok (some (.signed_integer 4294967168)) ∧
      dbof_get_value_signed_integer (.signed_integer 4294967168) = .ok (-128) ∧
      dbof_equals true (some (.signed_integer 128)) (some (.signed_integer 4294967168)) =
        .ok 0 ∧
      dbof_new DBOF_TYPE_UTF8_STRING = .utf8_string none ∧
      dbof_file_write (dbof_new DBOF_TYPE_UTF8_STRING) [] = .error .undefined_behaviour := by
  refine ⟨rfl, rfl, ?_, rfl, rfl, rfl, rfl⟩
  rw [dbof_file_read_header]
  rfl

/-! ## ABIs with unsigned plain `char` -/

theorem or_shifted_byte (x b k : Nat) (hx : x < 2 ^ k) : x ||| (b <<< k) = x + b * 2 ^ k := by
  rw [Nat.or_comm, Nat.shiftLeft_eq, Nat.mul_comm b, ← Nat.mul_add_lt_is_or hx, Nat.add_comm]

theorem flex_fold_unsigned_char (bs : List Byte) (v : Nat) (k : Nat) (hk : k ≤ 8)
    (hb : ∀ i < k, (bs.getD i 0).val = v / 256 ^ i % 256) :
    (List.range k).foldl
      (fun length i =>
        length ||| (u64 (char_to_unsigned false 64 (bs.getD i 0) <<< (i * 8))).val) 0 =
      v % 256 ^ k := by
  induction k with
  | zero => simp [Nat.mod_one]
  | succ k ih =>
    rw [List.range_succ, List.foldl_append, ih (by omega) (fun i hi => hb i (by omega))]
    have hbk := hb k (by omega)
    have hpow : (2 : Nat) ^ (k * 8) = 256 ^ k := by rw [Nat.mul_comm, Nat.pow_mul]
    have hle : (256 : Nat) ^ k ≤ 256 ^ 7 := Nat.pow_le_pow_right (by decide) (by omega)
    have hlt : (bs.getD k 0).val < 256 := (bs.getD k 0).isLt
    have hx : v % 256 ^ k < 2 ^ (k * 8) := by
      rw [hpow]
      exact Nat.mod_lt _ (by positivity)
    have hmul : (bs.getD k 0).val * 256 ^ k < 18446744073709551616 := by
      calc (bs.getD k 0).val * 256 ^ k ≤ 255 * 256 ^ 7 :=
            Nat.mul_le_mul (by omega) hle
        _ < 18446744073709551616 := by norm_num
    simp only [List.foldl_cons, List.foldl_nil, char_to_unsigned, Bool.false_and,
      Bool.false_eq_true, if_false, u64]
    have e := or_shifted_byte (v % 256 ^ k) (bs.getD k 0).val (k * 8) hx
    rw [Nat.shiftLeft_eq, hpow] at e
    rw [Nat.shiftLeft_eq, hpow, Nat.mod_eq_of_lt hmul, e, hbk, Nat.mod_pow_succ, Nat.mul_comm]

theorem flex_length_roundtrip_unsigned_char (v : U64) (rest : List Byte) (uv : U16)
    (nh : Int) :
    __dbof_1_read_flex_length_internal false ⟨flex_encoding v ++ rest, uv, nh⟩ =
      .ok (some v, ⟨rest, uv, nh⟩) := by
  obtain ⟨h1, h8, hlt, _⟩ := count_min_bytes_spec v
  have hN : (byte (__count_min_bytes_internal v)).val = __count_min_bytes_internal v := by
    simp only [byte]
    exact Nat.mod_eq_of_lt (by omega)
  have hcv : char_value false (byte (__count_min_bytes_internal v)) =
      (__count_min_bytes_internal v : Int) := by
    rw [char_value_small false _ (by omega), hN]
  have hlen : ((List.range (__count_min_bytes_internal v)).map
      (fun i => byte (v.val / 256 ^ i))).length = __count_min_bytes_internal v := by simp
  have hfold := flex_fold_unsigned_char
    ((List.range (__count_min_bytes_internal v)).map (fun i => byte (v.val / 256 ^ i)))
    v.val (__count_min_bytes_internal v) h8 (by
      intro i hi
      rw [List.getD_eq_getElem _ _ (by simpa using hi)]
      simp [byte])
  have hpow : (256 : Nat) ^ __count_min_bytes_internal v =
      2 ^ (8 * __count_min_bytes_internal v) := by
    rw [Nat.pow_mul]
  have hmod : v.val % 256 ^ __count_min_bytes_internal v = v.val := by
    rw [hpow]
    exact Nat.mod_eq_of_lt hlt
  have hsize : ((__count_min_bytes_internal v : Int) % 18446744073709551616).toNat =
      __count_min_bytes_internal v := by omega
  have hgt : ¬ ((__count_min_bytes_internal v : Int) > 8) := by omega
  rw [flex_encoding_eq]
  simp only [__dbof_1_read_flex_length_internal, __dbof_file_reader_impl_read,
    List.cons_append, List.take_succ_cons, List.take_zero, List.drop_succ_cons, List.drop_zero,
    hcv, hgt, if_false, hsize, Int.toNat_ofNat]
  rw [List.take_left' hlen, List.drop_left' hlen, hlen]
  simp only [Nat.not_lt.mpr h8, Nat.lt_irrefl, if_false, hfold, hmod]
  congr 3
  exact Fin.ext (Nat.mod_eq_of_lt v.isLt)

theorem unpack_le32_unsigned_char (b0 b1 b2 b3 : Byte) :
    (unpack_le32 false b0 b1 b2 b3).val =
      b0.val + 2 ^ 8 * b1.val + 2 ^ 16 * b2.val + 2 ^ 24 * b3.val := by
  have h0 := b0.isLt
  have h1 := b1.isLt
  have h2 := b2.isLt
  have h3 := b3.isLt
  simp only [unpack_le32, char_to_unsigned, Bool.false_and, Bool.false_eq_true, if_false, u32,
    Nat.shiftLeft_eq, Nat.zero_or]
  rw [Nat.mod_eq_of_lt (by omega : b0.val * 2 ^ 0 < 4294967296),
    Nat.mod_eq_of_lt (by omega : b1.val * 2 ^ 8 < 4294967296),
    Nat.mod_eq_of_lt (by omega : b2.val * 2 ^ 16 < 4294967296),
    Nat.mod_eq_of_lt (by omega : b3.val * 2 ^ 24 < 4294967296)]
  have e1 := or_shifted_byte (b0.val * 2 ^ 0) b1.val 8 (by omega)
  rw [Nat.shiftLeft_eq] at e1
  have e2 := or_shifted_byte (b0.val * 2 ^ 0 + b1.val * 2 ^ 8) b2.val 16 (by omega)
  rw [Nat.shiftLeft_eq] at e2
  have e3 := or_shifted_byte (b0.val * 2 ^ 0 + b1.val * 2 ^ 8 + b2.val * 2 ^ 16) b3.val 24
    (by omega)
  rw [Nat.shiftLeft_eq] at e3
  rw [e1, e2, e3]
  omega

theorem unpack_le64_unsigned_char (b0 b1 b2 b3 b4 b5 b6 b7 : Byte) :
    (unpack_le64 false b0 b1 b2 b3 b4 b5 b6 b7).val =
      b0.val + 2 ^ 8 * b1.val + 2 ^ 16 * b2.val + 2 ^ 24 * b3.val + 2 ^ 32 * b4.val +
        2 ^ 40 * b5.val + 2 ^ 48 * b6.val + 2 ^ 56 * b7.val := by
  have h0 := b0.isLt
  have h1 := b1.isLt
  have h2 := b2.isLt
  have h3 := b3.isLt
  have h4 := b4.isLt
  have h5 := b5.isLt
  have h6 := b6.isLt
  have h7 := b7.isLt
  simp only [unpack_le64, char_to_unsigned, Bool.false_and, Bool.false_eq_true, if_false, u64,
    Nat.shiftLeft_eq, Nat.zero_or]
  rw [Nat.mod_eq_of_lt (by omega : b0.val * 2 ^ 0 < 18446744073709551616),
    Nat.mod_eq_of_lt (by omega : b1.val * 2 ^ 8 < 18446744073709551616),
    Nat.mod_eq_of_lt (by omega : b2.val * 2 ^ 16 < 18446744073709551616),
    Nat.mod_eq_of_lt (by omega : b3.val * 2 ^ 24 < 18446744073709551616),
    Nat.mod_eq_of_lt (by omega : b4.val * 2 ^ 32 < 18446744073709551616),
    Nat.mod_eq_of_lt (by omega : b5.val * 2 ^ 40 < 18446744073709551616),
    Nat.mod_eq_of_lt (by omega : b6.val * 2 ^ 48 < 18446744073709551616),
    Nat.mod_eq_of_lt (by omega : b7.val * 2 ^ 56 < 18446744073709551616)]
  have e1 := or_shifted_byte (b0.val * 2 ^ 0) b1.val 8 (by omega)
  rw [Nat.shiftLeft_eq] at e1
  have e2 := or_shifted_byte (b0.val * 2 ^ 0 + b1.val * 2 ^ 8) b2.val 16 (by omega)
  rw [Nat.shiftLeft_eq] at e2
  have e3 := or_shifted_byte (b0.val * 2 ^ 0 + b1.val * 2 ^ 8 + b2.val * 2 ^ 16) b3.val 24
    (by omega)
  rw [Nat.shiftLeft_eq] at e3
  have e4 := or_shifted_byte
    (b0.val * 2 ^ 0 + b1.val * 2 ^ 8 + b2.val * 2 ^ 16 + b3.val * 2 ^ 24) b4.val 32 (by omega)
  rw [Nat.shiftLeft_eq] at e4
  have e5 := or_shifted_byte
    (b0.val * 2 ^ 0 + b1.val * 2 ^ 8 + b2.val * 2 ^ 16 + b3.val * 2 ^ 24 + b4.val * 2 ^ 32)
    b5.val 40 (by omega)
  rw [Nat.shiftLeft_eq] at e5
  have e6 := or_shifted_byte
    (b0.val * 2 ^ 0 + b1.val * 2 ^ 8 + b2.val * 2 ^ 16 + b3.val * 2 ^ 24 + b4.val * 2 ^ 32 +
      b5.val * 2 ^ 40) b6.val 48 (by omega)
  rw [Nat.shiftLeft_eq] at e6
  have e7 := or_shifted_byte
    (b0.val * 2 ^ 0 + b1.val * 2 ^ 8 + b2.val * 2 ^ 16 + b3.val * 2 ^ 24 + b4.val * 2 ^ 32 +
      b5.val * 2 ^ 40 + b6.val * 2 ^ 48) b7.val 56 (by omega)
  rw [Nat.shiftLeft_eq] at e7
  rw [e1, e2, e3, e4, e5, e6, e7]
  omega

/-- On an ABI with unsigned plain `char` the 32-bit decoders return the value whose
little-endian payload they are given, and undo the 32-bit writers. -/
theorem unpack_pack_le32_unsigned_char (v : U32) :
    unpack_le32 false (byte (v.val / 2 ^ 0)) (byte (v.val / 2 ^ 8)) (byte (v.val / 2 ^ 16))
      (byte (v.val / 2 ^ 24)) = v := by
  apply Fin.ext
  rw [unpack_le32_unsigned_char]
  have hv := v.isLt
  simp only [byte]
  omega

/-- On an ABI with unsigned plain `char` the 64-bit decoders undo the 64-bit writers. -/
theorem unpack_pack_le64_unsigned_char (v : U64) :
    unpack_le64 false (byte (v.val / 2 ^ 0)) (byte (v.val / 2 ^ 8)) (byte (v.val / 2 ^ 16))
      (byte (v.val / 2 ^ 24)) (byte (v.val / 2 ^ 32)) (byte (v.val / 2 ^ 40))
      (byte (v.val / 2 ^ 48)) (byte (v.val / 2 ^ 56)) = v := by
  apply Fin.ext
  rw [unpack_le64_unsigned_char]
  have hv := v.isLt
  simp only [byte]
  omega

/-- On an ABI with unsigned plain `char` a NUL-free string shorter than 2^64 - 1 bytes
is read back from what `dbof_file_write` wrote for it. -/
theorem utf8_string_roundtrip_unsigned_char (s : List Byte) (junk : Nat → Byte)
    (hnul : ∀ b ∈ s, b ≠ 0) (hlen : s.length + 1 < 18446744073709551616) :
    ∃ file : List Byte,
      dbof_file_write (.utf8_string (some s)) [] = .ok (0, file) ∧
        dbof_file_read false file junk = .ok (some (.utf8_string (some s))) := by
  have hl : s.length < 18446744073709551616 := by omega
  refine ⟨0x44 :: 0x42 :: 0x4F :: 0x46 :: 0x01 :: 0x00 ::
    (0x0B :: (flex_encoding ⟨s.length, hl⟩ ++ s)), ?_, ?_⟩
  · rw [dbof_file_write_eq]
    simp [encoding, strlen_of_nul_free s hnul, u64_of_lt s.length hl, Except.map]
  · rw [dbof_file_read_header]
    have htag := read_object_utf8_string_tag false
      (0x0B :: (flex_encoding ⟨s.length, hl⟩ ++ s)).length (flex_encoding ⟨s.length, hl⟩ ++ s)
      0 0 1
    have hflex := flex_length_roundtrip_unsigned_char ⟨s.length, hl⟩ s 0 0
    have hsucc : (u64 (s.length + 1)).val = s.length + 1 := by
      simp only [u64]
      exact Nat.mod_eq_of_lt hlen
    rw [htag]
    simp [__dbof_1_read_object_utf8_string, hflex, __dbof_file_reader_impl_read, hsucc,
      Except.map]

/-! ## Type tags -/

theorem char_value_ne_of_unknown (cs : Bool) (b : Byte) (h : unknown_type_id cs b = true)
    (k : Nat) (hk : k ≤ 15) : ¬ (char_value cs b = (k : Int)) := by
  simp only [unknown_type_id, decide_eq_true_eq] at h
  omega

theorem read_object_unknown_tag (cs : Bool) (fuel : Nat) (b : Byte) (rest : List Byte)
    (uv : U16) (nh t : Int) (h : unknown_type_id cs b = true) :
    __dbof_1_read_object cs (fuel + 1) ⟨b :: rest, uv, nh⟩ t = .ok (none, ⟨rest, uv, nh⟩) := by
  simp only [__dbof_1_read_object, __dbof_file_reader_impl_read, List.take_succ_cons,
    List.take_zero, List.drop_succ_cons, List.drop_zero,
    if_neg (char_value_ne_of_unknown cs b h DBOF_TYPE_NULL (by decide)),
    if_neg (char_value_ne_of_unknown cs b h DBOF_TYPE_SIGNED_BYTE (by decide)),
    if_neg (char_value_ne_of_unknown cs b h DBOF_TYPE_UNSIGNED_BYTE (by decide)),
    if_neg (char_value_ne_of_unknown cs b h DBOF_TYPE_SIGNED_INTEGER (by decide)),
    if_neg (char_value_ne_of_unknown cs b h DBOF_TYPE_UNSIGNED_INTEGER (by decide)),
    if_neg (char_value_ne_of_unknown cs b h DBOF_TYPE_SIGNED_LONG_INTEGER (by decide)),
    if_neg (char_value_ne_of_unknown cs b h DBOF_TYPE_UNSIGNED_LONG_INTEGER (by decide)),
    if_neg (char_value_ne_of_unknown cs b h DBOF_TYPE_BOOLEAN (by decide)),
    if_neg (char_value_ne_of_unknown cs b h DBOF_TYPE_SINGLE_FLOAT (by decide)),
    if_neg (char_value_ne_of_unknown cs b h DBOF_TYPE_DOUBLE_FLOAT (by decide)),
    if_neg (char_value_ne_of_unknown cs b h DBOF_TYPE_CHARACTER (by decide)),
    if_neg (char_value_ne_of_unknown cs b h DBOF_TYPE_UTF8_STRING (by decide)),
    if_neg (char_value_ne_of_unknown cs b h DBOF_TYPE_TYPED_ARRAY (by decide)),
    if_neg (char_value_ne_of_unknown cs b h DBOF_TYPE_UNTYPED_ARRAY (by decide)),
    if_neg (char_value_ne_of_unknown cs b h DBOF_TYPE_TYPED_MAP (by decide)),
    if_neg (char_value_ne_of_unknown cs b h DBOF_TYPE_UNTYPED_MAP (by decide))]

theorem unknown_type_id_of_ge_128 (cs : Bool) (b : Byte) (h : 128 ≤ b.val) :
    unknown_type_id cs b = true := by
  have hb := b.isLt
  simp only [unknown_type_id, decide_eq_true_eq, char_value]
  cases cs <;> simp [h]
  omega

/-- C11: the tag byte written for a container is the ordinal of its enumerator, 0C, 0D,
0E, 0F for TypedArray, UntypedArray, TypedMap, UntypedMap, not 80, 81, 82, 83; and the
decoder, given the tag 80, 81, 82 or 83 after a good header, returns `NULL`, while it
reads 0C 01 00 00 as an empty typed array (on either kind of plain `char`). -/
theorem container_tags_are_enum_ordinals (cs : Bool) (junk : Nat → Byte) :
    dbof_file_write (dbof_new DBOF_TYPE_TYPED_ARRAY) [] =
        .ok (0, [0x44, 0x42, 0x4F, 0x46, 0x01, 0x00, 0x0C, 0x01, 0x00, 0x00]) ∧
      dbof_file_write (dbof_new DBOF_TYPE_UNTYPED_ARRAY) [] =
        .ok (0, [0x44, 0x42, 0x4F, 0x46, 0x01, 0x00, 0x0D, 0x01, 0x00]) ∧
      dbof_file_write (dbof_new DBOF_TYPE_TYPED_MAP) [] =
        .ok (0, [0x44, 0x42, 0x4F, 0x46, 0x01, 0x00, 0x0E, 0x01, 0x00, 0x00, 0x00]) ∧
      dbof_file_write (dbof_new DBOF_TYPE_UNTYPED_MAP) [] =
        .ok (0, [0x44, 0x42, 0x4F, 0x46, 0x01, 0x00, 0x0F, 0x01, 0x00]) ∧
      (∀ rest : List Byte,
        dbof_file_read cs (0x44 :: 0x42 :: 0x4F :: 0x46 :: 0x01 :: 0x00 :: 0x80 :: rest) junk =
            .ok none ∧
          dbof_file_read cs (0x44 :: 0x42 :: 0x4F :: 0x46 :: 0x01 :: 0x00 :: 0x81 :: rest) junk =
            .ok none ∧
          dbof_file_read cs (0x44 :: 0x42 :: 0x4F :: 0x46 :: 0x01 :: 0x00 :: 0x82 :: rest) junk =
            .ok none ∧
          dbof_file_read cs (0x44 :: 0x42 :: 0x4F :: 0x46 :: 0x01 :: 0x00 :: 0x83 :: rest) junk =
            .ok none) ∧
      dbof_file_read cs [0x44, 0x42, 0x4F, 0x46, 0x01, 0x00, 0x0C, 0x01, 0x00, 0x00] junk =
        .ok (some (.typed_array 10 [] 0)) := by
  refine ⟨rfl, rfl, rfl, rfl, fun rest => ?_, ?_⟩
  · simp only [dbof_file_read_header, List.length_cons]
    rw [read_object_unknown_tag cs _ 0x80 rest 0 0 1 (unknown_type_id_of_ge_128 cs _ (by decide)),
      read_object_unknown_tag cs _ 0x81 rest 0 0 1 (unknown_type_id_of_ge_128 cs _ (by decide)),
      read_object_unknown_tag cs _ 0x82 rest 0 0 1 (unknown_type_id_of_ge_128 cs _ (by decide)),
      read_object_unknown_tag cs _ 0x83 rest 0 0 1 (unknown_type_id_of_ge_128 cs _ (by decide))]
    exact ⟨rfl, rfl, rfl, rfl⟩
  · rw [dbof_file_read_header]
    cases cs <;> rfl

/-! ## What a writer is handed, in order -/

theorem log_extends_refl (w : dbof_writer (List (List Byte))) : log_extends w w :=
  ⟨rfl, [], (List.append_nil _).symm⟩

theorem log_extends_trans {w1 w2 w3 : dbof_writer (List (List Byte))}
    (h12 : log_extends w1 w2) (h23 : log_extends w2 w3) : log_extends w1 w3 := by
  obtain ⟨e12, m12, d12⟩ := h12
  obtain ⟨e23, m23, d23⟩ := h23
  exact ⟨e23.trans e12, m12 ++ m23, by rw [d23, d12, List.append_assoc]⟩

theorem call_recording (accept : List (List Byte) → List Byte → Nat)
    (w : dbof_writer (List (List Byte)))
    (hw : w.write = fun log buf => (accept log buf, log ++ [buf])) (buf : List Byte) :
    (w.call buf).2 = { w with data := w.data ++ [buf] } := by
  simp [dbof_writer.call, hw]

theorem log_extends_call (accept : List (List Byte) → List Byte → Nat)
    (w : dbof_writer (List (List Byte)))
    (hw : w.write = fun log buf => (accept log buf, log ++ [buf])) (buf : List Byte) :
    log_extends w (w.call buf).2 := by
  rw [call_recording accept w hw]
  exact ⟨rfl, [buf], rfl⟩

theorem log_extends_write_1 (accept : List (List Byte) → List Byte → Nat)
    (w : dbof_writer (List (List Byte)))
    (hw : w.write = fun log buf => (accept log buf, log ++ [buf])) (v : Byte) :
    log_extends w (write_1 v w).2 := by
  simp only [write_1]
  split <;> exact log_extends_call accept w hw _

theorem log_extends_write_4 (accept : List (List Byte) → List Byte → Nat)
    (w : dbof_writer (List (List Byte)))
    (hw : w.write = fun log buf => (accept log buf, log ++ [buf])) (v : U32) :
    log_extends w (write_4 v w).2 := by
  simp only [write_4]
  split <;> exact log_extends_call accept w hw _

theorem log_extends_write_8 (accept : List (List Byte) → List Byte → Nat)
    (w : dbof_writer (List (List Byte)))
    (hw : w.write = fun log buf => (accept log buf, log ++ [buf])) (v : U64) :
    log_extends w (write_8 v w).2 := by
  simp only [write_8]
  split <;> exact log_extends_call accept w hw _

theorem log_extends_write_flex (accept : List (List Byte) → List Byte → Nat)
    (w : dbof_writer (List (List Byte)))
    (hw : w.write = fun log buf => (accept log buf, log ++ [buf])) (length : U64) :
    log_extends w (__dbof_1_write_flex_length_internal w length).2 := by
  have h1 := log_extends_call accept w hw [byte (__count_min_bytes_internal length)]
  have hw1 := h1.1.trans hw
  simp only [__dbof_1_write_flex_length_internal]
  split
  · exact h1
  · split <;> exact log_extends_trans h1 (log_extends_call accept _ hw1 _)

theorem log_extends_write_string (accept : List (List Byte) → List Byte → Nat)
    (w : dbof_writer (List (List Byte)))
    (hw : w.write = fun log buf => (accept log buf, log ++ [buf]))
    (value : Option (List Byte)) (r : Int × dbof_writer (List (List Byte)))
    (hr : __dbof_1_write_object_string value w = .ok r) : log_extends w r.2 := by
  cases value with
  | none => simp [__dbof_1_write_object_string] at hr
  | some buf =>
    have h1 := log_extends_write_flex accept w hw (u64 (strlen buf))
    have hw1 := h1.1.trans hw
    simp only [__dbof_1_write_object_string] at hr
    split at hr
    · cases hr
      exact h1
    · split at hr <;> cases hr <;> exact log_extends_trans h1 (log_extends_call accept _ hw1 _)

theorem log_extends_write_typed_map (accept : List (List Byte) → List Byte → Nat)
    (w : dbof_writer (List (List Byte)))
    (hw : w.write = fun log buf => (accept log buf, log ++ [buf]))
    (size : Nat) (key_type value_type : dbof_type) :
    log_extends w (__dbof_1_write_object_typed_map size key_type value_type w).2 := by
  have h1 := log_extends_write_flex accept w hw (u64 size)
  have hw1 := h1.1.trans hw
  have h2 := log_extends_call accept _ hw1 [byte key_type]
  have hw2 := h2.1.trans hw1
  simp only [__dbof_1_write_object_typed_map]
  split
  · exact h1
  · split
    · exact log_extends_trans h1 h2
    · split <;>
        exact log_extends_trans h1 (log_extends_trans h2 (log_extends_call accept _ hw2 _))

theorem log_extends_write_untyped_map (accept : List (List Byte) → List Byte → Nat)
    (w : dbof_writer (List (List Byte)))
    (hw : w.write = fun log buf => (accept log buf, log ++ [buf])) (size : Nat) :
    log_extends w (__dbof_1_write_object_untyped_map size w).2 := by
  have h1 := log_extends_write_flex accept w hw (u64 size)
  simp only [__dbof_1_write_object_untyped_map]
  split <;> exact h1

theorem first_block_of_log_extends (accept : List (List Byte) → List Byte → Nat)
    (w : dbof_writer (List (List Byte)))
    (hw : w.write = fun log buf => (accept log buf, log ++ [buf])) {tag : List Byte}
    {w' : dbof_writer (List (List Byte))} (h : log_extends (w.call tag).2 w') :
    w'.write = w.write ∧ ∃ more, w'.data = w.data ++ tag :: more := by
  obtain ⟨e, more, d⟩ := h
  rw [call_recording accept w hw] at e d
  exact ⟨e, more, by rw [d]; simp⟩

mutual

theorem write_object_log (accept : List (List Byte) → List Byte → Nat) :
    ∀ (object : Obj) (w : dbof_writer (List (List Byte)))
      (_ : w.write = fun log buf => (accept log buf, log ++ [buf])) (t : Int)
      (r : Int × dbof_writer (List (List Byte))),
      __dbof_1_write_object object w t = .ok r →
        r.2.write = w.write ∧
          ∃ more, r.2.data = w.data ++ [byte (dbof_typeof object)] :: more
  | .null, w, hw, t, r, hr => by
    apply first_block_of_log_extends accept w hw
    simp only [__dbof_1_write_object] at hr
    split at hr <;> cases hr
    · exact log_extends_refl _
    · exact log_extends_refl _
  | .signed_byte v, w, hw, t, r, hr => by
    have h0 := call_recording accept w hw [byte (dbof_typeof (Obj.signed_byte v))]
    have hw0 : (w.call [byte (dbof_typeof (Obj.signed_byte v))]).2.write =
        fun log buf => (accept log buf, log ++ [buf]) := by
      rw [h0]
      exact hw
    apply first_block_of_log_extends accept w hw
    simp only [__dbof_1_write_object] at hr
    split at hr <;> cases hr
    · exact log_extends_refl _
    · exact log_extends_write_1 accept _ hw0 v
  | .unsigned_byte v, w, hw, t, r, hr => by
    have h0 := call_recording accept w hw [byte (dbof_typeof (Obj.unsigned_byte v))]
    have hw0 : (w.call [byte (dbof_typeof (Obj.unsigned_byte v))]).2.write =
        fun log buf => (accept log buf, log ++ [buf]) := by
      rw [h0]
      exact hw
    apply first_block_of_log_extends accept w hw
    simp only [__dbof_1_write_object] at hr
    split at hr <;> cases hr
    · exact log_extends_refl _
    · exact log_extends_write_1 accept _ hw0 v
  | .signed_integer v, w, hw, t, r, hr => by
    have h0 := call_recording accept w hw [byte (dbof_typeof (Obj.signed_integer v))]
    have hw0 : (w.call [byte (dbof_typeof (Obj.signed_integer v))]).2.write =
        fun log buf => (accept log buf, log ++ [buf]) := by
      rw [h0]
      exact hw
    apply first_block_of_log_extends accept w hw
    simp only [__dbof_1_write_object] at hr
    split at hr <;> cases hr
    · exact log_extends_refl _
    · exact log_extends_write_4 accept _ hw0 v
  | .unsigned_integer v, w, hw, t, r, hr => by
    have h0 := call_recording accept w hw [byte (dbof_typeof (Obj.unsigned_integer v))]
    have hw0 : (w.call [byte (dbof_typeof (Obj.unsigned_integer v))]).2.write =
        fun log buf => (accept log buf, log ++ [buf]) := by
      rw [h0]
      exact hw
    apply first_block_of_log_extends accept w hw
    simp only [__dbof_1_write_object] at hr
    split at hr <;> cases hr
    · exact log_extends_refl _
    · exact log_extends_write_4 accept _ hw0 v
  | .signed_long_integer v, w, hw, t, r, hr => by
    have h0 := call_recording accept w hw [byte (dbof_typeof (Obj.signed_long_integer v))]
    have hw0 : (w.call [byte (dbof_typeof (Obj.signed_long_integer v))]).2.write =
        fun log buf => (accept log buf, log ++ [buf]) := by
      rw [h0]
      exact hw
    apply first_block_of_log_extends accept w hw
    simp only [__dbof_1_write_object] at hr
    split at hr <;> cases hr
    · exact log_extends_refl _
    · exact log_extends_write_8 accept _ hw0 v
  | .unsigned_long_integer v, w, hw, t, r, hr => by
    have h0 := call_recording accept w hw [byte (dbof_typeof (Obj.unsigned_long_integer v))]
    have hw0 : (w.call [byte (dbof_typeof (Obj.unsigned_long_integer v))]).2.write =
        fun log buf => (accept log buf, log ++ [buf]) := by
      rw [h0]
      exact hw
    apply first_block_of_log_extends accept w hw
    simp only [__dbof_1_write_object] at hr
    split at hr <;> cases hr
    · exact log_extends_refl _
    · exact log_extends_write_8 accept _ hw0 v
  | .boolean v, w, hw, t, r, hr => by
    have h0 := call_recording accept w hw [byte (dbof_typeof (Obj.boolean v))]
    have hw0 : (w.call [byte (dbof_typeof (Obj.boolean v))]).2.write =
        fun log buf => (accept log buf, log ++ [buf]) := by
      rw [h0]
      exact hw
    apply first_block_of_log_extends accept w hw
    simp only [__dbof_1_write_object] at hr
    split at hr <;> cases hr
    · exact log_extends_refl _
    · exact log_extends_write_1 accept _ hw0 v
  | .single_float v, w, hw, t, r, hr => by
    have h0 := call_recording accept w hw [byte (dbof_typeof (Obj.single_float v))]
    have hw0 : (w.call [byte (dbof_typeof (Obj.single_float v))]).2.write =
        fun log buf => (accept log buf, log ++ [buf]) := by
      rw [h0]
      exact hw
    apply first_block_of_log_extends accept w hw
    simp only [__dbof_1_write_object] at hr
    split at hr <;> cases hr
    · exact log_extends_refl _
    · exact log_extends_write_4 accept _ hw0 v
  | .double_float v, w, hw, t, r, hr => by
    have h0 := call_recording accept w hw [byte (dbof_typeof (Obj.double_float v))]
    have hw0 : (w.call [byte (dbof_typeof (Obj.double_float v))]).2.write =
        fun log buf => (accept log buf, log ++ [buf]) := by
      rw [h0]
      exact hw
    apply first_block_of_log_extends accept w hw
    simp only [__dbof_1_write_object] at hr
    split at hr <;> cases hr
    · exact log_extends_refl _
    · exact log_extends_write_8 accept _ hw0 v
  | .character v, w, hw, t, r, hr => by
    have h0 := call_recording accept w hw [byte (dbof_typeof (Obj.character v))]
    have hw0 : (w.call [byte (dbof_typeof (Obj.character v))]).2.write =
        fun log buf => (accept log buf, log ++ [buf]) := by
      rw [h0]
      exact hw
    apply first_block_of_log_extends accept w hw
    simp only [__dbof_1_write_object] at hr
    split at hr <;> cases hr
    · exact log_extends_refl _
    · exact log_extends_write_4 accept _ hw0 v
  | .utf8_string v, w, hw, t, r, hr => by
    have h0 := call_recording accept w hw [byte (dbof_typeof (Obj.utf8_string v))]
    have hw0 : (w.call [byte (dbof_typeof (Obj.utf8_string v))]).2.write =
        fun log buf => (accept log buf, log ++ [buf]) := by
      rw [h0]
      exact hw
    apply first_block_of_log_extends accept w hw
    simp only [__dbof_1_write_object] at hr
    split at hr
    · cases hr
      exact log_extends_refl _
    · exact log_extends_write_string accept _ hw0 v r hr
  | .typed_array c children ty, w, hw, t, r, hr => by
    have h0 := call_recording accept w hw [byte (dbof_typeof (Obj.typed_array c children ty))]
    have hw0 : (w.call [byte (dbof_typeof (Obj.typed_array c children ty))]).2.write =
        fun log buf => (accept log buf, log ++ [buf]) := by
      rw [h0]
      exact hw
    have h1 := log_extends_write_flex accept _ hw0 (u64 children.length)
    have hw1 := h1.1.trans hw0
    have h2 := log_extends_call accept _ hw1 [byte ty]
    have hw2 := h2.1.trans hw1
    apply first_block_of_log_extends accept w hw
    simp only [__dbof_1_write_object] at hr
    split at hr
    · cases hr
      exact log_extends_refl _
    · split at hr
      · cases hr
        exact h1
      · split at hr
        · cases hr
          exact log_extends_trans h1 h2
        · split at hr
          · cases hr
          · rename_i writer hch
            cases hr
            exact log_extends_trans h1 (log_extends_trans h2
              (write_typed_array_children_log accept children _ hw2 writer hch))
  | .untyped_array c children, w, hw, t, r, hr => by
    have h0 := call_recording accept w hw [byte (dbof_typeof (Obj.untyped_array c children))]
    have hw0 : (w.call [byte (dbof_typeof (Obj.untyped_array c children))]).2.write =
        fun log buf => (accept log buf, log ++ [buf]) := by
      rw [h0]
      exact hw
    have h1 := log_extends_write_flex accept _ hw0 (u64 children.length)
    have hw1 := h1.1.trans hw0
    apply first_block_of_log_extends accept w hw
    simp only [__dbof_1_write_object] at hr
    split at hr
    · cases hr
      exact log_extends_refl _
    · split at hr
      · cases hr
        exact h1
      · exact log_extends_trans h1
          (write_untyped_array_children_log accept children _ hw1 r hr)
  | .typed_map n k v, w, hw, t, r, hr => by
    have h0 := call_recording accept w hw [byte (dbof_typeof (Obj.typed_map n k v))]
    have hw0 : (w.call [byte (dbof_typeof (Obj.typed_map n k v))]).2.write =
        fun log buf => (accept log buf, log ++ [buf]) := by
      rw [h0]
      exact hw
    apply first_block_of_log_extends accept w hw
    simp only [__dbof_1_write_object] at hr
    split at hr <;> cases hr
    · exact log_extends_refl _
    · exact log_extends_write_typed_map accept _ hw0 n k v
  | .untyped_map n, w, hw, t, r, hr => by
    have h0 := call_recording accept w hw [byte (dbof_typeof (Obj.untyped_map n))]
    have hw0 : (w.call [byte (dbof_typeof (Obj.untyped_map n))]).2.write =
        fun log buf => (accept log buf, log ++ [buf]) := by
      rw [h0]
      exact hw
    apply first_block_of_log_extends accept w hw
    simp only [__dbof_1_write_object] at hr
    split at hr <;> cases hr
    · exact log_extends_refl _
    · exact log_extends_write_untyped_map accept _ hw0 n

theorem write_typed_array_children_log (accept : List (List Byte) → List Byte → Nat) :
    ∀ (children : List Obj) (w : dbof_writer (List (List Byte)))
      (_ : w.write = fun log buf => (accept log buf, log ++ [buf]))
      (w' : dbof_writer (List (List Byte))),
      write_typed_array_children children w = .ok w' → log_extends w w'
  | [], w, _, w', hr => by
    simp only [write_typed_array_children] at hr
    cases hr
    exact log_extends_refl _
  | object :: rest, w, hw, w', hr => by
    simp only [write_typed_array_children] at hr
    split at hr
    · cases hr
    · rename_i r hobj
      obtain ⟨e, more, d⟩ := write_object_log accept object w hw 0 r hobj
      have h1 : log_extends w r.2 := ⟨e, _, d⟩
      exact log_extends_trans h1
        (write_typed_array_children_log accept rest r.2 (e.trans hw) w' hr)

theorem write_untyped_array_children_log (accept : List (List Byte) → List Byte → Nat) :
    ∀ (children : List Obj) (w : dbof_writer (List (List Byte)))
      (_ : w.write = fun log buf => (accept log buf, log ++ [buf]))
      (r' : Int × dbof_writer (List (List Byte))),
      write_untyped_array_children children w = .ok r' → log_extends w r'.2
  | [], w, _, r', hr => by
    simp only [write_untyped_array_children] at hr
    cases hr
    exact log_extends_refl _
  | object :: rest, w, hw, r', hr => by
    simp only [write_untyped_array_children] at hr
    split at hr
    · cases hr
    · rename_i r hobj
      obtain ⟨e, more, d⟩ := write_object_log accept object w hw 0 r hobj
      have h1 : log_extends w r.2 := ⟨e, _, d⟩
      split at hr
      · cases hr
        exact h1
      · exact log_extends_trans h1
          (write_untyped_array_children_log accept rest r.2 (e.trans hw) r' hr)

end

theorem dbof_write_recording_header (object : Obj)
    (accept : List (List Byte) → List Byte → Nat) (use_version : U16)
    (huv : use_version = 0 ∨ use_version = 1) :
    dbof_write object (recording_writer accept use_version 0) =
      __dbof_1_write_object object
        { recording_writer accept use_version 0 with
          data := [[0x44, 0x42, 0x4F, 0x46, 0x01, 0x00]] } 1 := by
  rcases huv with rfl | rfl <;>
    simp [dbof_write, recording_writer, u16, DBOF_SER_DEFAULT, dbof_writer.call, byte]

/-- C12: for every object and every writer (whatever counts its callback reports) with
`no_header = 0` and `use_version` 0 or 1, when `dbof_write` returns, the first block the
callback was handed is the six bytes 44 42 4F 46 01 00 and the second block is the tag
byte of the root object. -/
theorem header_is_written_first (object : Obj)
    (accept : List (List Byte) → List Byte → Nat) (use_version : U16)
    (huv : use_version = 0 ∨ use_version = 1) (r : Int × dbof_writer (List (List Byte)))
    (hr : dbof_write object (recording_writer accept use_version 0) = .ok r) :
    ∃ more, r.2.data =
      [0x44, 0x42, 0x4F, 0x46, 0x01, 0x00] :: [byte (dbof_typeof object)] :: more := by
  rw [dbof_write_recording_header object accept use_version huv] at hr
  obtain ⟨_, more, d⟩ := write_object_log accept object _ rfl 1 r hr
  exact ⟨more, d⟩

/-- C12 (witness): SignedByte(5) written to a callback that reports every block as
written in full: the blocks are the header, the tag 01 and the payload 05. -/
theorem header_is_written_first_witness :
    ((0 : U16) = 0 ∨ (0 : U16) = 1) ∧
      dbof_write (.signed_byte 5) (recording_writer (fun _ buf => buf.length) 0 0) =
        .ok (0, { recording_writer (fun _ buf => buf.length) 0 0 with
          data := [[0x44, 0x42, 0x4F, 0x46, 0x01, 0x00], [0x01], [0x05]] }) ∧
      ∃ more, [[0x44, 0x42, 0x4F, 0x46, 0x01, 0x00], [0x01], [0x05]] =
        ([0x44, 0x42, 0x4F, 0x46, 0x01, 0x00] : List Byte) ::
          [byte (dbof_typeof (.signed_byte 5))] :: more := by
  have hr : dbof_write (.signed_byte 5) (recording_writer (fun _ buf => buf.length) 0 0) =
      .ok (0, { recording_writer (fun _ buf => buf.length) 0 0 with
        data := [[0x44, 0x42, 0x4F, 0x46, 0x01, 0x00], [0x01], [0x05]] }) := rfl
  exact ⟨Or.inl rfl, hr,
    header_is_written_first (.signed_byte 5) (fun _ buf => buf.length) 0 (Or.inl rfl) _ hr⟩

/-! ### `dbof_write` returns -/

theorem write_string_returns {σ : Type} (buf : List Byte) (w : dbof_writer σ) :
    ∃ r, __dbof_1_write_object_string (some buf) w = .ok r := by
  simp only [__dbof_1_write_object_string]
  split
  · exact ⟨_, rfl⟩
  · split <;> exact ⟨_, rfl⟩

mutual

theorem write_object_returns {σ : Type} :
    ∀ (object : Obj) (e : List Byte), encoding object = .ok e →
      ∀ (w : dbof_writer σ) (t : Int), ∃ r, __dbof_1_write_object object w t = .ok r
  | .null, _, _, w, t => by
    simp only [__dbof_1_write_object]
    split <;> exact ⟨_, rfl⟩
  | .signed_byte _, _, _, w, t => by
    simp only [__dbof_1_write_object]
    split <;> exact ⟨_, rfl⟩
  | .unsigned_byte _, _, _, w, t => by
    simp only [__dbof_1_write_object]
    split <;> exact ⟨_, rfl⟩
  | .signed_integer _, _, _, w, t => by
    simp only [__dbof_1_write_object]
    split <;> exact ⟨_, rfl⟩
  | .unsigned_integer _, _, _, w, t => by
    simp only [__dbof_1_write_object]
    split <;> exact ⟨_, rfl⟩
  | .signed_long_integer _, _, _, w, t => by
    simp only [__dbof_1_write_object]
    split <;> exact ⟨_, rfl⟩
  | .unsigned_long_integer _, _, _, w, t => by
    simp only [__dbof_1_write_object]
    split <;> exact ⟨_, rfl⟩
  | .boolean _, _, _, w, t => by
    simp only [__dbof_1_write_object]
    split <;> exact ⟨_, rfl⟩
  | .single_float _, _, _, w, t => by
    simp only [__dbof_1_write_object]
    split <;> exact ⟨_, rfl⟩
  | .double_float _, _, _, w, t => by
    simp only [__dbof_1_write_object]
    split <;> exact ⟨_, rfl⟩
  | .character _, _, _, w, t => by
    simp only [__dbof_1_write_object]
    split <;> exact ⟨_, rfl⟩
  | .utf8_string none, _, he, w, t => by
    simp only [encoding] at he
    cases he
  | .utf8_string (some buf), _, _, w, t => by
    simp only [__dbof_1_write_object]
    split
    · exact ⟨_, rfl⟩
    · exact write_string_returns buf _
  | .typed_array _ children _, _, he, w, t => by
    simp only [encoding] at he
    split at he
    · cases he
    · rename_i bs hbs
      simp only [__dbof_1_write_object]
      split
      · exact ⟨_, rfl⟩
      · split
        · exact ⟨_, rfl⟩
        · split
          · exact ⟨_, rfl⟩
          · obtain ⟨w', hw'⟩ := write_typed_array_children_returns children bs hbs
              (((__dbof_1_write_flex_length_internal
                (w.call [byte (dbof_typeof (Obj.typed_array _ children _))]).2
                (u64 children.length)).2).call [byte _]).2
            rw [hw']
            exact ⟨_, rfl⟩
  | .untyped_array _ children, _, he, w, t => by
    simp only [encoding] at he
    split at he
    · cases he
    · rename_i bs hbs
      simp only [__dbof_1_write_object]
      split
      · exact ⟨_, rfl⟩
      · split
        · exact ⟨_, rfl⟩
        · exact write_untyped_array_children_returns children bs hbs _
  | .typed_map _ _ _, _, _, w, t => by
    simp only [__dbof_1_write_object]
    split <;> exact ⟨_, rfl⟩
  | .untyped_map _, _, _, w, t => by
    simp only [__dbof_1_write_object]
    split <;> exact ⟨_, rfl⟩

theorem write_typed_array_children_returns {σ : Type} :
    ∀ (children : List Obj) (bs : List Byte), encodings children = .ok bs →
      ∀ (w : dbof_writer σ), ∃ w', write_typed_array_children children w = .ok w'
  | [], _, _, w => ⟨w, by simp only [write_typed_array_children]⟩
  | object :: rest, _, he, w => by
    simp only [encodings] at he
    split at he
    · cases he
    · rename_i b hb
      split at he
      · cases he
      · rename_i bs hbs
        obtain ⟨r, hr⟩ := write_object_returns object b hb w 0
        simp only [write_typed_array_children, hr]
        exact write_typed_array_children_returns rest bs hbs r.2

theorem write_untyped_array_children_returns {σ : Type} :
    ∀ (children : List Obj) (bs : List Byte), encodings children = .ok bs →
      ∀ (w : dbof_writer σ), ∃ r, write_untyped_array_children children w = .ok r
  | [], _, _, w => ⟨(0, w), by simp only [write_untyped_array_children]⟩
  | object :: rest, _, he, w => by
    simp only [encodings] at he
    split at he
    · cases he
    · rename_i b hb
      split at he
      · cases he
      · rename_i bs hbs
        obtain ⟨r, hr⟩ := write_object_returns object b hb w 0
        simp only [write_untyped_array_children, hr]
        split
        · exact ⟨_, rfl⟩
        · exact write_untyped_array_children_returns rest bs hbs r.2

end

/-- For every object that holds no string with a `NULL` value, at any depth, and every
writer, `dbof_write` returns. -/
theorem dbof_write_returns {σ : Type} (object : Obj) (e : List Byte)
    (he : encoding object = .ok e) (writer : dbof_writer σ) :
    ∃ r, dbof_write object writer = .ok r := by
  simp only [dbof_write]
  split
  · split
    · exact write_object_returns object e he _ _
    · exact ⟨_, rfl⟩
  · split
    · exact write_object_returns object e he _ _
    · exact ⟨_, rfl⟩

/-! ## The flex-length decoder -/

/-- C13: on an ABI with signed plain `char` the flex-length decoder does not return the
sum of `b_i * 256^i`: given 02 80 00 (N = 2, bytes 80 00, value 128) it succeeds with
18446744073709551488, and so it does given the minimal form 01 80. -/
theorem flex_length_decoder_sign_extends_signed_char :
    __dbof_1_read_flex_length_internal true (file_reader [0x02, 0x80, 0x00]) =
        .ok (some 18446744073709551488, file_reader []) ∧
      (0x80 : Nat) * 256 ^ 0 + 0x00 * 256 ^ 1 = 128 ∧
      __dbof_1_read_flex_length_internal true (file_reader [0x01, 0x80]) =
        .ok (some 18446744073709551488, file_reader []) := by
  exact ⟨rfl, rfl, rfl⟩

theorem flex_fold_sum (cs : Bool) (bs : List Byte) (k : Nat) (hk : k ≤ 8)
    (hc : ∀ i < k, char_to_unsigned cs 64 (bs.getD i 0) = (bs.getD i 0).val) :
    (List.range k).foldl
        (fun length i =>
          length ||| (u64 (char_to_unsigned cs 64 (bs.getD i 0) <<< (i * 8))).val) 0 =
        Finset.sum (Finset.range k) (fun i => (bs.getD i 0).val * 256 ^ i) ∧
      Finset.sum (Finset.range k) (fun i => (bs.getD i 0).val * 256 ^ i) < 256 ^ k := by
  induction k with
  | zero => simp
  | succ k ih =>
    obtain ⟨ihe, ihlt⟩ := ih (by omega) (fun i hi => hc i (by omega))
    have hpow : (2 : Nat) ^ (k * 8) = 256 ^ k := by rw [Nat.mul_comm, Nat.pow_mul]
    have hle : (256 : Nat) ^ k ≤ 256 ^ 7 := Nat.pow_le_pow_right (by decide) (by omega)
    have hlt : (bs.getD k 0).val < 256 := (bs.getD k 0).isLt
    have hmul : (bs.getD k 0).val * 256 ^ k < 18446744073709551616 := by
      calc (bs.getD k 0).val * 256 ^ k ≤ 255 * 256 ^ 7 :=
            Nat.mul_le_mul (by omega) hle
        _ < 18446744073709551616 := by norm_num
    have hx : Finset.sum (Finset.range k) (fun i => (bs.getD i 0).val * 256 ^ i) <
        2 ^ (k * 8) := by
      rw [hpow]
      exact ihlt
    have e := or_shifted_byte _ (bs.getD k 0).val (k * 8) hx
    rw [Nat.shiftLeft_eq, hpow] at e
    constructor
    · rw [List.range_succ, List.foldl_append, ihe]
      simp only [List.foldl_cons, List.foldl_nil, u64]
      rw [hc k (by omega), Nat.shiftLeft_eq, hpow, Nat.mod_eq_of_lt hmul, e,
        Finset.sum_range_succ]
    · rw [Finset.sum_range_succ, Nat.pow_succ]
      have : (bs.getD k 0).val * 256 ^ k ≤ 255 * 256 ^ k := Nat.mul_le_mul (by omega) le_rfl
      omega

/-- Given the size byte `N` in 0 .. 8 and `N` bytes, the decoder returns the sum of
`b_i * 256^i` wherever no byte is sign-extended: on an ABI with unsigned plain `char`,
and on one with signed plain `char` for bytes below 80. -/
theorem flex_length_decoder_value (cs : Bool) (bs rest : List Byte) (uv : U16) (nh : Int)
    (hN : bs.length ≤ 8) (hcs : cs = false ∨ ∀ b ∈ bs, b.val < 128) :
    __dbof_1_read_flex_length_internal cs ⟨byte bs.length :: (bs ++ rest), uv, nh⟩ =
        .ok (some (u64 (Finset.sum (Finset.range bs.length)
          (fun i => (bs.getD i 0).val * 256 ^ i))), ⟨rest, uv, nh⟩) ∧
      Finset.sum (Finset.range bs.length) (fun i => (bs.getD i 0).val * 256 ^ i) <
        18446744073709551616 := by
  have hc : ∀ i < bs.length, char_to_unsigned cs 64 (bs.getD i 0) = (bs.getD i 0).val := by
    intro i hi
    rcases hcs with rfl | hsmall
    · simp [char_to_unsigned]
    · apply char_to_unsigned_small
      rw [List.getD_eq_getElem _ _ hi]
      exact hsmall _ (List.getElem_mem _)
  obtain ⟨hfold, hlt⟩ := flex_fold_sum cs bs bs.length hN hc
  have hle : (256 : Nat) ^ bs.length ≤ 256 ^ 8 := Nat.pow_le_pow_right (by decide) hN
  have hN' : (byte bs.length).val = bs.length := by
    simp only [byte]
    exact Nat.mod_eq_of_lt (by omega)
  have hcv : char_value cs (byte bs.length) = (bs.length : Int) := by
    rw [char_value_small cs _ (by omega), hN']
  have hsize : ((bs.length : Int) % 18446744073709551616).toNat = bs.length := by omega
  have hgt : ¬ ((bs.length : Int) > 8) := by omega
  refine ⟨?_, by norm_num at hle; omega⟩
  simp only [__dbof_1_read_flex_length_internal, __dbof_file_reader_impl_read,
    List.take_succ_cons, List.take_zero, List.drop_succ_cons, List.drop_zero,
    hcv, hgt, if_false, hsize, Int.toNat_ofNat]
  rw [List.take_left' rfl, List.drop_left' rfl]
  simp only [Nat.not_lt.mpr hN, Nat.lt_irrefl, if_false, hfold]

/-- C14: on an ABI with signed plain `char` the size byte 80 is the value -128 and
passes the test `length_size > 8`; the decoder then asks the callback for
18446744073709551488 bytes into its eight-byte array.  With nine bytes following, the
callback delivers all nine and overruns the array: the behaviour is undefined, and with
it that of the string decoder and of `dbof_file_read` (stream: header, tag 0B, 80, nine
zero bytes). -/
theorem flex_length_size_byte_80_overruns_signed_char (junk : Nat → Byte) :
    char_value true 0x80 = -128 ∧
      __dbof_1_read_flex_length_internal true
          (file_reader [0x80, 0, 0, 0, 0, 0, 0, 0, 0, 0]) =
        .error .undefined_behaviour ∧
      __dbof_1_read_object_utf8_string true (file_reader [0x80, 0, 0, 0, 0, 0, 0, 0, 0, 0]) =
        .error .undefined_behaviour ∧
      dbof_file_read true
          [0x44, 0x42, 0x4F, 0x46, 0x01, 0x00, 0x0B, 0x80, 0, 0, 0, 0, 0, 0, 0, 0, 0] junk =
        .error .undefined_behaviour := by
  refine ⟨rfl, rfl, rfl, ?_⟩
  rw [dbof_file_read_header]
  rfl

/-- The decoder fails on every size byte whose plain `char` value exceeds 8: the bytes
09 .. FF when plain `char` is unsigned, 09 .. 7F when it is signed. -/
theorem flex_length_decoder_rejects (cs : Bool) (b : Byte) (rest : List Byte) (uv : U16)
    (nh : Int) (h : 8 < char_value cs b) :
    __dbof_1_read_flex_length_internal cs ⟨b :: rest, uv, nh⟩ = .ok (none, ⟨rest, uv, nh⟩) := by
  simp [__dbof_1_read_flex_length_internal, __dbof_file_reader_impl_read, h]

/-- When the flex-length decoder fails, the string, array and map decoders that called
it return `NULL`. -/
theorem flex_length_failure_gives_null (cs : Bool) (reader reader' : dbof_reader)
    (read_object : dbof_reader → Except Fault (dbof_object × dbof_reader))
    (h : __dbof_1_read_flex_length_internal cs reader = .ok (none, reader')) :
    __dbof_1_read_object_utf8_string cs reader = .ok (none, reader') ∧
      __dbof_1_read_object_typed_array cs read_object reader = .ok (none, reader') ∧
      __dbof_1_read_object_untyped_array cs read_object reader = .ok (none, reader') ∧
      __dbof_1_read_object_typed_map cs reader = .ok (none, reader') ∧
      __dbof_1_read_object_untyped_map cs reader = .ok (none, reader') := by
  simp [__dbof_1_read_object_utf8_string, __dbof_1_read_object_typed_array,
    __dbof_1_read_object_untyped_array, __dbof_1_read_object_typed_map,
    __dbof_1_read_object_untyped_map, h]

/-! ## When `dbof_read` returns `NULL` -/

theorem or_shift_8_mod_256 (a x : Nat) : (a ||| (x <<< 8)) % 256 = a % 256 := by
  apply Nat.eq_of_testBit_eq
  intro i
  rw [show (256 : Nat) = 2 ^ 8 from rfl]
  simp only [Nat.testBit_mod_two_pow, Nat.testBit_or, Nat.testBit_shiftLeft]
  by_cases hi : i < 8
  · have : ¬ (i ≥ 8) := by omega
    simp [hi, this]
  · simp [hi]

theorem char_to_unsigned_16_cases (cs : Bool) (b : Byte) :
    char_to_unsigned cs 16 b = b.val ∨
      (128 ≤ b.val ∧ char_to_unsigned cs 16 b = 65280 + b.val) := by
  unfold char_to_unsigned
  split
  · rename_i h
    simp only [Bool.and_eq_true, decide_eq_true_eq] at h
    right
    exact ⟨h.2, by norm_num⟩
  · left
    rfl

/-- The version that `dbof_read` assembles from the header cells 4 and 5 is 1 only for
the bytes 01 00, on either kind of plain `char`. -/
theorem header_version_eq_one (cs : Bool) (h4 h5 : Byte)
    (h : u16 ((u16 ((0 : U16).val ||| ((u16 (char_to_unsigned cs 16 h4)).val <<< 0))).val |||
      ((u16 (char_to_unsigned cs 16 h5)).val <<< 8)) = 1) : h4 = 1 ∧ h5 = 0 := by
  have hb4 := h4.isLt
  have hb5 := h5.isLt
  have hv := congrArg Fin.val h
  simp only [u16, Nat.shiftLeft_zero, Fin.val_zero, Nat.zero_or, Nat.mod_mod] at hv
  have hone : ((1 : U16).val) = 1 := rfl
  rw [hone] at hv
  have hlow := or_shift_8_mod_256 (char_to_unsigned cs 16 h4 % 65536)
    (char_to_unsigned cs 16 h5 % 65536)
  have h4v : h4.val = 1 := by
    rcases char_to_unsigned_16_cases cs h4 with e | ⟨_, e⟩ <;> rw [e] at hlow hv <;> omega
  have e4 : char_to_unsigned cs 16 h4 = 1 := by
    rcases char_to_unsigned_16_cases cs h4 with e | ⟨hge, e⟩
    · rw [e, h4v]
    · omega
  rw [e4] at hv
  have hor := or_shifted_byte (1 % 65536) (char_to_unsigned cs 16 h5 % 65536) 8 (by norm_num)
  rw [hor] at hv
  have h5v : h5.val = 0 := by
    rcases char_to_unsigned_16_cases cs h5 with e | ⟨_, e⟩ <;> rw [e] at hv <;> omega
  exact ⟨Fin.ext h4v, Fin.ext h5v⟩

/-- What `dbof_read` does reject: it returns `NULL` when `no_header` is set and
`use_version` is 0; when the first four header cells are not 'D', 'B', 'O', 'F'; when
the version it dispatches on (`use_version` when `no_header` is set, else the
little-endian value of header cells 4 and 5) is not 1; and when the tag of the root
object is none of the values 0 .. 15 that the decoder's switch has a case for. -/
theorem dbof_read_rejects (cs : Bool) (reader : dbof_reader) (junk : Nat → Byte)
    (h :
      (reader.no_header ≠ 0 ∧ reader.use_version = 0) ∨
      (reader.no_header = 0 ∧
        ¬ (header_cell reader junk 0 = 0x44 ∧ header_cell reader junk 1 = 0x42 ∧
          header_cell reader junk 2 = 0x4F ∧ header_cell reader junk 3 = 0x46)) ∨
      (reader.no_header ≠ 0 ∧ reader.use_version ≠ 1) ∨
      (reader.no_header = 0 ∧
        ¬ (header_cell reader junk 4 = 0x01 ∧ header_cell reader junk 5 = 0x00)) ∨
      (∃ b rest, (body_reader reader).data = b :: rest ∧ unknown_type_id cs b = true)) :
    dbof_read cs reader junk = .ok none := by
  simp only [dbof_read]
  split
  · rename_i hnh
    split
    · rfl
    · rename_i huv
      split
      · rename_i hv1
        rcases h with h | h | h | h | h
        · exact absurd h.2 huv
        · exact absurd h.1 hnh
        · exact absurd hv1 h.2
        · exact absurd h.1 hnh
        · rw [body_reader, if_pos hnh] at h
          obtain ⟨b, rest, hd, hb⟩ := h
          obtain ⟨data, uv, nh⟩ := reader
          simp only at hd
          subst hd
          simp only [List.length_cons]
          rw [read_object_unknown_tag cs _ b rest uv nh 1 hb]
          rfl
      · rfl
  · rename_i hnh
    have hnh0 : reader.no_header = 0 := by
      by_contra hc
      exact hnh hc
    split
    · rfl
    · rename_i hmagic
      split
      · rename_i hv1
        rcases h with h | h | h | h | h
        · exact absurd hnh0 h.1
        · exact absurd (not_not.mp hmagic) h.2
        · exact absurd hnh0 h.1
        · exact absurd (header_version_eq_one cs _ _ hv1) h.2
        · rw [body_reader, if_neg hnh] at h
          obtain ⟨b, rest, hd, hb⟩ := h
          simp only at hd
          simp only [__dbof_file_reader_impl_read, hd, List.length_cons]
          rw [read_object_unknown_tag cs _ b rest _ _ 1 hb]
          rfl
      · rfl

/-- C15: three streams on which `dbof_read` returns an object where it should return
`NULL`, on either kind of plain `char`.  With a reader that forces version 2
(`use_version` = 2) the stream 44 42 4F 46 01 00 01 05 is decoded as DBOF-1 to
SignedByte(5): the forced version is not looked at.  After a good header the tags 0E
and 0F, which are none of the sixteen type IDs 0 .. 11 and 128 .. 131, are decoded as
a typed map and an untyped map. -/
theorem dbof_read_accepts_forced_version_and_ordinal_tags (cs : Bool) (junk : Nat → Byte) :
    dbof_read cs
        { data := [0x44, 0x42, 0x4F, 0x46, 0x01, 0x00, 0x01, 0x05], use_version := 2,
          no_header := 0 } junk =
      .ok (some (.signed_byte 5)) ∧
    dbof_file_read cs [0x44, 0x42, 0x4F, 0x46, 0x01, 0x00, 0x0E, 0x01, 0x00, 0x00, 0x00] junk =
      .ok (some (.typed_map 0 0 0)) ∧
    dbof_file_read cs [0x44, 0x42, 0x4F, 0x46, 0x01, 0x00, 0x0F, 0x01, 0x00] junk =
      .ok (some (.untyped_map 0)) := by
  refine ⟨?_, ?_, ?_⟩
  · simp only [dbof_read, __dbof_file_reader_impl_read]
    simp [char_to_unsigned, u16, read_object_signed_byte_tag]
    rfl
  · rw [dbof_file_read_header]
    cases cs <;> rfl
  · rw [dbof_file_read_header]
    cases cs <;> rfl

/-! ## Truncated streams, failing callbacks, forced versions -/

set_option maxRecDepth 100000 in
/-- C16: on an ABI with signed plain `char`, a proper prefix of what `dbof_file_write`
wrote for a string of 255 bytes does not make `dbof_file_read` return `NULL`: the length
01 FF is decoded as 2^64 - 1, the buffer is `malloc (0)`, and the content bytes that the
prefix still holds (one byte for the prefix header, 0B 01 FF, 61; 254 bytes for the
longest proper prefix) are stored past its end: undefined behaviour. -/
theorem truncated_string_255_overruns_signed_char (junk : Nat → Byte) :
    dbof_file_write (.utf8_string (some (List.replicate 255 0x61))) [] =
        .ok (0, [0x44, 0x42, 0x4F, 0x46, 0x01, 0x00, 0x0B, 0x01, 0xFF, 0x61] ++
          List.replicate 254 0x61) ∧
      dbof_file_read true [0x44, 0x42, 0x4F, 0x46, 0x01, 0x00, 0x0B, 0x01, 0xFF, 0x61] junk =
        .error .undefined_behaviour ∧
      dbof_file_read true
          (0x44 :: 0x42 :: 0x4F :: 0x46 :: 0x01 :: 0x00 :: 0x0B :: 0x01 :: 0xFF ::
            List.replicate 254 0x61) junk =
        .error .undefined_behaviour := by
  refine ⟨?_, ?_, ?_⟩
  · rw [dbof_file_write_eq]
    rfl
  · rw [dbof_file_read_header]
    rfl
  · rw [dbof_file_read_header]
    rfl

/-- C17: `dbof_write` returns 0 although a callback invocation reported a short count:
(1) SignedByte(1) with a callback that reports 0 bytes for the first block, the header,
and full counts after; (2) the typed array holding SignedByte(1) with a callback that
reports 0 bytes for the sixth block, the element's tag.  For the untyped array holding
SignedByte(1) and a callback that fails on the element's tag (its fifth block) the
status is -1. -/
theorem short_write_is_not_reported :
    (dbof_write (.signed_byte 1)
        (recording_writer (fun log buf => if log.length = 0 then 0 else buf.length) 0 0)).map
          Prod.fst = .ok 0 ∧
      (dbof_write (.typed_array 10 [.signed_byte 1] 1)
        (recording_writer (fun log buf => if log.length = 5 then 0 else buf.length) 0 0)).map
          Prod.fst = .ok 0 ∧
      (dbof_write (.typed_array 10 [.signed_byte 1] 1)
        (recording_writer (fun log buf => if log.length = 5 then 0 else buf.length) 0 0)).map
          (fun r => r.2.data) =
        .ok [[0x44, 0x42, 0x4F, 0x46, 0x01, 0x00], [0x0C], [0x01], [0x01], [0x01], [0x01]] ∧
      (dbof_write (.untyped_array 10 [.signed_byte 1])
        (recording_writer (fun log buf => if log.length = 4 then 0 else buf.length) 0 0)).map
          Prod.fst = .ok (-1) := by
  exact ⟨rfl, rfl, rfl, rfl⟩

/-- C18: with `no_header = 0` the field `use_version` is not looked at.  A reader with
`use_version = 1` on a stream whose header announces version 2 gets `NULL` (the body
01 05 is not decoded as DBOF-1), and a reader with `use_version = 2` on a stream whose
header announces version 1 gets the body decoded as DBOF-1. -/
theorem use_version_ignored_with_header (cs : Bool) (junk : Nat → Byte) :
    dbof_read cs ⟨[0x44, 0x42, 0x4F, 0x46, 0x02, 0x00, 0x01, 0x05], 1, 0⟩ junk = .ok none ∧
      dbof_read cs ⟨[0x44, 0x42, 0x4F, 0x46, 0x01, 0x00, 0x01, 0x05], 2, 0⟩ junk =
        .ok (some (.signed_byte 5)) := by
  constructor
  · simp [dbof_read, __dbof_file_reader_impl_read, char_to_unsigned, u16]
  · simp only [dbof_read, __dbof_file_reader_impl_read]
    simp [char_to_unsigned, u16, read_object_signed_byte_tag]
    rfl

/-! ## Truncated streams on an ABI with unsigned plain `char` -/

theorem read_object_empty (cs : Bool) (fuel : Nat) (uv : U16) (nh t : Int) :
    __dbof_1_read_object cs (fuel + 1) ⟨[], uv, nh⟩ t = .ok (none, ⟨[], uv, nh⟩) := by
  simp [__dbof_1_read_object, __dbof_file_reader_impl_read]

theorem read_1_full (b : Byte) (rest : List Byte) (uv : U16) (nh : Int) :
    read_1 ⟨b :: rest, uv, nh⟩ = (some b, ⟨rest, uv, nh⟩) := rfl

theorem read_1_short (uv : U16) (nh : Int) :
    read_1 ⟨[], uv, nh⟩ = (none, ⟨[], uv, nh⟩) := rfl

theorem read_4_full (cs : Bool) (l rest : List Byte) (uv : U16) (nh : Int)
    (hl : l.length = 4) :
    ∃ v, read_4 cs ⟨l ++ rest, uv, nh⟩ = (some v, ⟨rest, uv, nh⟩) := by
  rcases l with _ | ⟨a, _ | ⟨b, _ | ⟨c, _ | ⟨d, _ | ⟨e, l⟩⟩⟩⟩⟩ <;> simp at hl
  exact ⟨_, rfl⟩

theorem read_4_short (cs : Bool) (q : List Byte) (uv : U16) (nh : Int)
    (hq : q.length < 4) :
    ∃ r, read_4 cs ⟨q, uv, nh⟩ = (none, r) := by
  rcases q with _ | ⟨a, _ | ⟨b, _ | ⟨c, _ | ⟨d, l⟩⟩⟩⟩
  · exact ⟨_, rfl⟩
  · exact ⟨_, rfl⟩
  · exact ⟨_, rfl⟩
  · exact ⟨_, rfl⟩
  · simp at hq
    omega

theorem read_8_full (cs : Bool) (l rest : List Byte) (uv : U16) (nh : Int)
    (hl : l.length = 8) :
    ∃ v, read_8 cs ⟨l ++ rest, uv, nh⟩ = (some v, ⟨rest, uv, nh⟩) := by
  rcases l with _ | ⟨a, _ | ⟨b, _ | ⟨c, _ | ⟨d, _ | ⟨e, _ | ⟨f, _ | ⟨g, _ | ⟨h, _ | ⟨i, l⟩⟩⟩⟩⟩⟩⟩⟩⟩ <;>
    simp at hl
  exact ⟨_, rfl⟩

theorem read_8_short (cs : Bool) (q : List Byte) (uv : U16) (nh : Int)
    (hq : q.length < 8) :
    ∃ r, read_8 cs ⟨q, uv, nh⟩ = (none, r) := by
  rcases q with _ | ⟨a, _ | ⟨b, _ | ⟨c, _ | ⟨d, _ | ⟨e, _ | ⟨f, _ | ⟨g, _ | ⟨h, l⟩⟩⟩⟩⟩⟩⟩⟩
  · exact ⟨_, rfl⟩
  · exact ⟨_, rfl⟩
  · exact ⟨_, rfl⟩
  · exact ⟨_, rfl⟩
  · exact ⟨_, rfl⟩
  · exact ⟨_, rfl⟩
  · exact ⟨_, rfl⟩
  · exact ⟨_, rfl⟩
  · simp at hq
    omega

theorem strlen_le (buf : List Byte) : strlen buf ≤ buf.length :=
  (List.takeWhile_prefix _).length_le

theorem length_take_strlen (buf : List Byte) : (buf.take (strlen buf)).length = strlen buf := by
  rw [List.length_take]
  exact Nat.min_eq_left (strlen_le buf)

theorem flex_encoding_length (v : U64) :
    (flex_encoding v).length = __count_min_bytes_internal v + 1 := by
  rw [flex_encoding_eq]
  simp

/-- On a stream that ends inside a flex length the decoder fails. -/
theorem flex_length_truncated (v : U64) (q t : List Byte) (uv : U16) (nh : Int)
    (h : q ++ t = flex_encoding v) (ht : t ≠ []) :
    ∃ r, __dbof_1_read_flex_length_internal false ⟨q, uv, nh⟩ = .ok (none, r) := by
  obtain ⟨h1, h8, _, _⟩ := count_min_bytes_spec v
  rw [flex_encoding_eq] at h
  rcases q with _ | ⟨b, q⟩
  · exact ⟨_, rfl⟩
  · simp only [List.cons_append, List.cons.injEq] at h
    obtain ⟨hb, hq⟩ := h
    have hlen : q.length + t.length = __count_min_bytes_internal v := by
      have := congrArg List.length hq
      simpa using this
    have htl : 0 < t.length := List.length_pos.mpr ht
    have hN : (byte (__count_min_bytes_internal v)).val = __count_min_bytes_internal v := by
      simp only [byte]
      exact Nat.mod_eq_of_lt (by omega)
    have hcv : char_value false b = (__count_min_bytes_internal v : Int) := by
      rw [hb, char_value_small false _ (by omega), hN]
    simp only [__dbof_1_read_flex_length_internal, __dbof_file_reader_impl_read,
      List.take_succ_cons, List.take_zero, List.drop_succ_cons, List.drop_zero, hcv]
    have h9 : ¬ ((__count_min_bytes_internal v : Int) > 8) := by omega
    have hmod : ((__count_min_bytes_internal v : Int) % 18446744073709551616).toNat =
        __count_min_bytes_internal v := by omega
    have htake : q.take (__count_min_bytes_internal v) = q := List.take_of_length_le (by omega)
    simp only [h9, if_false, hmod, htake]
    have h8' : ¬ (8 < q.length) := by omega
    have hlt : q.length < __count_min_bytes_internal v := by omega
    simp only [h8', if_false, hlt, if_true]
    exact ⟨_, rfl⟩


theorem encoding_length_pos (object : Obj) (e : List Byte) (he : encoding object = .ok e) :
    0 < e.length := by
  cases object with
  | utf8_string v =>
    cases v with
    | none =>
      simp only [encoding] at he
      cases he
    | some buf =>
      simp only [encoding] at he
      cases he
      simp
  | typed_array c ch ty =>
    simp only [encoding] at he
    split at he <;> cases he
    simp
  | untyped_array c ch =>
    simp only [encoding] at he
    split at he <;> cases he
    simp
  | _ =>
    simp only [encoding] at he
    cases he
    simp

theorem string_read_full (n : Nat) (c rest : List Byte) (uv : U16) (nh : Int)
    (hc : c.length = n) (hlen : n + 1 < 18446744073709551616) :
    ∃ o, __dbof_1_read_object_utf8_string false
        ⟨(flex_encoding (u64 n) ++ c) ++ rest, uv, nh⟩ =
      .ok (some o, ⟨rest, uv, nh⟩) := by
  have hv : (u64 n).val = n := by
    simp only [u64]
    exact Nat.mod_eq_of_lt (by omega)
  have hv1 : (u64 (n + 1)).val = n + 1 := by
    simp only [u64]
    exact Nat.mod_eq_of_lt (by omega)
  rw [List.append_assoc]
  simp only [__dbof_1_read_object_utf8_string, flex_length_roundtrip_unsigned_char,
    __dbof_file_reader_impl_read, hv, hv1]
  subst hc
  rw [List.take_left' rfl, List.drop_left' rfl]
  simp

theorem string_read_truncated (n : Nat) (c q t : List Byte) (uv : U16) (nh : Int)
    (hc : c.length = n) (hlen : n + 1 < 18446744073709551616)
    (h : q ++ t = flex_encoding (u64 n) ++ c) (ht : t ≠ []) :
    ∃ r, __dbof_1_read_object_utf8_string false ⟨q, uv, nh⟩ = .ok (none, r) := by
  have hv : (u64 n).val = n := by
    simp only [u64]
    exact Nat.mod_eq_of_lt (by omega)
  have hv1 : (u64 (n + 1)).val = n + 1 := by
    simp only [u64]
    exact Nat.mod_eq_of_lt (by omega)
  have htl : 0 < t.length := List.length_pos.mpr ht
  rcases List.append_eq_append_iff.mp h with ⟨a, ha, hta⟩ | ⟨c', hq, hcc⟩
  · by_cases hnil : a = []
    · subst hnil
      simp only [List.append_nil] at ha hta
      subst hta
      rw [← ha]
      have := flex_length_roundtrip_unsigned_char (u64 n) [] uv nh
      rw [List.append_nil] at this
      simp only [__dbof_1_read_object_utf8_string, this, __dbof_file_reader_impl_read, hv, hv1,
        List.take_nil, List.length_nil, List.drop_nil]
      have : ¬ (n + 1 < 0) := by omega
      have h0 : 0 < n := by
        rw [← hc]
        exact htl
      simp only [this, if_false, h0, if_true]
      exact ⟨_, rfl⟩
    · obtain ⟨r, hr⟩ := flex_length_truncated (u64 n) q a uv nh ha.symm hnil
      exact ⟨r, (flex_length_failure_gives_null false _ r (fun _ => .ok (none, r)) hr).1⟩
  · subst hq
    have hlen' : c'.length + t.length = n := by
      rw [← hc, hcc]
      simp
    simp only [__dbof_1_read_object_utf8_string, flex_length_roundtrip_unsigned_char,
      __dbof_file_reader_impl_read, hv, hv1]
    have htake : c'.take n = c' := List.take_of_length_le (by omega)
    have h1 : ¬ (n + 1 < c'.length) := by omega
    have h2 : c'.length < n := by omega
    simp only [htake, h1, if_false, h2, if_true]
    exact ⟨_, rfl⟩


theorem u64_val_of_lt (n : Nat) (h : n < 18446744073709551616) : (u64 n).val = n := by
  simp only [u64]
  exact Nat.mod_eq_of_lt h

theorem typed_array_read_full
    (read_object : dbof_reader → Except Fault (dbof_object × dbof_reader))
    (n : Nat) (tyb : Byte) (bs rest : List Byte) (uv : U16) (nh : Int)
    (hn : n < 18446744073709551616)
    (hch : ∀ arr, ∃ arr', read_children read_object __object_typed_array_impl_push_back n arr
      ⟨bs ++ rest, uv, nh⟩ = .ok (some arr', ⟨rest, uv, nh⟩)) :
    ∃ o, __dbof_1_read_object_typed_array false read_object
        ⟨(flex_encoding (u64 n) ++ tyb :: bs) ++ rest, uv, nh⟩ =
      .ok (some o, ⟨rest, uv, nh⟩) := by
  rw [List.append_assoc]
  simp only [__dbof_1_read_object_typed_array, flex_length_roundtrip_unsigned_char,
    __dbof_file_reader_impl_read, u64_val_of_lt n hn, List.cons_append, List.take_succ_cons,
    List.take_zero, List.drop_succ_cons, List.drop_zero]
  obtain ⟨arr', h⟩ := hch
    { __object_typed_array_impl_resize __new_object_typed_array n with
      type := char_to_unsigned false 32 tyb }
  rw [h]
  exact ⟨_, rfl⟩

theorem untyped_array_read_full
    (read_object : dbof_reader → Except Fault (dbof_object × dbof_reader))
    (n : Nat) (bs rest : List Byte) (uv : U16) (nh : Int)
    (hn : n < 18446744073709551616)
    (hch : ∀ arr, ∃ arr', read_children read_object __object_untyped_array_impl_push_back n arr
      ⟨bs ++ rest, uv, nh⟩ = .ok (some arr', ⟨rest, uv, nh⟩)) :
    ∃ o, __dbof_1_read_object_untyped_array false read_object
        ⟨(flex_encoding (u64 n) ++ bs) ++ rest, uv, nh⟩ =
      .ok (some o, ⟨rest, uv, nh⟩) := by
  rw [List.append_assoc]
  simp only [__dbof_1_read_object_untyped_array, flex_length_roundtrip_unsigned_char,
    u64_val_of_lt n hn]
  obtain ⟨arr', h⟩ := hch (__object_untyped_array_impl_resize __new_object_untyped_array n)
  rw [h]
  exact ⟨_, rfl⟩

theorem typed_array_read_truncated
    (read_object : dbof_reader → Except Fault (dbof_object × dbof_reader))
    (n : Nat) (tyb : Byte) (bs q t : List Byte) (uv : U16) (nh : Int)
    (hn : n < 18446744073709551616)
    (h : q ++ t = flex_encoding (u64 n) ++ tyb :: bs)
    (hch : ∀ c, c ++ t = bs → ∀ arr, ∃ r, read_children read_object
      __object_typed_array_impl_push_back n arr ⟨c, uv, nh⟩ = .ok (none, r)) :
    ∃ r, __dbof_1_read_object_typed_array false read_object ⟨q, uv, nh⟩ = .ok (none, r) := by
  rcases List.append_eq_append_iff.mp h with ⟨a, ha, hta⟩ | ⟨c', hq, hcc⟩
  · by_cases hnil : a = []
    · subst hnil
      simp only [List.append_nil] at ha
      rw [← ha]
      have := flex_length_roundtrip_unsigned_char (u64 n) [] uv nh
      rw [List.append_nil] at this
      simp only [__dbof_1_read_object_typed_array, this, __dbof_file_reader_impl_read,
        List.take_nil, List.drop_nil]
      exact ⟨_, rfl⟩
    · obtain ⟨r, hr⟩ := flex_length_truncated (u64 n) q a uv nh ha.symm hnil
      exact ⟨r, (flex_length_failure_gives_null false _ r read_object hr).2.1⟩
  · subst hq
    rcases c' with _ | ⟨b, c⟩
    · simp only [__dbof_1_read_object_typed_array, flex_length_roundtrip_unsigned_char,
        __dbof_file_reader_impl_read, List.take_nil, List.drop_nil]
      exact ⟨_, rfl⟩
    · simp only [List.cons_append, List.cons.injEq] at hcc
      simp only [__dbof_1_read_object_typed_array, flex_length_roundtrip_unsigned_char,
        __dbof_file_reader_impl_read, u64_val_of_lt n hn, List.take_succ_cons,
        List.take_zero, List.drop_succ_cons, List.drop_zero]
      obtain ⟨r, hr⟩ := hch c hcc.2.symm
        { __object_typed_array_impl_resize __new_object_typed_array n with
          type := char_to_unsigned false 32 b }
      rw [hr]
      exact ⟨_, rfl⟩

theorem untyped_array_read_truncated
    (read_object : dbof_reader → Except Fault (dbof_object × dbof_reader))
    (n : Nat) (bs q t : List Byte) (uv : U16) (nh : Int)
    (hn : n < 18446744073709551616)
    (h : q ++ t = flex_encoding (u64 n) ++ bs)
    (hch : ∀ c, c ++ t = bs → ∀ arr, ∃ r, read_children read_object
      __object_untyped_array_impl_push_back n arr ⟨c, uv, nh⟩ = .ok (none, r)) :
    ∃ r, __dbof_1_read_object_untyped_array false read_object ⟨q, uv, nh⟩ = .ok (none, r) := by
  rcases List.append_eq_append_iff.mp h with ⟨a, ha, hta⟩ | ⟨c, hq, hcc⟩
  · by_cases hnil : a = []
    · subst hnil
      simp only [List.append_nil] at ha
      simp only [List.nil_append] at hta
      rw [← ha]
      have := flex_length_roundtrip_unsigned_char (u64 n) [] uv nh
      rw [List.append_nil] at this
      simp only [__dbof_1_read_object_untyped_array, this, u64_val_of_lt n hn]
      obtain ⟨r, hr⟩ := hch [] (by simpa using hta)
        (__object_untyped_array_impl_resize __new_object_untyped_array n)
      rw [hr]
      exact ⟨_, rfl⟩
    · obtain ⟨r, hr⟩ := flex_length_truncated (u64 n) q a uv nh ha.symm hnil
      exact ⟨r, (flex_length_failure_gives_null false _ r read_object hr).2.2.1⟩
  · subst hq
    simp only [__dbof_1_read_object_untyped_array, flex_length_roundtrip_unsigned_char,
      u64_val_of_lt n hn]
    obtain ⟨r, hr⟩ := hch c hcc.symm
      (__object_untyped_array_impl_resize __new_object_untyped_array n)
    rw [hr]
    exact ⟨_, rfl⟩

theorem typed_map_read_truncated (n : Nat) (k v : Byte) (q t : List Byte) (uv : U16) (nh : Int)
    (h : q ++ t = flex_encoding (u64 n) ++ [k, v]) (ht : t ≠ []) :
    ∃ r, __dbof_1_read_object_typed_map false ⟨q, uv, nh⟩ = .ok (none, r) := by
  rcases List.append_eq_append_iff.mp h with ⟨a, ha, hta⟩ | ⟨c', hq, hcc⟩
  · by_cases hnil : a = []
    · subst hnil
      simp only [List.append_nil] at ha
      rw [← ha]
      have := flex_length_roundtrip_unsigned_char (u64 n) [] uv nh
      rw [List.append_nil] at this
      simp only [__dbof_1_read_object_typed_map, this, __dbof_file_reader_impl_read,
        List.take_nil, List.drop_nil]
      exact ⟨_, rfl⟩
    · obtain ⟨r, hr⟩ := flex_length_truncated (u64 n) q a uv nh ha.symm hnil
      exact ⟨r, (flex_length_failure_gives_null false _ r (fun _ => .ok (none, r)) hr).2.2.2.1⟩
  · subst hq
    have htl : 0 < t.length := List.length_pos.mpr ht
    have hlen : c'.length + t.length = 2 := by
      have := congrArg List.length hcc
      simp at this
      omega
    rcases c' with _ | ⟨b, _ | ⟨c, l⟩⟩
    · simp only [__dbof_1_read_object_typed_map, flex_length_roundtrip_unsigned_char,
        __dbof_file_reader_impl_read, List.take_nil, List.drop_nil]
      exact ⟨_, rfl⟩
    · simp only [__dbof_1_read_object_typed_map, flex_length_roundtrip_unsigned_char,
        __dbof_file_reader_impl_read, List.take_succ_cons, List.take_zero, List.drop_succ_cons,
        List.drop_zero, List.take_nil, List.drop_nil]
      exact ⟨_, rfl⟩
    · simp at hlen
      omega

theorem untyped_map_read_truncated (n : Nat) (q t : List Byte) (uv : U16) (nh : Int)
    (h : q ++ t = flex_encoding (u64 n)) (ht : t ≠ []) :
    ∃ r, __dbof_1_read_object_untyped_map false ⟨q, uv, nh⟩ = .ok (none, r) := by
  obtain ⟨r, hr⟩ := flex_length_truncated (u64 n) q t uv nh h ht
  exact ⟨r, (flex_length_failure_gives_null false _ r (fun _ => .ok (none, r)) hr).2.2.2.2⟩


theorem encodings_length_ge :
    ∀ (children : List Obj) (bs : List Byte), encodings children = .ok bs →
      children.length ≤ bs.length
  | [], _, _ => by simp
  | object :: rest, bs, he => by
    simp only [encodings] at he
    split at he
    · cases he
    · rename_i b hb
      split at he
      · cases he
      · rename_i bs' hbs'
        cases he
        have h1 := encoding_length_pos object b hb
        have h2 := encodings_length_ge rest bs' hbs'
        simp only [List.length_cons, List.length_append]
        omega

mutual

theorem read_object_full :
    ∀ (object : Obj) (e : List Byte), encoding object = .ok e →
      e.length < 18446744073709551616 →
      ∀ (fuel : Nat) (rest : List Byte) (uv : U16) (nh t : Int), e.length ≤ fuel →
        ∃ o, __dbof_1_read_object false fuel ⟨e ++ rest, uv, nh⟩ t =
          .ok (some o, ⟨rest, uv, nh⟩)
  | .null, e, he, _, fuel, rest, uv, nh, t, hf => by
    have hpos := encoding_length_pos _ e he
    obtain ⟨f, rfl⟩ : ∃ f, fuel = f + 1 := ⟨fuel - 1, by omega⟩
    simp only [encoding] at he
    cases he
    simp only [List.cons_append, List.nil_append, read_object_null_tag]
    exact ⟨_, rfl⟩
  | .signed_byte v, e, he, _, fuel, rest, uv, nh, t, hf => by
    have hpos := encoding_length_pos _ e he
    obtain ⟨f, rfl⟩ : ∃ f, fuel = f + 1 := ⟨fuel - 1, by omega⟩
    simp only [encoding] at he
    cases he
    simp only [List.cons_append, List.nil_append, read_object_signed_byte_tag]
    simp only [__dbof_1_read_object_signed_byte, read_1_full]
    exact ⟨_, rfl⟩
  | .unsigned_byte v, e, he, _, fuel, rest, uv, nh, t, hf => by
    have hpos := encoding_length_pos _ e he
    obtain ⟨f, rfl⟩ : ∃ f, fuel = f + 1 := ⟨fuel - 1, by omega⟩
    simp only [encoding] at he
    cases he
    simp only [List.cons_append, List.nil_append, read_object_unsigned_byte_tag]
    simp only [__dbof_1_read_object_unsigned_byte, read_1_full]
    exact ⟨_, rfl⟩
  | .signed_integer v, e, he, _, fuel, rest, uv, nh, t, hf => by
    have hpos := encoding_length_pos _ e he
    obtain ⟨f, rfl⟩ : ∃ f, fuel = f + 1 := ⟨fuel - 1, by omega⟩
    simp only [encoding] at he
    cases he
    simp only [List.cons_append, List.nil_append, read_object_signed_integer_tag]
    obtain ⟨x, hx⟩ := read_4_full false (pack_le32 v) rest uv nh rfl
    simp only [__dbof_1_read_object_signed_integer, hx]
    exact ⟨_, rfl⟩
  | .unsigned_integer v, e, he, _, fuel, rest, uv, nh, t, hf => by
    have hpos := encoding_length_pos _ e he
    obtain ⟨f, rfl⟩ : ∃ f, fuel = f + 1 := ⟨fuel - 1, by omega⟩
    simp only [encoding] at he
    cases he
    simp only [List.cons_append, List.nil_append, read_object_unsigned_integer_tag]
    obtain ⟨x, hx⟩ := read_4_full false (pack_le32 v) rest uv nh rfl
    simp only [__dbof_1_read_object_unsigned_integer, hx]
    exact ⟨_, rfl⟩
  | .signed_long_integer v, e, he, _, fuel, rest, uv, nh, t, hf => by
    have hpos := encoding_length_pos _ e he
    obtain ⟨f, rfl⟩ : ∃ f, fuel = f + 1 := ⟨fuel - 1, by omega⟩
    simp only [encoding] at he
    cases he
    simp only [List.cons_append, List.nil_append, read_object_signed_long_integer_tag]
    obtain ⟨x, hx⟩ := read_8_full false (pack_le64 v) rest uv nh rfl
    simp only [__dbof_1_read_object_signed_long_integer, hx]
    exact ⟨_, rfl⟩
  | .unsigned_long_integer v, e, he, _, fuel, rest, uv, nh, t, hf => by
    have hpos := encoding_length_pos _ e he
    obtain ⟨f, rfl⟩ : ∃ f, fuel = f + 1 := ⟨fuel - 1, by omega⟩
    simp only [encoding] at he
    cases he
    simp only [List.cons_append, List.nil_append, read_object_unsigned_long_integer_tag]
    obtain ⟨x, hx⟩ := read_8_full false (pack_le64 v) rest uv nh rfl
    simp only [__dbof_1_read_object_unsigned_long_integer, hx]
    exact ⟨_, rfl⟩
  | .boolean v, e, he, _, fuel, rest, uv, nh, t, hf => by
    have hpos := encoding_length_pos _ e he
    obtain ⟨f, rfl⟩ : ∃ f, fuel = f + 1 := ⟨fuel - 1, by omega⟩
    simp only [encoding] at he
    cases he
    simp only [List.cons_append, List.nil_append, read_object_boolean_tag]
    simp only [__dbof_1_read_object_boolean, read_1_full]
    exact ⟨_, rfl⟩
  | .single_float v, e, he, _, fuel, rest, uv, nh, t, hf => by
    have hpos := encoding_length_pos _ e he
    obtain ⟨f, rfl⟩ : ∃ f, fuel = f + 1 := ⟨fuel - 1, by omega⟩
    simp only [encoding] at he
    cases he
    simp only [List.cons_append, List.nil_append, read_object_single_float_tag]
    obtain ⟨x, hx⟩ := read_4_full false (pack_le32 v) rest uv nh rfl
    simp only [__dbof_1_read_object_single_float, hx]
    exact ⟨_, rfl⟩
  | .double_float v, e, he, _, fuel, rest, uv, nh, t, hf => by
    have hpos := encoding_length_pos _ e he
    obtain ⟨f, rfl⟩ : ∃ f, fuel = f + 1 := ⟨fuel - 1, by omega⟩
    simp only [encoding] at he
    cases he
    simp only [List.cons_append, List.nil_append, read_object_double_float_tag]
    obtain ⟨x, hx⟩ := read_8_full false (pack_le64 v) rest uv nh rfl
    simp only [__dbof_1_read_object_double_float, hx]
    exact ⟨_, rfl⟩
  | .character v, e, he, _, fuel, rest, uv, nh, t, hf => by
    have hpos := encoding_length_pos _ e he
    obtain ⟨f, rfl⟩ : ∃ f, fuel = f + 1 := ⟨fuel - 1, by omega⟩
    simp only [encoding] at he
    cases he
    simp only [List.cons_append, List.nil_append, read_object_character_tag]
    obtain ⟨x, hx⟩ := read_4_full false (pack_le32 v) rest uv nh rfl
    simp only [__dbof_1_read_object_character, hx]
    exact ⟨_, rfl⟩
  | .utf8_string none, e, he, _, fuel, rest, uv, nh, t, hf => by
    simp only [encoding] at he
    cases he
  | .utf8_string (some buf), e, he, hlt, fuel, rest, uv, nh, t, hf => by
    have hpos := encoding_length_pos _ e he
    obtain ⟨f, rfl⟩ : ∃ f, fuel = f + 1 := ⟨fuel - 1, by omega⟩
    simp only [encoding] at he
    cases he
    have hl := length_take_strlen buf
    simp only [List.length_cons, List.length_append, hl] at hlt
    simp only [List.cons_append, read_object_utf8_string_tag]
    exact string_read_full (strlen buf) _ rest uv nh hl (by omega)
  | .typed_array c children ty, e, he, hlt, fuel, rest, uv, nh, t, hf => by
    have hpos := encoding_length_pos _ e he
    obtain ⟨f, rfl⟩ : ∃ f, fuel = f + 1 := ⟨fuel - 1, by omega⟩
    simp only [encoding] at he
    split at he
    · cases he
    · rename_i bs hbs
      cases he
      have hn := encodings_length_ge children bs hbs
      simp only [List.length_cons, List.length_append] at hlt hf
      simp only [List.cons_append, read_object_typed_array_tag]
      exact typed_array_read_full _ children.length (byte ty) bs rest uv nh (by omega)
        (fun arr => read_children_full children bs hbs (by omega) f (by omega) _ _ rest uv nh arr)
  | .untyped_array c children, e, he, hlt, fuel, rest, uv, nh, t, hf => by
    have hpos := encoding_length_pos _ e he
    obtain ⟨f, rfl⟩ : ∃ f, fuel = f + 1 := ⟨fuel - 1, by omega⟩
    simp only [encoding] at he
    split at he
    · cases he
    · rename_i bs hbs
      cases he
      have hn := encodings_length_ge children bs hbs
      simp only [List.length_cons, List.length_append] at hlt hf
      simp only [List.cons_append, read_object_untyped_array_tag]
      exact untyped_array_read_full _ children.length bs rest uv nh (by omega)
        (fun arr => read_children_full children bs hbs (by omega) f (by omega) _ _ rest uv nh arr)
  | .typed_map n k v, e, he, _, fuel, rest, uv, nh, t, hf => by
    have hpos := encoding_length_pos _ e he
    obtain ⟨f, rfl⟩ : ∃ f, fuel = f + 1 := ⟨fuel - 1, by omega⟩
    simp only [encoding] at he
    cases he
    simp only [List.cons_append, read_object_typed_map_tag, List.append_assoc,
      __dbof_1_read_object_typed_map, flex_length_roundtrip_unsigned_char,
      __dbof_file_reader_impl_read, List.nil_append, List.take_succ_cons, List.take_zero,
      List.drop_succ_cons, List.drop_zero]
    exact ⟨_, rfl⟩
  | .untyped_map n, e, he, _, fuel, rest, uv, nh, t, hf => by
    have hpos := encoding_length_pos _ e he
    obtain ⟨f, rfl⟩ : ∃ f, fuel = f + 1 := ⟨fuel - 1, by omega⟩
    simp only [encoding] at he
    cases he
    simp only [List.cons_append, read_object_untyped_map_tag,
      __dbof_1_read_object_untyped_map, flex_length_roundtrip_unsigned_char]
    exact ⟨_, rfl⟩

theorem read_children_full :
    ∀ (children : List Obj) (bs : List Byte), encodings children = .ok bs →
      bs.length < 18446744073709551616 →
      ∀ (f : Nat), bs.length ≤ f →
        ∀ (α : Type) (push : α → Obj → α) (rest : List Byte) (uv : U16) (nh : Int) (arr : α),
          ∃ arr', read_children (fun rd => __dbof_1_read_object false f rd 0) push
              children.length arr ⟨bs ++ rest, uv, nh⟩ =
            .ok (some arr', ⟨rest, uv, nh⟩)
  | [], bs, he, _, f, _, α, push, rest, uv, nh, arr => by
    simp only [encodings] at he
    cases he
    exact ⟨arr, rfl⟩
  | object :: tl, bs, he, hlt, f, hf, α, push, rest, uv, nh, arr => by
    simp only [encodings] at he
    split at he
    · cases he
    · rename_i b hb
      split at he
      · cases he
      · rename_i bs' hbs'
        cases he
        simp only [List.length_append] at hlt hf
        obtain ⟨o, ho⟩ := read_object_full object b hb (by omega) f (bs' ++ rest) uv nh 0
          (by omega)
        obtain ⟨arr', h'⟩ := read_children_full tl bs' hbs' (by omega) f (by omega) α push
          rest uv nh (push arr o)
        rw [List.append_assoc]
        simp only [List.length_cons, read_children, ho]
        exact ⟨arr', h'⟩

end

mutual

theorem read_object_truncated :
    ∀ (object : Obj) (e : List Byte), encoding object = .ok e →
      e.length < 18446744073709551616 →
      ∀ (q t : List Byte), q ++ t = e → t ≠ [] →
        ∀ (fuel : Nat) (uv : U16) (nh ti : Int), q.length < fuel →
          ∃ r, __dbof_1_read_object false fuel ⟨q, uv, nh⟩ ti = .ok (none, r)
  | .null, e, he, _, q, t, h, ht, fuel, uv, nh, ti, hq => by
    obtain ⟨f, rfl⟩ : ∃ f, fuel = f + 1 := ⟨fuel - 1, by omega⟩
    have htl : 0 < t.length := List.length_pos.mpr ht
    simp only [encoding] at he
    cases he
    rcases q with _ | ⟨b, q⟩
    · exact ⟨_, read_object_empty false f uv nh ti⟩
    · simp only [List.cons_append, List.cons.injEq] at h
      obtain ⟨rfl, h⟩ := h
      have hlen := congrArg List.length h
      simp only [List.length_append, List.length_cons, List.length_nil] at hlen
      rw [read_object_null_tag]
      omega
  | .signed_byte v, e, he, _, q, t, h, ht, fuel, uv, nh, ti, hq => by
    obtain ⟨f, rfl⟩ : ∃ f, fuel = f + 1 := ⟨fuel - 1, by omega⟩
    have htl : 0 < t.length := List.length_pos.mpr ht
    simp only [encoding] at he
    cases he
    rcases q with _ | ⟨b, q⟩
    · exact ⟨_, read_object_empty false f uv nh ti⟩
    · simp only [List.cons_append, List.cons.injEq] at h
      obtain ⟨rfl, h⟩ := h
      have hlen := congrArg List.length h
      simp only [List.length_append, List.length_cons, List.length_nil] at hlen
      rw [read_object_signed_byte_tag]
      have hq0 : q = [] := List.length_eq_zero.mp (by omega)
      subst hq0
      simp only [__dbof_1_read_object_signed_byte, read_1_short]
      exact ⟨_, rfl⟩
  | .unsigned_byte v, e, he, _, q, t, h, ht, fuel, uv, nh, ti, hq => by
    obtain ⟨f, rfl⟩ : ∃ f, fuel = f + 1 := ⟨fuel - 1, by omega⟩
    have htl : 0 < t.length := List.length_pos.mpr ht
    simp only [encoding] at he
    cases he
    rcases q with _ | ⟨b, q⟩
    · exact ⟨_, read_object_empty false f uv nh ti⟩
    · simp only [List.cons_append, List.cons.injEq] at h
      obtain ⟨rfl, h⟩ := h
      have hlen := congrArg List.length h
      simp only [List.length_append, List.length_cons, List.length_nil] at hlen
      rw [read_object_unsigned_byte_tag]
      have hq0 : q = [] := List.length_eq_zero.mp (by omega)
      subst hq0
      simp only [__dbof_1_read_object_unsigned_byte, read_1_short]
      exact ⟨_, rfl⟩
  | .signed_integer v, e, he, _, q, t, h, ht, fuel, uv, nh, ti, hq => by
    obtain ⟨f, rfl⟩ : ∃ f, fuel = f + 1 := ⟨fuel - 1, by omega⟩
    have htl : 0 < t.length := List.length_pos.mpr ht
    simp only [encoding] at he
    cases he
    rcases q with _ | ⟨b, q⟩
    · exact ⟨_, read_object_empty false f uv nh ti⟩
    · simp only [List.cons_append, List.cons.injEq] at h
      obtain ⟨rfl, h⟩ := h
      have hlen := congrArg List.length h
      simp only [List.length_append, List.length_cons, List.length_nil, pack_le32] at hlen
      rw [read_object_signed_integer_tag]
      obtain ⟨r, hr⟩ := read_4_short false q uv nh (by omega)
      simp only [__dbof_1_read_object_signed_integer, hr]
      exact ⟨_, rfl⟩
  | .unsigned_integer v, e, he, _, q, t, h, ht, fuel, uv, nh, ti, hq => by
    obtain ⟨f, rfl⟩ : ∃ f, fuel = f + 1 := ⟨fuel - 1, by omega⟩
    have htl : 0 < t.length := List.length_pos.mpr ht
    simp only [encoding] at he
    cases he
    rcases q with _ | ⟨b, q⟩
    · exact ⟨_, read_object_empty false f uv nh ti⟩
    · simp only [List.cons_append, List.cons.injEq] at h
      obtain ⟨rfl, h⟩ := h
      have hlen := congrArg List.length h
      simp only [List.length_append, List.length_cons, List.length_nil, pack_le32] at hlen
      rw [read_object_unsigned_integer_tag]
      obtain ⟨r, hr⟩ := read_4_short false q uv nh (by omega)
      simp only [__dbof_1_read_object_unsigned_integer, hr]
      exact ⟨_, rfl⟩
  | .signed_long_integer v, e, he, _, q, t, h, ht, fuel, uv, nh, ti, hq => by
    obtain ⟨f, rfl⟩ : ∃ f, fuel = f + 1 := ⟨fuel - 1, by omega⟩
    have htl : 0 < t.length := List.length_pos.mpr ht
    simp only [encoding] at he
    cases he
    rcases q with _ | ⟨b, q⟩
    · exact ⟨_, read_object_empty false f uv nh ti⟩
    · simp only [List.cons_append, List.cons.injEq] at h
      obtain ⟨rfl, h⟩ := h
      have hlen := congrArg List.length h
      simp only [List.length_append, List.length_cons, List.length_nil, pack_le64] at hlen
      rw [read_object_signed_long_integer_tag]
      obtain ⟨r, hr⟩ := read_8_short false q uv nh (by omega)
      simp only [__dbof_1_read_object_signed_long_integer, hr]
      exact ⟨_, rfl⟩
  | .unsigned_long_integer v, e, he, _, q, t, h, ht, fuel, uv, nh, ti, hq => by
    obtain ⟨f, rfl⟩ : ∃ f, fuel = f + 1 := ⟨fuel - 1, by omega⟩
    have htl : 0 < t.length := List.length_pos.mpr ht
    simp only [encoding] at he
    cases he
    rcases q with _ | ⟨b, q⟩
    · exact ⟨_, read_object_empty false f uv nh ti⟩
    · simp only [List.cons_append, List.cons.injEq] at h
      obtain ⟨rfl, h⟩ := h
      have hlen := congrArg List.length h
      simp only [List.length_append, List.length_cons, List.length_nil, pack_le64] at hlen
      rw [read_object_unsigned_long_integer_tag]
      obtain ⟨r, hr⟩ := read_8_short false q uv nh (by omega)
      simp only [__dbof_1_read_object_unsigned_long_integer, hr]
      exact ⟨_, rfl⟩
  | .boolean v, e, he, _, q, t, h, ht, fuel, uv, nh, ti, hq => by
    obtain ⟨f, rfl⟩ : ∃ f, fuel = f + 1 := ⟨fuel - 1, by omega⟩
    have htl : 0 < t.length := List.length_pos.mpr ht
    simp only [encoding] at he
    cases he
    rcases q with _ | ⟨b, q⟩
    · exact ⟨_, read_object_empty false f uv nh ti⟩
    · simp only [List.cons_append, List.cons.injEq] at h
      obtain ⟨rfl, h⟩ := h
      have hlen := congrArg List.length h
      simp only [List.length_append, List.length_cons, List.length_nil] at hlen
      rw [read_object_boolean_tag]
      have hq0 : q = [] := List.length_eq_zero.mp (by omega)
      subst hq0
      simp only [__dbof_1_read_object_boolean, read_1_short]
      exact ⟨_, rfl⟩
  | .single_float v, e, he, _, q, t, h, ht, fuel, uv, nh, ti, hq => by
    obtain ⟨f, rfl⟩ : ∃ f, fuel = f + 1 := ⟨fuel - 1, by omega⟩
    have htl : 0 < t.length := List.length_pos.mpr ht
    simp only [encoding] at he
    cases he
    rcases q with _ | ⟨b, q⟩
    · exact ⟨_, read_object_empty false f uv nh ti⟩
    · simp only [List.cons_append, List.cons.injEq] at h
      obtain ⟨rfl, h⟩ := h
      have hlen := congrArg List.length h
      simp only [List.length_append, List.length_cons, List.length_nil, pack_le32] at hlen
      rw [read_object_single_float_tag]
      obtain ⟨r, hr⟩ := read_4_short false q uv nh (by omega)
      simp only [__dbof_1_read_object_single_float, hr]
      exact ⟨_, rfl⟩
  | .double_float v, e, he, _, q, t, h, ht, fuel, uv, nh, ti, hq => by
    obtain ⟨f, rfl⟩ : ∃ f, fuel = f + 1 := ⟨fuel - 1, by omega⟩
    have htl : 0 < t.length := List.length_pos.mpr ht
    simp only [encoding] at he
    cases he
    rcases q with _ | ⟨b, q⟩
    · exact ⟨_, read_object_empty false f uv nh ti⟩
    · simp only [List.cons_append, List.cons.injEq] at h
      obtain ⟨rfl, h⟩ := h
      have hlen := congrArg List.length h
      simp only [List.length_append, List.length_cons, List.length_nil, pack_le64] at hlen
      rw [read_object_double_float_tag]
      obtain ⟨r, hr⟩ := read_8_short false q uv nh (by omega)
      simp only [__dbof_1_read_object_double_float, hr]
      exact ⟨_, rfl⟩
  | .character v, e, he, _, q, t, h, ht, fuel, uv, nh, ti, hq => by
    obtain ⟨f, rfl⟩ : ∃ f, fuel = f + 1 := ⟨fuel - 1, by omega⟩
    have htl : 0 < t.length := List.length_pos.mpr ht
    simp only [encoding] at he
    cases he
    rcases q with _ | ⟨b, q⟩
    · exact ⟨_, read_object_empty false f uv nh ti⟩
    · simp only [List.cons_append, List.cons.injEq] at h
      obtain ⟨rfl, h⟩ := h
      have hlen := congrArg List.length h
      simp only [List.length_append, List.length_cons, List.length_nil, pack_le32] at hlen
      rw [read_object_character_tag]
      obtain ⟨r, hr⟩ := read_4_short false q uv nh (by omega)
      simp only [__dbof_1_read_object_character, hr]
      exact ⟨_, rfl⟩
  | .utf8_string none, e, he, _, q, t, h, ht, fuel, uv, nh, ti, hq => by
    simp only [encoding] at he
    cases he
  | .utf8_string (some buf), e, he, hlt, q, t, h, ht, fuel, uv, nh, ti, hq => by
    obtain ⟨f, rfl⟩ : ∃ f, fuel = f + 1 := ⟨fuel - 1, by omega⟩
    simp only [encoding] at he
    cases he
    have hl := length_take_strlen buf
    simp only [List.length_cons, List.length_append, hl] at hlt
    rcases q with _ | ⟨b, q⟩
    · exact ⟨_, read_object_empty false f uv nh ti⟩
    · simp only [List.cons_append, List.cons.injEq] at h
      obtain ⟨rfl, h⟩ := h
      rw [read_object_utf8_string_tag]
      exact string_read_truncated (strlen buf) _ q t uv nh hl (by omega) h ht
  | .typed_array c children ty, e, he, hlt, q, t, h, ht, fuel, uv, nh, ti, hq => by
    obtain ⟨f, rfl⟩ : ∃ f, fuel = f + 1 := ⟨fuel - 1, by omega⟩
    simp only [encoding] at he
    split at he
    · cases he
    · rename_i bs hbs
      cases he
      have hn := encodings_length_ge children bs hbs
      simp only [List.length_cons, List.length_append] at hlt
      rcases q with _ | ⟨b, q⟩
      · exact ⟨_, read_object_empty false f uv nh ti⟩
      · simp only [List.cons_append, List.cons.injEq] at h
        obtain ⟨rfl, h⟩ := h
        simp only [List.length_cons] at hq
        rw [read_object_typed_array_tag]
        refine typed_array_read_truncated _ children.length (byte ty) bs q t uv nh (by omega) h
          (fun c hc arr => ?_)
        have hcl : c.length ≤ q.length := by
          have := congrArg List.length h
          have h2 := congrArg List.length hc
          simp only [List.length_cons, List.length_append] at this h2
          omega
        exact read_children_truncated children bs hbs (by omega) c t hc ht f (by omega) _ _
          uv nh arr
  | .untyped_array c children, e, he, hlt, q, t, h, ht, fuel, uv, nh, ti, hq => by
    obtain ⟨f, rfl⟩ : ∃ f, fuel = f + 1 := ⟨fuel - 1, by omega⟩
    simp only [encoding] at he
    split at he
    · cases he
    · rename_i bs hbs
      cases he
      have hn := encodings_length_ge children bs hbs
      simp only [List.length_cons, List.length_append] at hlt
      rcases q with _ | ⟨b, q⟩
      · exact ⟨_, read_object_empty false f uv nh ti⟩
      · simp only [List.cons_append, List.cons.injEq] at h
        obtain ⟨rfl, h⟩ := h
        simp only [List.length_cons] at hq
        rw [read_object_untyped_array_tag]
        refine untyped_array_read_truncated _ children.length bs q t uv nh (by omega) h
          (fun c hc arr => ?_)
        have hcl : c.length ≤ q.length := by
          have := congrArg List.length h
          have h2 := congrArg List.length hc
          simp only [List.length_cons, List.length_append] at this h2
          omega
        exact read_children_truncated children bs hbs (by omega) c t hc ht f (by omega) _ _
          uv nh arr
  | .typed_map n k v, e, he, _, q, t, h, ht, fuel, uv, nh, ti, hq => by
    obtain ⟨f, rfl⟩ : ∃ f, fuel = f + 1 := ⟨fuel - 1, by omega⟩
    simp only [encoding] at he
    cases he
    rcases q with _ | ⟨b, q⟩
    · exact ⟨_, read_object_empty false f uv nh ti⟩
    · simp only [List.cons_append, List.cons.injEq] at h
      obtain ⟨rfl, h⟩ := h
      rw [read_object_typed_map_tag]
      exact typed_map_read_truncated n (byte k) (byte v) q t uv nh h ht
  | .untyped_map n, e, he, _, q, t, h, ht, fuel, uv, nh, ti, hq => by
    obtain ⟨f, rfl⟩ : ∃ f, fuel = f + 1 := ⟨fuel - 1, by omega⟩
    simp only [encoding] at he
    cases he
    rcases q with _ | ⟨b, q⟩
    · exact ⟨_, read_object_empty false f uv nh ti⟩
    · simp only [List.cons_append, List.cons.injEq] at h
      obtain ⟨rfl, h⟩ := h
      rw [read_object_untyped_map_tag]
      exact untyped_map_read_truncated n q t uv nh h ht

theorem read_children_truncated :
    ∀ (children : List Obj) (bs : List Byte), encodings children = .ok bs →
      bs.length < 18446744073709551616 →
      ∀ (q t : List Byte), q ++ t = bs → t ≠ [] →
        ∀ (f : Nat), q.length < f →
          ∀ (α : Type) (push : α → Obj → α) (uv : U16) (nh : Int) (arr : α),
            ∃ r, read_children (fun rd => __dbof_1_read_object false f rd 0) push
              children.length arr ⟨q, uv, nh⟩ = .ok (none, r)
  | [], bs, he, _, q, t, h, ht, f, _, α, push, uv, nh, arr => by
    simp only [encodings] at he
    cases he
    simp only [List.append_eq_nil] at h
    exact absurd h.2 ht
  | object :: tl, bs, he, hlt, q, t, h, ht, f, hq, α, push, uv, nh, arr => by
    simp only [encodings] at he
    split at he
    · cases he
    · rename_i b hb
      split at he
      · cases he
      · rename_i bs' hbs'
        cases he
        simp only [List.length_append] at hlt
        rcases List.append_eq_append_iff.mp h with ⟨a, ha, hta⟩ | ⟨c, hqc, hcc⟩
        · by_cases hnil : a = []
          · subst hnil
            simp only [List.append_nil] at ha
            simp only [List.nil_append] at hta
            subst ha
            obtain ⟨o, ho⟩ := read_object_full object b hb (by omega) f [] uv nh 0 (by omega)
            rw [List.append_nil] at ho
            obtain ⟨r, hr⟩ := read_children_truncated tl bs' hbs' (by omega) [] t
              (by simpa using hta) ht f (by simp; omega) α push uv nh (push arr o)
            simp only [List.length_cons, read_children, ho]
            exact ⟨r, hr⟩
          · have hbl : b.length = q.length + a.length := by
              rw [ha]
              simp
            obtain ⟨r, hr⟩ := read_object_truncated object b hb (by omega) q a ha.symm hnil f
              uv nh 0 hq
            simp only [List.length_cons, read_children, hr]
            exact ⟨_, rfl⟩
        · subst hqc
          simp only [List.length_append] at hq
          have hcl : bs'.length = c.length + t.length := by
            rw [hcc]
            simp
          obtain ⟨o, ho⟩ := read_object_full object b hb (by omega) f c uv nh 0 (by omega)
          obtain ⟨r, hr⟩ := read_children_truncated tl bs' hbs' (by omega) c t hcc.symm ht f
            (by omega) α push uv nh (push arr o)
          simp only [List.length_cons, read_children, ho]
          exact ⟨r, hr⟩

end

theorem dbof_read_short_header (cs : Bool) (reader : dbof_reader) (junk : Nat → Byte)
    (hnh : reader.no_header = 0) (hlen : reader.data.length ≤ 6) :
    dbof_read cs reader junk = .ok none := by
  have hdrop : reader.data.drop 6 = [] := List.drop_eq_nil_of_le hlen
  simp only [dbof_read, hnh, ne_eq, not_true_eq_false, if_false, __dbof_file_reader_impl_read,
    hdrop, List.length_nil]
  split
  · rfl
  · split
    · rw [read_object_empty]
      rfl
    · rfl

/-- On an ABI with unsigned plain `char`, for every object that `dbof_file_write` can
write, to a stream shorter than 2^64 bytes, `dbof_file_read` of any proper prefix of the
stream returns `NULL`, whatever the header cells held before. -/
theorem truncated_stream_gives_null_unsigned_char (object : Obj) (s p : List Byte)
    (junk : Nat → Byte) (hw : dbof_file_write object [] = .ok (0, s))
    (hs : s.length < 18446744073709551616) (hp : p <+: s) (hne : p ≠ s) :
    dbof_file_read false p junk = .ok none := by
  rw [dbof_file_write_eq] at hw
  obtain ⟨t, ht⟩ := hp
  have htne : t ≠ [] := by
    intro h0
    subst h0
    rw [List.append_nil] at ht
    exact hne ht
  cases he : encoding object with
  | error x =>
    rw [he] at hw
    cases hw
  | ok e =>
    rw [he] at hw
    simp only [Except.map, Except.ok.injEq, Prod.mk.injEq, List.nil_append, true_and] at hw
    subst hw
    simp only [List.length_append, List.length_cons, List.length_nil] at hs
    rcases List.append_eq_append_iff.mp ht with ⟨a, ha, hta⟩ | ⟨c, hq, hcc⟩
    · have hl : p.length ≤ 6 := by
        have := congrArg List.length ha
        simp only [List.length_append, List.length_cons, List.length_nil] at this
        omega
      exact dbof_read_short_header false (file_reader p) junk rfl hl
    · subst hq
      simp only [List.cons_append, List.nil_append]
      rw [dbof_file_read_header]
      obtain ⟨r, hr⟩ := read_object_truncated object e he (by omega) c t hcc.symm htne
        (c.length + 1) 0 0 1 (by omega)
      rw [hr]
      rfl

/-- SignedByte(5): the stream is the header, 01 and 05; cut after the tag it reads as
`NULL`. -/
theorem truncated_stream_gives_null_unsigned_char_witness :
    dbof_file_write (.signed_byte 5) [] =
        .ok (0, [0x44, 0x42, 0x4F, 0x46, 0x01, 0x00, 0x01, 0x05]) ∧
      dbof_file_read false [0x44, 0x42, 0x4F, 0x46, 0x01, 0x00, 0x01] (fun _ => 0) =
        .ok none :=
  ⟨rfl, truncated_stream_gives_null_unsigned_char (.signed_byte 5)
    [0x44, 0x42, 0x4F, 0x46, 0x01, 0x00, 0x01, 0x05] [0x44, 0x42, 0x4F, 0x46, 0x01, 0x00, 0x01]
    (fun _ => 0) rfl (by norm_num) ⟨[0x05], rfl⟩ (by simp)⟩

/-! ## Equality and hashing -/

theorem container_hash (cs : Bool) (o : Obj)
    (h : dbof_is_container_type (dbof_typeof o) = true) : dbof_hash cs (some o) = .ok 0 := by
  cases o <;> first | rfl | (exact absurd (show false = true from h) (by decide))

theorem container_of_same_category (a b : Obj) (hcat : dbof_same_category a b = true)
    (ha : dbof_is_container_type (dbof_typeof a) = true) :
    dbof_is_container_type (dbof_typeof b) = true := by
  cases a <;> first
    | (exact absurd (show false = true from ha) (by decide))
    | (cases b <;> first | rfl | (exact absurd (show false = true from hcat) (by decide)))

/-- C19: for all object references `a` and `b`, `NULL` included, and on either kind of
plain `char`: if `dbof_equals (a, b)` returns a nonzero value then `dbof_hash (a)` and
`dbof_hash (b)` return the same value. -/
theorem equals_implies_equal_hash (cs : Bool) (a b : dbof_object) (e : Int)
    (h : dbof_equals cs a b = .ok e) (hne : e ≠ 0) :
    ∃ hash : Int, dbof_hash cs a = .ok hash ∧ dbof_hash cs b = .ok hash := by
  cases a with
  | none =>
    cases b with
    | none => exact ⟨0, rfl, rfl⟩
    | some ob =>
      simp only [dbof_equals, Except.ok.injEq] at h
      exact absurd h.symm hne
  | some oa =>
    cases b with
    | none =>
      simp only [dbof_equals, Except.ok.injEq] at h
      exact absurd h.symm hne
    | some ob =>
      simp only [dbof_equals] at h
      split at h
      · simp only [Except.ok.injEq] at h
        exact absurd h.symm hne
      · rename_i hcat
        simp only [Bool.not_eq_true', Bool.not_eq_false] at hcat
        split at h
        · rename_i hcont
          have hb := container_of_same_category oa ob hcat hcont.1
          exact ⟨0, container_hash cs oa hcont.1, container_hash cs ob hb⟩
        · split at h
          · cases h
          · cases h
          · rename_i hash_a hash_b ha hb
            split at h
            · simp only [Except.ok.injEq] at h
              exact absurd h.symm hne
            · rename_i heq
              exact ⟨hash_a, ha, by rw [hb, not_not.mp heq]⟩

/-- C19 (witness): SignedByte(1) compared with itself. -/
theorem equals_implies_equal_hash_witness :
    dbof_equals true (some (.signed_byte 1)) (some (.signed_byte 1)) = .ok 1 ∧
      (1 : Int) ≠ 0 ∧
      ∃ hash : Int, dbof_hash true (some (.signed_byte 1)) = .ok hash ∧
        dbof_hash true (some (.signed_byte 1)) = .ok hash := by
  have h : dbof_equals true (some (.signed_byte 1)) (some (.signed_byte 1)) = .ok 1 := rfl
  exact ⟨h, by decide, equals_implies_equal_hash true _ _ 1 h (by decide)⟩

/-- C20: `dbof_equals` returns 1 for value objects that differ in kind or in payload
as soon as their hash codes agree: SignedByte(1) and UnsignedInteger(1); the
SignedLongInteger values 1 and 2^32; the strings "Aa" and "BB". -/
theorem equals_compares_hashes_only (cs : Bool) :
    dbof_equals cs (some (.signed_byte 1)) (some (.unsigned_integer 1)) = .ok 1 ∧
      dbof_equals cs (some (.signed_long_integer 1))
        (some (.signed_long_integer 4294967296)) = .ok 1 ∧
      dbof_equals cs (some (.utf8_string (some [0x41, 0x61])))
        (some (.utf8_string (some [0x42, 0x42]))) = .ok 1 := by
  cases cs <;> exact ⟨rfl, rfl, rfl⟩

/-! ## Equality of containers, hash of unequal objects, fresh objects -/

theorem equals_of_containers (cs : Bool) (a b : Obj)
    (ha : dbof_is_container_type (dbof_typeof a) = true)
    (hb : dbof_is_container_type (dbof_typeof b) = true) :
    dbof_equals cs (some a) (some b) = .ok 1 := by
  have hcat : dbof_same_category a b = true := by
    simp [dbof_same_category, ha, hb]
  simp only [dbof_equals, hcat, Bool.not_true, Bool.false_eq_true, if_false, ha, true_and]
  split
  · rfl
  · rw [container_hash cs a ha, container_hash cs b hb]
    rfl

/-- C21: `dbof_equals` returns 1 for two containers of different kinds (a fresh typed
array and a fresh untyped array, a fresh typed array and a fresh untyped map), for two
untyped arrays of different sizes, and for two untyped arrays of one size whose
children differ. -/
theorem containers_compare_equal (cs : Bool) :
    dbof_equals cs (some (dbof_new DBOF_TYPE_TYPED_ARRAY))
        (some (dbof_new DBOF_TYPE_UNTYPED_ARRAY)) = .ok 1 ∧
      dbof_equals cs (some (dbof_new DBOF_TYPE_TYPED_ARRAY))
        (some (dbof_new DBOF_TYPE_UNTYPED_MAP)) = .ok 1 ∧
      dbof_untyped_array_push_back (dbof_new DBOF_TYPE_UNTYPED_ARRAY) (.signed_byte 1) =
        .ok (.untyped_array 10 [.signed_byte 1]) ∧
      dbof_equals cs (some (dbof_new DBOF_TYPE_UNTYPED_ARRAY))
        (some (.untyped_array 10 [.signed_byte 1])) = .ok 1 ∧
      dbof_equals cs (some (.untyped_array 10 [.signed_byte 1]))
        (some (.untyped_array 10 [.signed_byte 2])) = .ok 1 := by
  cases cs <;> exact ⟨rfl, rfl, rfl, rfl, rfl⟩

/-- C22 (counterexample): `dbof_equals` returns 0 for SignedByte(0) and a fresh typed
array, a value and a container, and both hash to 0, on either kind of plain `char`. -/
theorem unequal_objects_hash_alike :
    dbof_equals true (some (dbof_new DBOF_TYPE_SIGNED_BYTE))
        (some (dbof_new DBOF_TYPE_TYPED_ARRAY)) = .ok 0 ∧
      dbof_hash true (some (dbof_new DBOF_TYPE_SIGNED_BYTE)) = .ok 0 ∧
      dbof_hash true (some (dbof_new DBOF_TYPE_TYPED_ARRAY)) = .ok 0 ∧
      dbof_equals false (some (dbof_new DBOF_TYPE_SIGNED_BYTE))
        (some (dbof_new DBOF_TYPE_TYPED_ARRAY)) = .ok 0 ∧
      dbof_hash false (some (dbof_new DBOF_TYPE_SIGNED_BYTE)) = .ok 0 ∧
      dbof_hash false (some (dbof_new DBOF_TYPE_TYPED_ARRAY)) = .ok 0 ∧
      dbof_same_category (dbof_new DBOF_TYPE_SIGNED_BYTE) (dbof_new DBOF_TYPE_TYPED_ARRAY) =
        false :=
  ⟨rfl, rfl, rfl, rfl, rfl, rfl, rfl⟩

/-- C22: for objects `a` and `b` of one category (both value objects or both
containers), on either kind of plain `char`: if `dbof_equals (a, b)` is zero then
`dbof_hash (a)` and `dbof_hash (b)` have values, and the two values differ. -/
theorem unequal_same_category_hash_apart (cs : Bool) (a b : Obj)
    (hcat : dbof_same_category a b = true)
    (h : dbof_equals cs (some a) (some b) = .ok 0) :
    ∃ hash_a hash_b, dbof_hash cs (some a) = .ok hash_a ∧
      dbof_hash cs (some b) = .ok hash_b ∧ hash_a ≠ hash_b := by
  simp only [dbof_equals, hcat, Bool.not_true, Bool.false_eq_true, if_false] at h
  split at h
  · cases h
  · split at h
    · cases h
    · cases h
    · rename_i hash_a hash_b ha hb
      split at h
      · rename_i hne
        exact ⟨hash_a, hash_b, ha, hb, hne⟩
      · cases h

/-- C22 (witness): SignedByte(1) and SignedByte(2) are of one category and are told
apart; their hash codes are 1 and 2. -/
theorem unequal_same_category_hash_apart_witness :
    dbof_same_category (.signed_byte 1) (.signed_byte 2) = true ∧
      dbof_equals true (some (.signed_byte 1)) (some (.signed_byte 2)) = .ok 0 ∧
      ∃ hash_a hash_b, dbof_hash true (some (.signed_byte 1)) = .ok hash_a ∧
        dbof_hash true (some (.signed_byte 2)) = .ok hash_b ∧ hash_a ≠ hash_b :=
  ⟨rfl, rfl, unequal_same_category_hash_apart true (.signed_byte 1) (.signed_byte 2) rfl rfl⟩

/-- C23: for each of the sixteen kinds `k`, `dbof_typeof (dbof_new (k))` is `k`; the
fresh object is equal to itself under `dbof_equals` for every kind but `UTF8_STRING`,
where `dbof_equals` calls `dbof_hash` and so `strlen` on the `NULL` value of the fresh
string. -/
theorem fresh_object_kind_and_self_equality (cs : Bool) (k : Fin 16) :
    dbof_typeof (dbof_new k.val) = k.val ∧
      dbof_equals cs (some (dbof_new k.val)) (some (dbof_new k.val)) =
        (if k.val = DBOF_TYPE_UTF8_STRING then .error .undefined_behaviour else .ok 1) := by
  fin_cases k <;> cases cs <;> exact ⟨rfl, rfl⟩

/-! ## The hash codes of the scalar kinds -/

theorem xor_fold_mod (v : Nat) (hv : v < 18446744073709551616) :
    (v ^^^ (v >>> 32)) % 4294967296 = (v % 4294967296) ^^^ (v / 4294967296) := by
  apply Nat.eq_of_testBit_eq
  intro j
  have h32 : (4294967296 : Nat) = 2 ^ 32 := by norm_num
  rw [h32, Nat.testBit_mod_two_pow, Nat.testBit_xor, Nat.testBit_xor,
    Nat.testBit_mod_two_pow, Nat.testBit_shiftRight, ← Nat.shiftRight_eq_div_pow,
    Nat.testBit_shiftRight]
  by_cases hj : j < 32
  · simp [hj]
  · have hhi : v.testBit (32 + j) = false :=
      Nat.testBit_eq_false_of_lt (lt_of_lt_of_le hv
        (by
          have : (18446744073709551616 : Nat) = 2 ^ 64 := by norm_num
          rw [this]
          exact Nat.pow_le_pow_right (by decide) (by omega)))
    simp [hj, hhi]

theorem int32_congr (m n : Nat) (h : m % 4294967296 = n % 4294967296) : int32 m = int32 n := by
  simp only [int32, h]

theorem hash_long_eq (v : U64) : int32 (v.val ^^^ (v.val >>> 32)) = lo32_xor_hi32 v := by
  have hv := v.isLt
  have hx := xor_fold_mod v.val hv
  unfold lo32_xor_hi32
  apply int32_congr
  rw [hx]
  have h1 : v.val % 4294967296 < 2 ^ 32 := by
    have := Nat.mod_lt v.val (by decide : 0 < 4294967296)
    omega
  have h2 : v.val / 4294967296 < 2 ^ 32 := by
    have : v.val / 4294967296 < 4294967296 := Nat.div_lt_of_lt_mul (by omega)
    omega
  have := Nat.xor_lt_two_pow h1 h2
  exact (Nat.mod_eq_of_lt (by omega)).symm

theorem and_field_mask (x m k : Nat) :
    x &&& (m <<< k) = ((x >>> k) &&& m) <<< k := by
  apply Nat.eq_of_testBit_eq
  intro j
  simp only [Nat.testBit_and, Nat.testBit_shiftLeft, Nat.testBit_shiftRight]
  by_cases hj : k ≤ j
  · simp [hj, Nat.add_sub_cancel' hj]
  · simp [hj]

theorem field_all_ones (x k w : Nat) :
    x &&& ((2 ^ w - 1) <<< k) = (2 ^ w - 1) <<< k ↔ x / 2 ^ k % 2 ^ w = 2 ^ w - 1 := by
  rw [and_field_mask, Nat.and_pow_two_sub_one_eq_mod, Nat.shiftRight_eq_div_pow,
    Nat.shiftLeft_eq, Nat.shiftLeft_eq]
  constructor
  · intro h
    exact Nat.eq_of_mul_eq_mul_right (by positivity) h
  · intro h
    rw [h]

theorem nan32_test (p : U32) :
    (p.val &&& 0x7f800000 = 0x7f800000 ∧ p.val &&& 0x007fffff ≠ 0) ↔ is_nan32 p = true := by
  have h1 := field_all_ones p.val 23 8
  have h2 := Nat.and_pow_two_sub_one_eq_mod p.val 23
  have e : (255 : Nat) <<< 23 = 2139095040 := by rfl
  norm_num at h1 h2
  rw [e] at h1
  simp only [is_nan32, decide_eq_true_eq]
  norm_num
  rw [h1, h2]

theorem nan64_test (p : U64) :
    (p.val &&& 0x7ff0000000000000 = 0x7ff0000000000000 ∧ p.val &&& 0x000fffffffffffff ≠ 0) ↔
      is_nan64 p = true := by
  have h1 := field_all_ones p.val 52 11
  have h2 := Nat.and_pow_two_sub_one_eq_mod p.val 52
  have e : (2047 : Nat) <<< 52 = 9218868437227405312 := by rfl
  norm_num at h1 h2
  rw [e] at h1
  simp only [is_nan64, decide_eq_true_eq]
  norm_num
  rw [h1, h2]


/-- C24: for every fixed-width scalar object, `dbof_hash` returns the value that the
specification's table gives (`scalar_hash_table`): 0 for Null; the value as a 32-bit
signed integer for SignedByte, UnsignedByte, SignedInteger, UnsignedInteger and
Character; low 32 bits XOR high 32 bits for the 64-bit integer kinds; 1231 or 1237 for
Boolean; the pattern with every NaN mapped to 7FC00000 for SingleFloat; low XOR high of
the pattern with every NaN mapped to 7FF8000000000000 for DoubleFloat. -/
theorem scalar_hash_follows_table (cs : Bool) (object : Obj) (t : Int)
    (h : scalar_hash_table object = some t) : dbof_hash cs (some object) = .ok t := by
  cases object with
  | null =>
    cases h
    rfl
  | signed_byte v =>
    cases h
    rfl
  | unsigned_byte v =>
    cases h
    rfl
  | signed_integer v =>
    cases h
    rfl
  | unsigned_integer v =>
    cases h
    rfl
  | character v =>
    cases h
    rfl
  | signed_long_integer v =>
    cases h
    simp only [dbof_hash, __hash_object_signed_long_integer]
    exact congrArg Except.ok (hash_long_eq v)
  | unsigned_long_integer v =>
    cases h
    simp only [dbof_hash, __hash_object_unsigned_long_integer]
    exact congrArg Except.ok (hash_long_eq v)
  | boolean v =>
    cases h
    simp only [dbof_hash, __hash_object_boolean]
    have : v ≠ 0 ↔ v.val ≠ 0 := by
      rw [ne_eq, ne_eq, Fin.ext_iff]
      rfl
    simp only [this]
  | single_float v =>
    cases h
    simp only [dbof_hash, __hash_object_single_float, nan32_test]
  | double_float v =>
    cases h
    simp only [dbof_hash, __hash_object_double_float, nan64_test]
    split
    · exact congrArg Except.ok (hash_long_eq 0x7ff8000000000000)
    · exact congrArg Except.ok (hash_long_eq v)
  | utf8_string v => cases h
  | typed_array c ch ty => cases h
  | untyped_array c ch => cases h
  | typed_map n k v => cases h
  | untyped_map n => cases h

/-- C24 (witness): Boolean(1) hashes to 1231. -/
theorem scalar_hash_follows_table_witness :
    scalar_hash_table (.boolean 1) = some 1231 ∧
      dbof_hash true (some (.boolean 1)) = .ok 1231 :=
  ⟨rfl, scalar_hash_follows_table true (.boolean 1) 1231 rfl⟩

/-- Values of the table: Boolean(0) gives 1237; the binary32 NaN pattern FF800001 gives
7FC00000; the SignedLongInteger -1 gives 0 and 2^32 gives 1; every binary64 NaN gives
7FF80000. -/
theorem scalar_hash_examples (cs : Bool) :
    dbof_hash cs (some (.boolean 0)) = .ok 1237 ∧
      dbof_hash cs (some (.single_float 0xFF800001)) = .ok 0x7FC00000 ∧
      dbof_hash cs (some (.signed_long_integer 0xFFFFFFFFFFFFFFFF)) = .ok 0 ∧
      dbof_hash cs (some (.signed_long_integer 0x100000000)) = .ok 1 ∧
      dbof_hash cs (some (.double_float 0x7FF0000000000001)) = .ok 0x7FF80000 ∧
      dbof_hash cs (some (.signed_byte 0xFF)) = .ok (-1) := by
  cases cs <;> exact ⟨rfl, rfl, rfl, rfl, rfl, rfl⟩

/-! ## The hash code of a string -/

theorem wrap_int_congr (x y : Int) (h : x % 4294967296 = y % 4294967296) :
    wrap_int x = wrap_int y := by
  simp only [wrap_int, h]

theorem wrap_int_emod (x : Int) : wrap_int x % 4294967296 = x % 4294967296 := by
  simp only [wrap_int, int32]
  have h0 : 0 ≤ x % 4294967296 := Int.emod_nonneg _ (by decide)
  have h1 : x % 4294967296 < 4294967296 := Int.emod_lt_of_pos _ (by decide)
  have hn : ((x % 4294967296).toNat : Int) = x % 4294967296 := Int.toNat_of_nonneg h0
  have hm : (x % 4294967296).toNat % 4294967296 = (x % 4294967296).toNat := by
    apply Nat.mod_eq_of_lt
    omega
  rw [hm]
  split <;> omega

theorem string_fold_wrap (cs : Bool) (l : List Byte) (a : Int) :
    l.foldl (fun hash c => wrap_int (char_value cs c + hash * 31)) (wrap_int a) =
      wrap_int (l.foldl (fun h b => char_value cs b + 31 * h) a) := by
  induction l generalizing a with
  | nil => rfl
  | cons c l ih =>
    simp only [List.foldl_cons]
    rw [← ih]
    congr 1
    apply wrap_int_congr
    have := wrap_int_emod a
    omega

theorem wrap_int_zero : wrap_int 0 = 0 := by decide

/-- C25 (as amended): for every Utf8String object whose value is not `NULL`, with
content bytes `b_0 .. b_(n-1)` (the bytes before the first NUL), `dbof_hash` is the
accumulator obtained from `h = 0` by `h := b_i + 31 h` in order, each byte taken as its
plain `char` value, reduced modulo 2^32 and read as a 32-bit signed integer; where
plain `char` is unsigned that is the value the table gives, each byte taken as its
value 0 .. 255. -/
theorem string_hash_plain_char (cs : Bool) (buf : List Byte) :
    dbof_hash cs (some (.utf8_string (some buf))) =
        .ok (plain_char_string_hash cs (buf.take (strlen buf))) ∧
      plain_char_string_hash false (buf.take (strlen buf)) =
        string_hash_table (buf.take (strlen buf)) := by
  constructor
  · simp only [dbof_hash, __hash_object_utf8_string, plain_char_string_hash]
    have h := string_fold_wrap cs (buf.take (strlen buf)) 0
    rw [wrap_int_zero] at h
    rw [h]
  · simp only [plain_char_string_hash, string_hash_table, char_value]
    simp

/-- C25 (counterexample): on an ABI with signed plain `char` the string whose one
content byte is 80 hashes to -128, where the table gives 128; and the string object
fresh from `dbof_new` has no hash code: its value is `NULL` and `dbof_hash` calls
`strlen` on it. -/
theorem string_hash_signed_char_counterexample :
    dbof_hash true (some (.utf8_string (some [0x80]))) ≠ .ok (string_hash_table [0x80]) ∧
      dbof_hash true (some (.utf8_string (some [0x80]))) = .ok (-128) ∧
      string_hash_table [0x80] = 128 ∧
      dbof_hash true (some (dbof_new DBOF_TYPE_UTF8_STRING)) = .error .undefined_behaviour ∧
      dbof_hash false (some (dbof_new DBOF_TYPE_UTF8_STRING)) =
        .error .undefined_behaviour := by
  refine ⟨?_, rfl, rfl, rfl, rfl⟩
  intro h
  have h2 := Except.ok.inj h
  revert h2
  decide

/-! ## Typed arrays: homogeneity -/

/-- C26: `dbof_typed_array_insert` does not look at the kind of the object: inserting
SignedByte(0) into the fresh typed array gives an array of size 1 whose type field is
still 0 (Null), and inserting Boolean(0) at index 0 of the typed array that holds
SignedByte(0) gives the elements Boolean(0), SignedByte(0) under the type SignedByte;
neither array is homogeneous. -/
theorem insert_breaks_homogeneity :
    dbof_typed_array_insert (dbof_new DBOF_TYPE_TYPED_ARRAY) 0 (dbof_new DBOF_TYPE_SIGNED_BYTE) =
        .ok (.typed_array 10 [.signed_byte 0] DBOF_TYPE_NULL) ∧
      ¬ homogeneous (.typed_array 10 [.signed_byte 0] DBOF_TYPE_NULL) ∧
      dbof_typed_array_push_back (dbof_new DBOF_TYPE_TYPED_ARRAY)
          (dbof_new DBOF_TYPE_SIGNED_BYTE) =
        .ok (.typed_array 10 [.signed_byte 0] DBOF_TYPE_SIGNED_BYTE) ∧
      dbof_typed_array_insert (.typed_array 10 [.signed_byte 0] DBOF_TYPE_SIGNED_BYTE) 0
          (dbof_new DBOF_TYPE_BOOLEAN) =
        .ok (.typed_array 10 [.boolean 0, .signed_byte 0] DBOF_TYPE_SIGNED_BYTE) ∧
      ¬ homogeneous (.typed_array 10 [.boolean 0, .signed_byte 0] DBOF_TYPE_SIGNED_BYTE) ∧
      List.foldlM typed_array_call.run (dbof_new DBOF_TYPE_TYPED_ARRAY)
          [.push_back (dbof_new DBOF_TYPE_SIGNED_BYTE), .insert 0 (dbof_new DBOF_TYPE_BOOLEAN)] =
        .ok (.typed_array 10 [.boolean 0, .signed_byte 0] DBOF_TYPE_SIGNED_BYTE) := by
  refine ⟨rfl, ?_, rfl, rfl, ?_, rfl⟩
  · intro h
    have := h (by decide) (.signed_byte 0) (by simp)
    revert this
    decide
  · intro h
    have := h (by decide) (.boolean 0) (by simp)
    revert this
    decide

theorem homogeneous_set_type (c : Nat) (ch : List Obj) (t k : dbof_type)
    (h : homogeneous (.typed_array c ch t)) :
    ∃ a, dbof_typed_array_set_type (.typed_array c ch t) k = .ok a ∧ homogeneous a := by
  refine ⟨_, rfl, ?_⟩
  simp only [__object_typed_array_impl_set_type, __object_typed_array_impl_is_empty,
    __internal_array_base_get_size]
  split
  · rename_i he
    simp only [beq_iff_eq] at he
    simp only [object_typed_array_impl.toObj, homogeneous, he]
    intro h0
    exact absurd h0 (by decide)
  · exact h

theorem resize_keeps (array : internal_array_base) (size : Nat) :
    __internal_array_base_resize array size = (-1, array) := by
  simp [__internal_array_base_resize]

theorem maybe_downscale_keeps (array : internal_array_base) :
    __internal_array_base_maybe_downscale array = array := by
  simp only [__internal_array_base_maybe_downscale, resize_keeps]
  split <;> rfl

theorem ensure_space_keeps (array : internal_array_base) :
    (__internal_array_base_ensure_space array).2 = array := by
  simp only [__internal_array_base_ensure_space, resize_keeps]
  split
  · split
    · split <;> rfl
    · simp
  · rfl

theorem base_push_back_children (array : internal_array_base) (object : Obj) :
    __internal_array_base_push_back array object = (-1, array) ∨
      __internal_array_base_push_back array object =
        (0, { array with children := array.children ++ [object] }) := by
  simp only [__internal_array_base_push_back]
  split
  · left
    rw [ensure_space_keeps]
  · right
    rw [ensure_space_keeps]

theorem homogeneous_append (c : Nat) (ch : List Obj) (t : dbof_type) (o : Obj)
    (h : homogeneous (.typed_array c ch t)) (ho : dbof_typeof o = t) (hne : ch ≠ []) :
    homogeneous (.typed_array c (ch ++ [o]) t) := by
  intro _ child hc
  rcases List.mem_append.mp hc with h1 | h1
  · exact h (List.length_pos.mpr hne) child h1
  · rw [List.mem_singleton.mp h1]
    exact ho

/-- Homogeneity survives `dbof_typed_array_push_back`. -/
theorem homogeneous_push_back (c : Nat) (ch : List Obj) (t : dbof_type) (o : Obj)
    (h : homogeneous (.typed_array c ch t)) :
    ∃ a, dbof_typed_array_push_back (.typed_array c ch t) o = .ok a ∧ homogeneous a := by
  refine ⟨_, rfl, ?_⟩
  simp only [__object_typed_array_impl_push_back, __object_typed_array_impl_is_empty,
    __internal_array_base_get_size, beq_iff_eq]
  by_cases he : ch.length = 0
  · have hnil : ch = [] := List.length_eq_zero.mp he
    subst hnil
    simp only [List.length_nil, if_true]
    rcases base_push_back_children ⟨c, []⟩ o with hp | hp
    · rw [hp]
      intro h0
      simp [object_typed_array_impl.toObj] at h0
    · rw [hp]
      intro _ child hc
      simp only [List.nil_append, List.mem_singleton] at hc
      rw [hc]
  · simp only [he, if_false]
    split
    · rename_i hk
      rcases base_push_back_children ⟨c, ch⟩ o with hp | hp
      · rw [hp]
        exact h
      · rw [hp]
        exact homogeneous_append c ch t o h hk (fun h0 => he (by rw [h0]; rfl))
    · exact h

theorem base_set_children (array array' : internal_array_base) (index : Nat) (o : Obj)
    (hs : __internal_array_base_set array index o = .ok array') :
    array'.capacity = array.capacity ∧
      ∀ x ∈ array'.children, x ∈ array.children ∨ x = o := by
  simp only [__internal_array_base_set, __internal_array_base_get_size] at hs
  split at hs
  · cases hs
    exact ⟨rfl, fun x hx => List.mem_or_eq_of_mem_set hx⟩
  · split at hs
    · cases hs
      exact ⟨rfl, fun x hx => Or.inl hx⟩
    · cases hs

/-- Homogeneity survives `dbof_typed_array_set`, when the call is within the model. -/
theorem homogeneous_set (c : Nat) (ch : List Obj) (t : dbof_type) (index : Nat) (o : Obj)
    (a : Obj) (h : homogeneous (.typed_array c ch t))
    (hs : dbof_typed_array_set (.typed_array c ch t) index o = .ok a) : homogeneous a := by
  simp only [dbof_typed_array_set, as_typed_array, __object_typed_array_impl_set] at hs
  split at hs
  · rename_i hk
    split at hs
    · cases hs
    · rename_i base hb
      cases hs
      obtain ⟨_, hmem⟩ := base_set_children ⟨c, ch⟩ base index o hb
      intro hpos child hc
      rcases hmem child hc with h1 | h1
      · exact h (List.length_pos_of_mem h1) child h1
      · rw [h1]
        exact hk
  · cases hs
    exact h

theorem homogeneous_of_subset (c c' : Nat) (ch ch' : List Obj) (t : dbof_type)
    (h : homogeneous (.typed_array c ch t)) (hsub : ∀ x ∈ ch', x ∈ ch) :
    homogeneous (.typed_array c' ch' t) := by
  intro hpos child hc
  have hm := hsub child hc
  exact h (List.length_pos_of_mem hm) child hm

theorem base_remove_children (array : internal_array_base) (index : Nat)
    (r : dbof_object × internal_array_base)
    (hr : __internal_array_base_remove array index = .ok r) :
    r.2.capacity = array.capacity ∧ ∀ x ∈ r.2.children, x ∈ array.children := by
  simp only [__internal_array_base_remove, maybe_downscale_keeps] at hr
  split at hr
  · cases hr
    exact ⟨rfl, fun x hx => hx⟩
  · split at hr
    · cases hr
    · split at hr
      · cases hr
      · cases hr
        refine ⟨rfl, fun x hx => ?_⟩
        rcases List.mem_append.mp hx with h1 | h1
        · exact List.mem_of_mem_take h1
        · exact List.mem_of_mem_drop h1

/-- Homogeneity survives `dbof_typed_array_remove`, when the call is within the
model. -/
theorem homogeneous_remove (c : Nat) (ch : List Obj) (t : dbof_type) (index : Nat)
    (r : dbof_object × Obj) (h : homogeneous (.typed_array c ch t))
    (hr : dbof_typed_array_remove (.typed_array c ch t) index = .ok r) :
    homogeneous r.2 := by
  simp only [dbof_typed_array_remove, as_typed_array, __object_typed_array_impl_remove] at hr
  split at hr
  · cases hr
  · rename_i object base hb
    cases hr
    obtain ⟨_, hsub⟩ := base_remove_children ⟨c, ch⟩ index (object, base) hb
    exact homogeneous_of_subset c _ ch _ t h hsub

/-- Homogeneity survives `dbof_typed_array_pop_back`, when the call is within the
model. -/
theorem homogeneous_pop_back (c : Nat) (ch : List Obj) (t : dbof_type)
    (r : dbof_object × Obj) (h : homogeneous (.typed_array c ch t))
    (hr : dbof_typed_array_pop_back (.typed_array c ch t) = .ok r) :
    homogeneous r.2 := by
  simp only [dbof_typed_array_pop_back, as_typed_array, __object_typed_array_impl_pop_back,
    __internal_array_base_pop_back, maybe_downscale_keeps] at hr
  split at hr
  · cases hr
  · rename_i object base hb
    split at hb
    · cases hb
    · rename_i object' base' hb'
      cases hb
      cases hr
      obtain ⟨_, hsub⟩ := base_remove_children ⟨c, ch⟩ _ (object, base) hb'
      exact homogeneous_of_subset c _ ch _ t h hsub

theorem typed_array_call_keeps_kind (array a : Obj) (call : typed_array_call)
    (hr : call.run array = .ok a) :
    (∃ c ch t, array = .typed_array c ch t) ∧ ∃ c ch t, a = .typed_array c ch t := by
  cases array with
  | typed_array c ch t =>
    refine ⟨⟨c, ch, t, rfl⟩, ?_⟩
    cases call with
    | set_type k =>
      cases hr
      exact ⟨_, _, _, rfl⟩
    | push_back o =>
      cases hr
      exact ⟨_, _, _, rfl⟩
    | insert i o =>
      cases hr
      exact ⟨_, _, _, rfl⟩
    | set i o =>
      simp only [typed_array_call.run, dbof_typed_array_set, as_typed_array] at hr
      cases hs : __object_typed_array_impl_set ⟨⟨c, ch⟩, t⟩ i o with
      | error e =>
        rw [hs] at hr
        cases hr
      | ok v =>
        rw [hs] at hr
        cases hr
        exact ⟨_, _, _, rfl⟩
    | remove i =>
      simp only [typed_array_call.run, dbof_typed_array_remove, as_typed_array] at hr
      cases hs : __object_typed_array_impl_remove ⟨⟨c, ch⟩, t⟩ i with
      | error e =>
        rw [hs] at hr
        cases hr
      | ok v =>
        rw [hs] at hr
        cases hr
        exact ⟨_, _, _, rfl⟩
    | pop_back =>
      simp only [typed_array_call.run, dbof_typed_array_pop_back, as_typed_array] at hr
      cases hs : __object_typed_array_impl_pop_back ⟨⟨c, ch⟩, t⟩ with
      | error e =>
        rw [hs] at hr
        cases hr
      | ok v =>
        rw [hs] at hr
        cases hr
        exact ⟨_, _, _, rfl⟩
  | _ =>
    cases call <;> cases hr

theorem homogeneous_call (array a : Obj) (call : typed_array_call)
    (hi : call.is_insert = false) (h : homogeneous array) (hr : call.run array = .ok a) :
    homogeneous a := by
  obtain ⟨⟨c, ch, t, rfl⟩, _⟩ := typed_array_call_keeps_kind array a call hr
  cases call with
  | set_type k =>
    obtain ⟨a', ha', hh⟩ := homogeneous_set_type c ch t k h
    simp only [typed_array_call.run, ha', Except.ok.injEq] at hr
    rw [← hr]
    exact hh
  | push_back o =>
    obtain ⟨a', ha', hh⟩ := homogeneous_push_back c ch t o h
    simp only [typed_array_call.run, ha', Except.ok.injEq] at hr
    rw [← hr]
    exact hh
  | insert i o => cases hi
  | set i o => exact homogeneous_set c ch t i o a h hr
  | remove i =>
    simp only [typed_array_call.run] at hr
    cases hs : dbof_typed_array_remove (.typed_array c ch t) i with
    | error e =>
      rw [hs] at hr
      cases hr
    | ok v =>
      rw [hs] at hr
      cases hr
      exact homogeneous_remove c ch t i v h hs
  | pop_back =>
    simp only [typed_array_call.run] at hr
    cases hs : dbof_typed_array_pop_back (.typed_array c ch t) with
    | error e =>
      rw [hs] at hr
      cases hr
    | ok v =>
      rw [hs] at hr
      cases hr
      exact homogeneous_pop_back c ch t v h hs

/-- Every typed array reached from a homogeneous one by calls of `set_type`,
`push_back`, `set`, `remove` and `pop_back` (no `insert`) is homogeneous. -/
theorem homogeneous_calls (calls : List typed_array_call) :
    ∀ (array a : Obj), (∀ call ∈ calls, call.is_insert = false) → homogeneous array →
      List.foldlM typed_array_call.run array calls = .ok a → homogeneous a := by
  induction calls with
  | nil =>
    intro array a _ h hr
    simp only [List.foldlM, pure, Except.pure, Except.ok.injEq] at hr
    rw [← hr]
    exact h
  | cons call rest ih =>
    intro array a hi h hr
    rw [List.foldlM_cons] at hr
    cases hs : call.run array with
    | error e =>
      rw [hs] at hr
      cases hr
    | ok v =>
      rw [hs] at hr
      exact ih v a (fun x hx => hi x (List.mem_cons_of_mem _ hx))
        (homogeneous_call array v call (hi call (List.mem_cons_self _ _)) h hs) hr

/-- With `insert` left out, every typed array reachable from `dbof_new (TYPED_ARRAY)`
is homogeneous. -/
theorem homogeneous_reachable_without_insert (calls : List typed_array_call) (a : Obj)
    (hi : ∀ call ∈ calls, call.is_insert = false)
    (hr : List.foldlM typed_array_call.run (dbof_new DBOF_TYPE_TYPED_ARRAY) calls = .ok a) :
    homogeneous a := by
  have h0 : homogeneous (dbof_new DBOF_TYPE_TYPED_ARRAY) := by
    intro hpos
    exact absurd hpos (by decide)
  exact homogeneous_calls calls _ a hi h0 hr

/-! ## Arrays: `push_back`, `set_type` -/

/-- C27 (counterexample): the fresh typed array whose element kind has been set to
Character is empty; `push_back` of SignedByte(0), whose kind is not Character, changes
its size from 0 to 1 (and its element kind to SignedByte). -/
theorem push_back_mismatch_on_empty_changes_size :
    dbof_typed_array_set_type (dbof_new DBOF_TYPE_TYPED_ARRAY) DBOF_TYPE_CHARACTER =
        .ok (.typed_array 10 [] DBOF_TYPE_CHARACTER) ∧
      dbof_typed_array_get_size (.typed_array 10 [] DBOF_TYPE_CHARACTER) = .ok 0 ∧
      dbof_typeof (dbof_new DBOF_TYPE_SIGNED_BYTE) ≠ DBOF_TYPE_CHARACTER ∧
      dbof_typed_array_push_back (.typed_array 10 [] DBOF_TYPE_CHARACTER)
          (dbof_new DBOF_TYPE_SIGNED_BYTE) =
        .ok (.typed_array 10 [.signed_byte 0] DBOF_TYPE_SIGNED_BYTE) ∧
      dbof_typed_array_get_size (.typed_array 10 [.signed_byte 0] DBOF_TYPE_SIGNED_BYTE) =
        .ok 1 := by
  refine ⟨rfl, rfl, ?_, rfl, rfl⟩
  decide

/-- C27 (as amended): for any typed array that is not empty, with element kind `K`, and
any object whose kind is not `K`, `dbof_typed_array_push_back` leaves the array as it
is: its size, its elements, its element kind and its capacity. -/
theorem push_back_mismatch_keeps_nonempty_array (capacity : Nat) (children : List Obj)
    (type : dbof_type) (object : Obj) (hne : children ≠ [])
    (hk : dbof_typeof object ≠ type) :
    dbof_typed_array_push_back (.typed_array capacity children type) object =
        .ok (.typed_array capacity children type) ∧
      dbof_typed_array_get_size (.typed_array capacity children type) =
        .ok children.length := by
  refine ⟨?_, rfl⟩
  have hlen : ¬ (children.length = 0) := by
    intro h0
    exact hne (List.length_eq_zero.mp h0)
  simp only [dbof_typed_array_push_back, as_typed_array, Except.map,
    __object_typed_array_impl_push_back, __object_typed_array_impl_is_empty,
    __internal_array_base_get_size, beq_iff_eq, hlen, if_false, hk,
    object_typed_array_impl.toObj, Bool.false_eq_true]

/-- C27 (witness): the typed array holding Character(0), element kind Character, and
the object SignedByte(0). -/
theorem push_back_mismatch_keeps_nonempty_array_witness :
    ([Obj.character 0] ≠ []) ∧ dbof_typeof (.signed_byte 0) ≠ DBOF_TYPE_CHARACTER ∧
      dbof_typed_array_push_back (.typed_array 10 [.character 0] DBOF_TYPE_CHARACTER)
          (.signed_byte 0) =
        .ok (.typed_array 10 [.character 0] DBOF_TYPE_CHARACTER) ∧
      dbof_typed_array_get_size (.typed_array 10 [.character 0] DBOF_TYPE_CHARACTER) =
        .ok [Obj.character 0].length :=
  ⟨by simp, by decide,
    push_back_mismatch_keeps_nonempty_array 10 [.character 0] DBOF_TYPE_CHARACTER
      (.signed_byte 0) (by simp) (by decide)⟩

/-- C28: ten SignedByte objects pushed onto the fresh typed array fill it to its
capacity;
`push_back` of an eleventh SignedByte object leaves it as it is, size 10:
`__internal_array_base_ensure_space` calls `__internal_array_base_resize`, which
returns -1 when `realloc` succeeds. -/
theorem push_back_at_capacity_is_dropped :
    List.foldlM dbof_typed_array_push_back (dbof_new DBOF_TYPE_TYPED_ARRAY)
        (List.replicate 10 (.signed_byte 0)) =
      .ok (.typed_array 10 (List.replicate 10 (.signed_byte 0)) DBOF_TYPE_SIGNED_BYTE) ∧
    dbof_typed_array_push_back
        (.typed_array 10 (List.replicate 10 (.signed_byte 0)) DBOF_TYPE_SIGNED_BYTE)
        (.signed_byte 7) =
      .ok (.typed_array 10 (List.replicate 10 (.signed_byte 0)) DBOF_TYPE_SIGNED_BYTE) ∧
    dbof_typed_array_get_size
        (.typed_array 10 (List.replicate 10 (.signed_byte 0)) DBOF_TYPE_SIGNED_BYTE) =
      .ok 10 ∧
    __internal_array_base_resize
        { capacity := 10, children := List.replicate 10 (.signed_byte 0) } 20 =
      (-1, { capacity := 10, children := List.replicate 10 (.signed_byte 0) }) := by
  exact ⟨rfl, rfl, rfl, rfl⟩

theorem ensure_space_below_capacity (array : internal_array_base)
    (h : array.children.length < array.capacity) :
    __internal_array_base_ensure_space array = (0, array) := by
  have hne : ¬ (array.children.length = array.capacity) := by omega
  simp only [__internal_array_base_ensure_space, __internal_array_base_get_size, hne, if_false]

theorem base_push_back_below_capacity (array : internal_array_base) (object : Obj)
    (h : array.children.length < array.capacity) :
    __internal_array_base_push_back array object =
      (0, { array with children := array.children ++ [object] }) := by
  simp [__internal_array_base_push_back, ensure_space_below_capacity array h]

/-- Below its capacity a typed array takes the object as the claim says: an empty
array adopts the kind of the object and holds it alone, an array that is not empty
appends an object of its element kind. -/
theorem push_back_below_capacity (capacity : Nat) (children : List Obj) (type : dbof_type)
    (object : Obj) (hcap : children.length < capacity)
    (hk : children = [] ∨ dbof_typeof object = type) :
    dbof_typed_array_push_back (.typed_array capacity children type) object =
      .ok (.typed_array capacity (children ++ [object]) (dbof_typeof object)) := by
  have hb := base_push_back_below_capacity ⟨capacity, children⟩ object hcap
  by_cases he : children.length = 0
  · simp only [dbof_typed_array_push_back, as_typed_array, Except.map,
      __object_typed_array_impl_push_back, __object_typed_array_impl_is_empty,
      __internal_array_base_get_size, he, beq_self_eq_true, if_true, hb,
      object_typed_array_impl.toObj]
  · have hk2 : dbof_typeof object = type := by
      rcases hk with h0 | hk
      · exact absurd (by rw [h0]; rfl) he
      · exact hk
    subst hk2
    simp only [dbof_typed_array_push_back, as_typed_array, Except.map,
      __object_typed_array_impl_push_back, __object_typed_array_impl_is_empty,
      __internal_array_base_get_size, beq_iff_eq, he, if_false, if_true, hb,
      object_typed_array_impl.toObj, Bool.false_eq_true]

/-- C30: eleven objects SignedByte(0) .. SignedByte(10) pushed in turn onto the fresh
untyped array leave an array of size 10 that holds the first ten: the eleventh
`push_back` finds the array at its capacity and is dropped, and cell 10 holds no
element.  The same eleven objects, of one kind, pushed onto the fresh typed array
leave ten elements as well. -/
theorem eleventh_push_back_is_dropped :
    List.foldlM dbof_untyped_array_push_back (dbof_new DBOF_TYPE_UNTYPED_ARRAY)
        ((List.range 11).map (fun i => Obj.signed_byte (byte i))) =
      .ok (.untyped_array 10 ((List.range 10).map (fun i => Obj.signed_byte (byte i)))) ∧
    dbof_untyped_array_get_size
        (.untyped_array 10 ((List.range 10).map (fun i => Obj.signed_byte (byte i)))) =
      .ok 10 ∧
    dbof_untyped_array_get
        (.untyped_array 10 ((List.range 10).map (fun i => Obj.signed_byte (byte i)))) 10 =
      .error .undefined_behaviour ∧
    List.foldlM dbof_typed_array_push_back (dbof_new DBOF_TYPE_TYPED_ARRAY)
        ((List.range 11).map (fun i => Obj.signed_byte (byte i))) =
      .ok (.typed_array 10 ((List.range 10).map (fun i => Obj.signed_byte (byte i)))
        DBOF_TYPE_SIGNED_BYTE) := by
  exact ⟨rfl, rfl, rfl, rfl⟩

theorem untyped_push_back_below_capacity (capacity : Nat) (children : List Obj)
    (object : Obj) (hcap : children.length < capacity) :
    dbof_untyped_array_push_back (.untyped_array capacity children) object =
      .ok (.untyped_array capacity (children ++ [object])) := by
  have hb := base_push_back_below_capacity ⟨capacity, children⟩ object hcap
  simp only [dbof_untyped_array_push_back, as_untyped_array, Except.map,
    __object_untyped_array_impl_push_back, hb, internal_array_base.toObj]

theorem untyped_push_back_all (capacity : Nat) (objects : List Obj) :
    ∀ (children : List Obj), children.length + objects.length ≤ capacity →
      List.foldlM dbof_untyped_array_push_back (.untyped_array capacity children) objects =
        .ok (.untyped_array capacity (children ++ objects)) := by
  induction objects with
  | nil =>
    intro children _
    simp [List.foldlM, pure, Except.pure]
  | cons o os ih =>
    intro children h
    simp only [List.length_cons] at h
    rw [List.foldlM_cons, untyped_push_back_below_capacity capacity children o (by omega)]
    have := ih (children ++ [o]) (by simp; omega)
    simpa [bind, Except.bind] using this

theorem typed_push_back_all (capacity : Nat) (k : dbof_type) (objects : List Obj) :
    ∀ (children : List Obj) (type : dbof_type),
      children.length + objects.length ≤ capacity →
      (∀ o ∈ objects, dbof_typeof o = k) → (children = [] ∨ type = k) →
      List.foldlM dbof_typed_array_push_back (.typed_array capacity children type) objects =
        .ok (.typed_array capacity (children ++ objects) (if objects.length = 0 then type else k)) := by
  induction objects with
  | nil =>
    intro children type _ _ _
    simp [List.foldlM, pure, Except.pure]
  | cons o os ih =>
    intro children type h hk hc
    simp only [List.length_cons] at h
    have ho : dbof_typeof o = k := hk o (List.mem_cons_self _ _)
    have hpush := push_back_below_capacity capacity children type o (by omega)
      (hc.imp id (fun e => ho.trans e.symm))
    rw [List.foldlM_cons, hpush, ho]
    have := ih (children ++ [o]) k (by simp; omega)
      (fun x hx => hk x (List.mem_cons_of_mem _ hx)) (Or.inr rfl)
    simp only [bind, Except.bind, this, List.append_assoc, List.singleton_append,
      List.length_cons]
    simp

/-- Up to the capacity of 10 the claim of the array round trip holds: `n ≤ 10` objects
pushed onto the fresh untyped array, or `n ≤ 10` objects of one kind `k` pushed onto the
fresh typed array, give an array of size `n` whose cell `i` holds the `i`-th object. -/
theorem push_back_sequence_within_capacity (objects : List Obj) (k : dbof_type)
    (hn : objects.length ≤ 10) :
    List.foldlM dbof_untyped_array_push_back (dbof_new DBOF_TYPE_UNTYPED_ARRAY) objects =
        .ok (.untyped_array 10 objects) ∧
      dbof_untyped_array_get_size (.untyped_array 10 objects) = .ok objects.length ∧
      (∀ i (hi : i < objects.length),
        dbof_untyped_array_get (.untyped_array 10 objects) i = .ok (some (objects.get ⟨i, hi⟩))) ∧
      ((∀ o ∈ objects, dbof_typeof o = k) →
        List.foldlM dbof_typed_array_push_back (dbof_new DBOF_TYPE_TYPED_ARRAY) objects =
            .ok (.typed_array 10 objects (if objects.length = 0 then DBOF_TYPE_NULL else k)) ∧
          ∀ i (hi : i < objects.length) (t : dbof_type),
            dbof_typed_array_get (.typed_array 10 objects t) i =
              .ok (some (objects.get ⟨i, hi⟩))) := by
  refine ⟨?_, rfl, ?_, ?_⟩
  · have := untyped_push_back_all 10 objects [] (by simpa using hn)
    simpa using this
  · intro i hi
    simp [dbof_untyped_array_get, as_untyped_array, __object_untyped_array_impl_get,
      __internal_array_base_get, List.getElem?_eq_getElem hi]
  · intro hk
    constructor
    · have := typed_push_back_all 10 k objects [] 0 (by simpa using hn) hk (Or.inl rfl)
      simpa using this
    · intro i hi t
      simp [dbof_typed_array_get, as_typed_array, __object_typed_array_impl_get,
        __internal_array_base_get, List.getElem?_eq_getElem hi]

/-! ## Arrays at and below their capacity -/

theorem base_insert_below_capacity (array : internal_array_base) (index : Nat) (object : Obj)
    (hcap : array.children.length < array.capacity) (hi : index ≤ array.children.length) :
    __internal_array_base_insert array index object =
      (0, { array with
        children := array.children.take index ++ object :: array.children.drop index }) := by
  have hn : ¬ index > array.children.length := by omega
  simp [__internal_array_base_insert, __internal_array_base_get_size, hn,
    ensure_space_below_capacity array hcap]

theorem base_insert_out_of_range (array : internal_array_base) (index : Nat) (object : Obj)
    (hi : index > array.children.length) :
    __internal_array_base_insert array index object = (-1, array) := by
  simp [__internal_array_base_insert, __internal_array_base_get_size, hi]

theorem ensure_space_at_capacity (array : internal_array_base)
    (hcap : array.children.length = array.capacity) :
    __internal_array_base_ensure_space array = (-1, array) := by
  simp only [__internal_array_base_ensure_space, __internal_array_base_get_size, hcap,
    resize_keeps, if_true]
  split <;> simp

theorem base_insert_at_capacity (array : internal_array_base) (index : Nat) (object : Obj)
    (hcap : array.children.length = array.capacity) :
    __internal_array_base_insert array index object = (-1, array) := by
  simp only [__internal_array_base_insert, __internal_array_base_get_size]
  split
  · rfl
  · rw [ensure_space_at_capacity array hcap]
    simp

theorem base_push_back_at_capacity (array : internal_array_base) (object : Obj)
    (hcap : array.children.length = array.capacity) :
    __internal_array_base_push_back array object = (-1, array) := by
  simp [__internal_array_base_push_back, ensure_space_at_capacity array hcap]

theorem drop_succ_append_cons (pre post : List Obj) (e : Obj) :
    (pre ++ e :: post).drop (pre.length + 1) = post := by
  induction pre with
  | nil => rfl
  | cons x xs ih => simp [ih]

theorem cell_after_front (pre post : List Obj) (e : Obj) :
    (pre ++ e :: post)[pre.length]? = some e := by
  induction pre with
  | nil => simp
  | cons x xs ih => simpa using ih

theorem base_remove_below_capacity (array : internal_array_base) (pre post : List Obj)
    (e : Obj) (hch : array.children = pre ++ e :: post)
    (hcap : array.children.length < array.capacity) :
    __internal_array_base_remove array pre.length =
      .ok (some e, { array with children := pre ++ post }) := by
  have h1 : ¬ pre.length ≥ array.children.length := by rw [hch]; simp
  have h2 : ¬ array.children.length ≥ array.capacity := by omega
  have hget : array.children[pre.length]? = some e := by
    rw [hch]
    exact cell_after_front pre post e
  simp only [__internal_array_base_remove, __internal_array_base_get_size, h1, h2, if_false,
    maybe_downscale_keeps, hget]
  rw [hch, List.take_left' rfl, drop_succ_append_cons]

theorem base_remove_out_of_range (array : internal_array_base) (index : Nat)
    (hi : index ≥ array.children.length) :
    __internal_array_base_remove array index = .ok (none, array) := by
  simp [__internal_array_base_remove, __internal_array_base_get_size, hi]

theorem base_remove_at_capacity (array : internal_array_base) (index : Nat)
    (hi : index < array.children.length) (hcap : array.children.length ≥ array.capacity) :
    __internal_array_base_remove array index = .error .undefined_behaviour := by
  have h1 : ¬ index ≥ array.children.length := by omega
  simp only [__internal_array_base_remove, __internal_array_base_get_size, h1, if_false]
  split
  · rfl
  · simp [hcap]

theorem base_pop_back_of_remove (array : internal_array_base) (index : Nat)
    (r : Except Fault (dbof_object × internal_array_base))
    (hi : (array.children.length + 18446744073709551616 - 1) % 18446744073709551616 = index)
    (hr : __internal_array_base_remove array index = r) :
    __internal_array_base_pop_back array = r := by
  simp only [__internal_array_base_pop_back, __internal_array_base_get_size, hi, hr,
    maybe_downscale_keeps]
  cases r with
  | error e => rfl
  | ok p => rfl

theorem base_pop_back_below_capacity (array : internal_array_base) (children : List Obj)
    (e : Obj) (hch : array.children = children ++ [e])
    (hcap : array.children.length < array.capacity)
    (hsize : array.children.length < 18446744073709551616) :
    __internal_array_base_pop_back array =
      .ok (some e, { array with children := children }) := by
  have hlen : array.children.length = children.length + 1 := by rw [hch]; simp
  have hi : (array.children.length + 18446744073709551616 - 1) % 18446744073709551616 =
      children.length := by
    rw [hlen] at hsize ⊢
    omega
  have hr := base_remove_below_capacity array children [] e hch hcap
  rw [List.append_nil] at hr
  exact base_pop_back_of_remove array _ _ hi hr


theorem base_pop_back_at_capacity (array : internal_array_base)
    (hpos : 0 < array.children.length) (hcap : array.children.length ≥ array.capacity)
    (hsize : array.children.length < 18446744073709551616) :
    __internal_array_base_pop_back array = .error .undefined_behaviour := by
  have hi : (array.children.length + 18446744073709551616 - 1) % 18446744073709551616 =
      array.children.length - 1 := by omega
  exact base_pop_back_of_remove array _ _ hi
    (base_remove_at_capacity array _ (by omega) hcap)

theorem typed_pop_back_eq (capacity : Nat) (children : List Obj) (type : dbof_type) :
    dbof_typed_array_pop_back (.typed_array capacity children type) =
      (__internal_array_base_pop_back ⟨capacity, children⟩).map
        (fun r => (r.1, .typed_array r.2.capacity r.2.children type)) := by
  simp only [dbof_typed_array_pop_back, as_typed_array, __object_typed_array_impl_pop_back]
  generalize __internal_array_base_pop_back ⟨capacity, children⟩ = r
  rcases r with e | ⟨o, b⟩ <;> rfl

theorem untyped_pop_back_eq (capacity : Nat) (children : List Obj) :
    dbof_untyped_array_pop_back (.untyped_array capacity children) =
      (__internal_array_base_pop_back ⟨capacity, children⟩).map
        (fun r => (r.1, .untyped_array r.2.capacity r.2.children)) := by
  simp only [dbof_untyped_array_pop_back, as_untyped_array,
    __object_untyped_array_impl_pop_back]
  generalize __internal_array_base_pop_back ⟨capacity, children⟩ = r
  rcases r with e | ⟨o, b⟩ <;> rfl

theorem typed_remove_eq (capacity : Nat) (children : List Obj) (type : dbof_type)
    (index : Nat) :
    dbof_typed_array_remove (.typed_array capacity children type) index =
      (__internal_array_base_remove ⟨capacity, children⟩ index).map
        (fun r => (r.1, .typed_array r.2.capacity r.2.children type)) := by
  simp only [dbof_typed_array_remove, as_typed_array, __object_typed_array_impl_remove]
  generalize __internal_array_base_remove ⟨capacity, children⟩ index = r
  rcases r with e | ⟨o, b⟩ <;> rfl

theorem untyped_remove_eq (capacity : Nat) (children : List Obj) (index : Nat) :
    dbof_untyped_array_remove (.untyped_array capacity children) index =
      (__internal_array_base_remove ⟨capacity, children⟩ index).map
        (fun r => (r.1, .untyped_array r.2.capacity r.2.children)) := by
  simp only [dbof_untyped_array_remove, as_untyped_array, __object_untyped_array_impl_remove]
  generalize __internal_array_base_remove ⟨capacity, children⟩ index = r
  rcases r with e | ⟨o, b⟩ <;> rfl

/-- An untyped array at its capacity takes no further element: `push_back` and `insert`
leave capacity, size and elements as they were.  So does the typed array's `insert`,
and its `push_back` but for the element kind that an empty array adopts. -/
theorem array_at_capacity_never_grows (capacity : Nat) (children : List Obj)
    (type : dbof_type) (index : Nat) (object : Obj) (hcap : children.length = capacity) :
    dbof_untyped_array_push_back (.untyped_array capacity children) object =
        .ok (.untyped_array capacity children) ∧
      dbof_untyped_array_insert (.untyped_array capacity children) index object =
        .ok (.untyped_array capacity children) ∧
      dbof_typed_array_insert (.typed_array capacity children type) index object =
        .ok (.typed_array capacity children type) ∧
      dbof_typed_array_push_back (.typed_array capacity children type) object =
        .ok (.typed_array capacity children
          (if children.length = 0 then dbof_typeof object else type)) := by
  have h1 := base_push_back_at_capacity ⟨capacity, children⟩ object hcap
  have h2 := base_insert_at_capacity ⟨capacity, children⟩ index object hcap
  refine ⟨?_, ?_, ?_, ?_⟩
  · simp only [dbof_untyped_array_push_back, as_untyped_array, Except.map,
      __object_untyped_array_impl_push_back, h1, internal_array_base.toObj]
  · simp only [dbof_untyped_array_insert, as_untyped_array, Except.map,
      __object_untyped_array_impl_insert, h2, internal_array_base.toObj]
  · simp only [dbof_typed_array_insert, as_typed_array, Except.map,
      __object_typed_array_impl_insert, h2, object_typed_array_impl.toObj]
  · simp only [dbof_typed_array_push_back, as_typed_array, Except.map,
      __object_typed_array_impl_push_back, __object_typed_array_impl_is_empty,
      __internal_array_base_get_size, beq_iff_eq]
    by_cases he : children.length = 0
    · simp only [he, if_true, h1, object_typed_array_impl.toObj]
    · simp only [he, if_false, h1, object_typed_array_impl.toObj]
      split <;> rfl

/-- C33: the arrays that `dbof_new` returns have capacity 10 and size 0.  Ten
`push_back` calls fill the untyped one; at size 10 = capacity 10 a further `push_back`
and an `insert` leave the capacity at 10, the size at 10 and the ten elements: the
capacity does not double and the new element is not stored.  The same on the typed
array filled with ten objects of one kind. -/
theorem full_array_does_not_grow :
    dbof_typed_array_get_capacity (dbof_new DBOF_TYPE_TYPED_ARRAY) = .ok 10 ∧
      dbof_typed_array_get_size (dbof_new DBOF_TYPE_TYPED_ARRAY) = .ok 0 ∧
      dbof_untyped_array_get_capacity (dbof_new DBOF_TYPE_UNTYPED_ARRAY) = .ok 10 ∧
      dbof_untyped_array_get_size (dbof_new DBOF_TYPE_UNTYPED_ARRAY) = .ok 0 ∧
      List.foldlM dbof_untyped_array_push_back (dbof_new DBOF_TYPE_UNTYPED_ARRAY)
          ((List.range 10).map (fun i => Obj.signed_byte (byte i))) =
        .ok (.untyped_array 10 ((List.range 10).map (fun i => Obj.signed_byte (byte i)))) ∧
      dbof_untyped_array_push_back
          (.untyped_array 10 ((List.range 10).map (fun i => Obj.signed_byte (byte i))))
          (Obj.signed_byte 10) =
        .ok (.untyped_array 10 ((List.range 10).map (fun i => Obj.signed_byte (byte i)))) ∧
      dbof_untyped_array_insert
          (.untyped_array 10 ((List.range 10).map (fun i => Obj.signed_byte (byte i)))) 0
          (Obj.signed_byte 10) =
        .ok (.untyped_array 10 ((List.range 10).map (fun i => Obj.signed_byte (byte i)))) ∧
      dbof_untyped_array_get_capacity
          (.untyped_array 10 ((List.range 10).map (fun i => Obj.signed_byte (byte i)))) =
        .ok 10 ∧
      dbof_untyped_array_get_size
          (.untyped_array 10 ((List.range 10).map (fun i => Obj.signed_byte (byte i)))) =
        .ok 10 ∧
      List.foldlM dbof_typed_array_push_back (dbof_new DBOF_TYPE_TYPED_ARRAY)
          ((List.range 10).map (fun i => Obj.signed_byte (byte i))) =
        .ok (.typed_array 10 ((List.range 10).map (fun i => Obj.signed_byte (byte i)))
          DBOF_TYPE_SIGNED_BYTE) ∧
      dbof_typed_array_push_back
          (.typed_array 10 ((List.range 10).map (fun i => Obj.signed_byte (byte i)))
            DBOF_TYPE_SIGNED_BYTE) (Obj.signed_byte 10) =
        .ok (.typed_array 10 ((List.range 10).map (fun i => Obj.signed_byte (byte i)))
          DBOF_TYPE_SIGNED_BYTE) ∧
      dbof_typed_array_insert
          (.typed_array 10 ((List.range 10).map (fun i => Obj.signed_byte (byte i)))
            DBOF_TYPE_SIGNED_BYTE) 0 (Obj.signed_byte 10) =
        .ok (.typed_array 10 ((List.range 10).map (fun i => Obj.signed_byte (byte i)))
          DBOF_TYPE_SIGNED_BYTE) ∧
      dbof_typed_array_get_capacity
          (.typed_array 10 ((List.range 10).map (fun i => Obj.signed_byte (byte i)))
            DBOF_TYPE_SIGNED_BYTE) = .ok 10 :=
  ⟨rfl, rfl, rfl, rfl, rfl, rfl, rfl, rfl, rfl, rfl, rfl, rfl, rfl⟩

/-- Below the capacity `pop_back` undoes `push_back`: it returns the object that was
pushed and leaves the elements that were there before, in their order.  An empty typed
array keeps the element kind that it took from the object. -/
theorem pop_back_undoes_push_back_below_capacity (capacity : Nat) (children : List Obj)
    (type : dbof_type) (object : Obj) (hcap : children.length + 1 < capacity)
    (hsize : children.length + 1 < 18446744073709551616) :
    dbof_untyped_array_push_back (.untyped_array capacity children) object =
        .ok (.untyped_array capacity (children ++ [object])) ∧
      dbof_untyped_array_pop_back (.untyped_array capacity (children ++ [object])) =
        .ok (some object, .untyped_array capacity children) ∧
      (children = [] ∨ dbof_typeof object = type →
        dbof_typed_array_push_back (.typed_array capacity children type) object =
          .ok (.typed_array capacity (children ++ [object]) (dbof_typeof object)) ∧
        dbof_typed_array_pop_back
            (.typed_array capacity (children ++ [object]) (dbof_typeof object)) =
          .ok (some object, .typed_array capacity children (dbof_typeof object))) := by
  have hlen : (children ++ [object]).length = children.length + 1 := by simp
  have hp := base_pop_back_below_capacity ⟨capacity, children ++ [object]⟩ children object
    rfl (by rw [hlen]; exact hcap) (by rw [hlen]; exact hsize)
  refine ⟨untyped_push_back_below_capacity capacity children object (by omega), ?_,
    fun hk => ⟨push_back_below_capacity capacity children type object (by omega) hk, ?_⟩⟩
  · rw [untyped_pop_back_eq, hp]
    rfl
  · rw [typed_pop_back_eq, hp]
    rfl

/-- C31: on the untyped array that ten `push_back` calls have filled (size 10 =
capacity 10), `push_back` of an eleventh object leaves the array as it was, without the
object, so the `pop_back` that follows does not return it: it runs on the ten old
elements, where its `memmove` reads the cell after the tenth.  The same on the typed
array with an object of its element kind. -/
theorem pop_back_after_dropped_push_back :
    dbof_untyped_array_push_back
          (.untyped_array 10 ((List.range 10).map (fun i => Obj.signed_byte (byte i))))
          (Obj.signed_byte 10) =
        .ok (.untyped_array 10 ((List.range 10).map (fun i => Obj.signed_byte (byte i)))) ∧
      dbof_untyped_array_pop_back
          (.untyped_array 10 ((List.range 10).map (fun i => Obj.signed_byte (byte i)))) =
        .error .undefined_behaviour ∧
      dbof_typed_array_push_back
          (.typed_array 10 ((List.range 10).map (fun i => Obj.signed_byte (byte i)))
            DBOF_TYPE_SIGNED_BYTE) (Obj.signed_byte 10) =
        .ok (.typed_array 10 ((List.range 10).map (fun i => Obj.signed_byte (byte i)))
          DBOF_TYPE_SIGNED_BYTE) ∧
      dbof_typed_array_pop_back
          (.typed_array 10 ((List.range 10).map (fun i => Obj.signed_byte (byte i)))
            DBOF_TYPE_SIGNED_BYTE) =
        .error .undefined_behaviour := by
  have hp := base_pop_back_at_capacity
    ⟨10, (List.range 10).map (fun i => Obj.signed_byte (byte i))⟩ (by simp) (by simp)
    (by simp)
  refine ⟨rfl, ?_, rfl, ?_⟩
  · rw [untyped_pop_back_eq, hp]
    rfl
  · rw [typed_pop_back_eq, hp]
    rfl

/-- Below the capacity `remove` does what is expected of it: on an array that holds
`pre`, the element `e`, `post`, the call with index `pre.length` returns `e` and leaves
`pre`, `post`; with an index from the size on it returns `NULL` and leaves the array as
it was (this at any size). -/
theorem remove_below_capacity (capacity : Nat) (pre post : List Obj) (e : Obj)
    (type : dbof_type) (hcap : (pre ++ e :: post).length < capacity) :
    dbof_untyped_array_remove (.untyped_array capacity (pre ++ e :: post)) pre.length =
        .ok (some e, .untyped_array capacity (pre ++ post)) ∧
      dbof_typed_array_remove (.typed_array capacity (pre ++ e :: post) type) pre.length =
        .ok (some e, .typed_array capacity (pre ++ post) type) := by
  have hr := base_remove_below_capacity ⟨capacity, pre ++ e :: post⟩ pre post e rfl hcap
  refine ⟨?_, ?_⟩
  · rw [untyped_remove_eq, hr]
    rfl
  · rw [typed_remove_eq, hr]
    rfl

theorem remove_out_of_range (capacity : Nat) (children : List Obj) (type : dbof_type)
    (index : Nat) (hi : index ≥ children.length) :
    dbof_untyped_array_remove (.untyped_array capacity children) index =
        .ok (none, .untyped_array capacity children) ∧
      dbof_typed_array_remove (.typed_array capacity children type) index =
        .ok (none, .typed_array capacity children type) := by
  have hr := base_remove_out_of_range ⟨capacity, children⟩ index hi
  refine ⟨?_, ?_⟩
  · rw [untyped_remove_eq, hr]
    rfl
  · rw [typed_remove_eq, hr]
    rfl

/-- C35: ten `push_back` calls fill the fresh untyped array (size 10 = capacity 10).
On it `remove (0)`, like `remove (9)`, has no defined result: the `memmove` copies
`size - index` cells from cell `index + 1` on, one more than the array holds there, and
reads the cell after the tenth, outside the block of ten cells.  The same on the typed
array. -/
theorem remove_on_full_array :
    List.foldlM dbof_untyped_array_push_back (dbof_new DBOF_TYPE_UNTYPED_ARRAY)
          ((List.range 10).map (fun i => Obj.signed_byte (byte i))) =
        .ok (.untyped_array 10 ((List.range 10).map (fun i => Obj.signed_byte (byte i)))) ∧
      dbof_untyped_array_remove
          (.untyped_array 10 ((List.range 10).map (fun i => Obj.signed_byte (byte i)))) 0 =
        .error .undefined_behaviour ∧
      dbof_untyped_array_remove
          (.untyped_array 10 ((List.range 10).map (fun i => Obj.signed_byte (byte i)))) 9 =
        .error .undefined_behaviour ∧
      List.foldlM dbof_typed_array_push_back (dbof_new DBOF_TYPE_TYPED_ARRAY)
          ((List.range 10).map (fun i => Obj.signed_byte (byte i))) =
        .ok (.typed_array 10 ((List.range 10).map (fun i => Obj.signed_byte (byte i)))
          DBOF_TYPE_SIGNED_BYTE) ∧
      dbof_typed_array_remove
          (.typed_array 10 ((List.range 10).map (fun i => Obj.signed_byte (byte i)))
            DBOF_TYPE_SIGNED_BYTE) 0 =
        .error .undefined_behaviour := by
  have h0 := base_remove_at_capacity
    ⟨10, (List.range 10).map (fun i => Obj.signed_byte (byte i))⟩ 0 (by simp) (by simp)
  have h9 := base_remove_at_capacity
    ⟨10, (List.range 10).map (fun i => Obj.signed_byte (byte i))⟩ 9 (by simp) (by simp)
  refine ⟨rfl, ?_, ?_, rfl, ?_⟩
  · rw [untyped_remove_eq, h0]
    rfl
  · rw [untyped_remove_eq, h9]
    rfl
  · rw [typed_remove_eq, h0]
    rfl

/-! ## Size, capacity and the block behind the cells -/

theorem base_push_back_bounds (array : internal_array_base) (object : Obj)
    (h : array.children.length ≤ array.capacity) :
    (__internal_array_base_push_back array object).2.capacity = array.capacity ∧
      (__internal_array_base_push_back array object).2.children.length ≤ array.capacity := by
  rcases Nat.lt_or_eq_of_le h with h1 | h1
  · rw [base_push_back_below_capacity array object h1]
    refine ⟨rfl, ?_⟩
    simp only [List.length_append, List.length_singleton]
    omega
  · rw [base_push_back_at_capacity array object h1]
    exact ⟨rfl, h⟩

theorem base_insert_bounds (array : internal_array_base) (index : Nat) (object : Obj)
    (h : array.children.length ≤ array.capacity) :
    (__internal_array_base_insert array index object).2.capacity = array.capacity ∧
      (__internal_array_base_insert array index object).2.children.length ≤
        array.capacity := by
  by_cases hi : index > array.children.length
  · rw [base_insert_out_of_range array index object hi]
    exact ⟨rfl, h⟩
  · rcases Nat.lt_or_eq_of_le h with h1 | h1
    · rw [base_insert_below_capacity array index object h1 (by omega)]
      refine ⟨rfl, ?_⟩
      simp only [List.length_append, List.length_cons, List.length_take, List.length_drop]
      omega
    · rw [base_insert_at_capacity array index object h1]
      exact ⟨rfl, h⟩

theorem base_set_bounds (array array2 : internal_array_base) (index : Nat) (o : Obj)
    (hs : __internal_array_base_set array index o = .ok array2) :
    array2.capacity = array.capacity ∧ array2.children.length = array.children.length := by
  simp only [__internal_array_base_set, __internal_array_base_get_size] at hs
  split at hs
  · cases hs
    exact ⟨rfl, List.length_set _ _ _⟩
  · split at hs
    · cases hs
      exact ⟨rfl, rfl⟩
    · cases hs

theorem base_remove_bounds (array : internal_array_base) (index : Nat)
    (r : dbof_object × internal_array_base)
    (hr : __internal_array_base_remove array index = .ok r) :
    r.2.capacity = array.capacity ∧ r.2.children.length ≤ array.children.length := by
  simp only [__internal_array_base_remove, maybe_downscale_keeps] at hr
  split at hr
  · cases hr
    exact ⟨rfl, le_refl _⟩
  · split at hr
    · cases hr
    · split at hr
      · cases hr
      · cases hr
        refine ⟨rfl, ?_⟩
        simp only [List.length_append, List.length_take, List.length_drop]
        omega

theorem base_pop_back_bounds (array : internal_array_base)
    (r : dbof_object × internal_array_base)
    (hr : __internal_array_base_pop_back array = .ok r) :
    r.2.capacity = array.capacity ∧ r.2.children.length ≤ array.children.length := by
  rw [base_pop_back_of_remove array _ _ rfl rfl] at hr
  exact base_remove_bounds array _ r hr

theorem shrink_to_fit_keeps (array : internal_array_base) :
    __internal_array_base_shrink_to_fit array = array := by
  simp only [__internal_array_base_shrink_to_fit, resize_keeps]
  split <;> rfl

/-- A call keeps the kind of the array and its capacity, and keeps the size within
the capacity. -/
theorem array_call_keeps_bounds (s s2 : array_and_block) (call : array_call)
    (hk : dbof_typeof s.array = DBOF_TYPE_TYPED_ARRAY ∨
      dbof_typeof s.array = DBOF_TYPE_UNTYPED_ARRAY)
    (h : s.size ≤ s.capacity) (hr : call.run_with_block s = .ok s2) :
    dbof_typeof s2.array = dbof_typeof s.array ∧ s2.capacity = s.capacity ∧
      s2.size ≤ s2.capacity := by
  obtain ⟨array, block⟩ := s
  simp only [array_call.run_with_block] at hr
  cases hrun : call.run array with
  | error e =>
    rw [hrun] at hr
    cases hr
  | ok a =>
    rw [hrun] at hr
    cases hr
    simp only [array_and_block.size, array_and_block.capacity] at h ⊢
    cases array with
    | typed_array c ch t =>
      simp only at h
      cases call with
      | push_back o =>
        cases hrun
        have hb := base_push_back_bounds ⟨c, ch⟩ o h
        simp only [__object_typed_array_impl_push_back, __object_typed_array_impl_is_empty,
          __internal_array_base_get_size, beq_iff_eq, object_typed_array_impl.toObj]
        split <;> split <;>
          first
            | exact ⟨rfl, hb.1, by rw [hb.1]; exact hb.2⟩
            | exact ⟨rfl, rfl, h⟩
      | insert i o =>
        cases hrun
        have hb := base_insert_bounds ⟨c, ch⟩ i o h
        exact ⟨rfl, hb.1, by
          simp only [__object_typed_array_impl_insert, object_typed_array_impl.toObj]
          rw [hb.1]
          exact hb.2⟩
      | set i o =>
        simp only [array_call.run, dbof_typed_array_set, as_typed_array,
          __object_typed_array_impl_set] at hrun
        split at hrun
        · split at hrun
          · cases hrun
          · rename_i base hs
            cases hrun
            have hb := base_set_bounds ⟨c, ch⟩ base i o hs
            exact ⟨rfl, hb.1, by
              simp only [object_typed_array_impl.toObj]
              rw [hb.1, hb.2]
              exact h⟩
        · cases hrun
          exact ⟨rfl, rfl, h⟩
      | remove i =>
        simp only [array_call.run, typed_remove_eq] at hrun
        cases hb : __internal_array_base_remove ⟨c, ch⟩ i with
        | error e =>
          rw [hb] at hrun
          cases hrun
        | ok r =>
          rw [hb] at hrun
          cases hrun
          have hbb := base_remove_bounds ⟨c, ch⟩ i r hb
          exact ⟨rfl, hbb.1, by
            simp only []
            rw [hbb.1]
            exact le_trans hbb.2 h⟩
      | pop_back =>
        simp only [array_call.run, typed_pop_back_eq] at hrun
        cases hb : __internal_array_base_pop_back ⟨c, ch⟩ with
        | error e =>
          rw [hb] at hrun
          cases hrun
        | ok r =>
          rw [hb] at hrun
          cases hrun
          have hbb := base_pop_back_bounds ⟨c, ch⟩ r hb
          exact ⟨rfl, hbb.1, by
            simp only []
            rw [hbb.1]
            exact le_trans hbb.2 h⟩
      | shrink_to_fit =>
        cases hrun
        simpa [__object_typed_array_impl_shrink_to_fit, shrink_to_fit_keeps,
          object_typed_array_impl.toObj, dbof_typeof] using h
    | untyped_array c ch =>
      simp only at h
      cases call with
      | push_back o =>
        cases hrun
        have hb := base_push_back_bounds ⟨c, ch⟩ o h
        exact ⟨rfl, hb.1, by
          simp only [__object_untyped_array_impl_push_back, internal_array_base.toObj]
          rw [hb.1]
          exact hb.2⟩
      | insert i o =>
        cases hrun
        have hb := base_insert_bounds ⟨c, ch⟩ i o h
        exact ⟨rfl, hb.1, by
          simp only [__object_untyped_array_impl_insert, internal_array_base.toObj]
          rw [hb.1]
          exact hb.2⟩
      | set i o =>
        simp only [array_call.run, dbof_untyped_array_set, as_untyped_array,
          __object_untyped_array_impl_set] at hrun
        cases hs : __internal_array_base_set ⟨c, ch⟩ i o with
        | error e =>
          rw [hs] at hrun
          cases hrun
        | ok base =>
          rw [hs] at hrun
          cases hrun
          have hb := base_set_bounds ⟨c, ch⟩ base i o hs
          exact ⟨rfl, hb.1, by
            simp only [internal_array_base.toObj]
            rw [hb.1, hb.2]
            exact h⟩
      | remove i =>
        simp only [array_call.run, untyped_remove_eq] at hrun
        cases hb : __internal_array_base_remove ⟨c, ch⟩ i with
        | error e =>
          rw [hb] at hrun
          cases hrun
        | ok r =>
          rw [hb] at hrun
          cases hrun
          have hbb := base_remove_bounds ⟨c, ch⟩ i r hb
          exact ⟨rfl, hbb.1, by
            simp only []
            rw [hbb.1]
            exact le_trans hbb.2 h⟩
      | pop_back =>
        simp only [array_call.run, untyped_pop_back_eq] at hrun
        cases hb : __internal_array_base_pop_back ⟨c, ch⟩ with
        | error e =>
          rw [hb] at hrun
          cases hrun
        | ok r =>
          rw [hb] at hrun
          cases hrun
          have hbb := base_pop_back_bounds ⟨c, ch⟩ r hb
          exact ⟨rfl, hbb.1, by
            simp only []
            rw [hbb.1]
            exact le_trans hbb.2 h⟩
      | shrink_to_fit =>
        cases hrun
        simpa [__object_untyped_array_impl_shrink_to_fit, shrink_to_fit_keeps,
          internal_array_base.toObj, dbof_typeof] using h
    | _ =>
      exact absurd hk (by simp only [dbof_typeof]; decide)


theorem size_within_capacity_from (calls : List array_call) :
    ∀ s s2 : array_and_block,
      (dbof_typeof s.array = DBOF_TYPE_TYPED_ARRAY ∨
        dbof_typeof s.array = DBOF_TYPE_UNTYPED_ARRAY) →
      s.size ≤ s.capacity →
      List.foldlM array_call.run_with_block s calls = .ok s2 →
      s2.capacity = s.capacity ∧ s2.size ≤ s2.capacity := by
  induction calls with
  | nil =>
    intro s s2 _ h hr
    simp only [List.foldlM, pure, Except.pure, Except.ok.injEq] at hr
    subst hr
    exact ⟨rfl, h⟩
  | cons call rest ih =>
    intro s s2 hk h hr
    rw [List.foldlM_cons] at hr
    cases hstep : call.run_with_block s with
    | error e =>
      rw [hstep] at hr
      cases hr
    | ok s1 =>
      rw [hstep] at hr
      obtain ⟨k1, c1, b1⟩ := array_call_keeps_bounds s s1 call hk h hstep
      have := ih s1 s2 (by rw [k1]; exact hk) b1 (by simpa [bind, Except.bind] using hr)
      exact ⟨this.1.trans c1, this.2⟩

/-- The fields stay consistent: every array, typed or untyped, that a sequence of
`push_back`, `insert`, `set`, `remove`, `pop_back` and `shrink_to_fit` calls makes of
the array that `dbof_new` returns has capacity 10 and a size of at most 10. -/
theorem size_within_capacity_reachable (type : dbof_type)
    (ht : type = DBOF_TYPE_TYPED_ARRAY ∨ type = DBOF_TYPE_UNTYPED_ARRAY)
    (calls : List array_call) (s : array_and_block)
    (hr : List.foldlM array_call.run_with_block (array_and_block.fresh type) calls = .ok s) :
    s.capacity = 10 ∧ s.size ≤ s.capacity := by
  rcases ht with ht | ht <;> subst ht
  · exact size_within_capacity_from calls (array_and_block.fresh DBOF_TYPE_TYPED_ARRAY) s
      (Or.inl rfl) (by decide) hr
  · exact size_within_capacity_from calls (array_and_block.fresh DBOF_TYPE_UNTYPED_ARRAY) s
      (Or.inr rfl) (by decide) hr

/-- C38: on the array that `dbof_new` returns, `push_back`, `shrink_to_fit` and three
more `push_back` calls.  `shrink_to_fit` finds size 1 below capacity 10 and has
`__internal_array_base_resize` shrink the block to one cell; the resize returns -1 with
the capacity still 10.  The three calls that follow find size below capacity and store
into the cells 1, 2 and 3.  At the end size 4 ≤ capacity 10 holds and the block has one
cell: three of the four stored elements lie outside the allocated buffer.  The same on
the typed array. -/
theorem stored_elements_outside_block :
    List.foldlM array_call.run_with_block (array_and_block.fresh DBOF_TYPE_UNTYPED_ARRAY)
        [.push_back (.signed_byte 0), .shrink_to_fit, .push_back (.signed_byte 1),
          .push_back (.signed_byte 2), .push_back (.signed_byte 3)] =
      .ok { array := .untyped_array 10
              [.signed_byte 0, .signed_byte 1, .signed_byte 2, .signed_byte 3],
            block := 1 } ∧
    List.foldlM array_call.run_with_block (array_and_block.fresh DBOF_TYPE_TYPED_ARRAY)
        [.push_back (.signed_byte 0), .shrink_to_fit, .push_back (.signed_byte 1),
          .push_back (.signed_byte 2), .push_back (.signed_byte 3)] =
      .ok { array := .typed_array 10
              [.signed_byte 0, .signed_byte 1, .signed_byte 2, .signed_byte 3]
              DBOF_TYPE_SIGNED_BYTE,
            block := 1 } ∧
    array_call.resize_calls (.untyped_array 10 [.signed_byte 0]) .shrink_to_fit = [1] ∧
    __internal_array_base_shrink_to_fit ⟨10, [.signed_byte 0]⟩ = ⟨10, [.signed_byte 0]⟩ ∧
    (__internal_array_base_resize ⟨10, [.signed_byte 0]⟩ 1).1 = -1 ∧
    array_and_block.size
        { array := .untyped_array 10
            [.signed_byte 0, .signed_byte 1, .signed_byte 2, .signed_byte 3],
          block := 1 } = 4 ∧
    array_and_block.capacity
        { array := .untyped_array 10
            [.signed_byte 0, .signed_byte 1, .signed_byte 2, .signed_byte 3],
          block := 1 } = 10 :=
  ⟨rfl, rfl, rfl, rfl, rfl, rfl, rfl⟩

/-! ## Maps -/

/-- C32: `put` stores nothing.  On every map, typed or untyped, the call leaves the map
as it was; after `put` on the map that `dbof_new` returns the size is still 0 and
`is_empty` still answers 1; `has_key` and `get` have no body that would produce an
answer, before the call and after it. -/
theorem map_put_stores_nothing (size : Nat) (key_type value_type : dbof_type)
    (key value : Obj) :
    dbof_untyped_map_put (.untyped_map size) key value = .ok (.untyped_map size) ∧
      dbof_typed_map_put (.typed_map size key_type value_type) key value =
        .ok (.typed_map size key_type value_type) ∧
      dbof_untyped_map_put (dbof_new DBOF_TYPE_UNTYPED_MAP) key value =
        .ok (dbof_new DBOF_TYPE_UNTYPED_MAP) ∧
      dbof_untyped_map_get_size (dbof_new DBOF_TYPE_UNTYPED_MAP) = .ok 0 ∧
      dbof_untyped_map_is_empty (dbof_new DBOF_TYPE_UNTYPED_MAP) = .ok 1 ∧
      dbof_typed_map_put (dbof_new DBOF_TYPE_TYPED_MAP) key value =
        .ok (dbof_new DBOF_TYPE_TYPED_MAP) ∧
      dbof_typed_map_get_size (dbof_new DBOF_TYPE_TYPED_MAP) = .ok 0 ∧
      dbof_typed_map_is_empty (dbof_new DBOF_TYPE_TYPED_MAP) = .ok 1 ∧
      dbof_untyped_map_has_key (.untyped_map size) key = .error .undefined_behaviour ∧
      dbof_untyped_map_get (.untyped_map size) key = .error .undefined_behaviour ∧
      dbof_typed_map_has_key (.typed_map size key_type value_type) key =
        .error .undefined_behaviour ∧
      dbof_typed_map_get (.typed_map size key_type value_type) key =
        .error .undefined_behaviour :=
  ⟨rfl, rfl, rfl, rfl, rfl, rfl, rfl, rfl, rfl, rfl, rfl, rfl⟩

/-! ## Equality as a relation -/

theorem container_iff_not_value (a : Obj) :
    dbof_is_container_type (dbof_typeof a) = !dbof_is_value_type (dbof_typeof a) := by
  cases a <;> rfl

theorem same_category_iff (a b : Obj) :
    dbof_same_category a b = true ↔
      dbof_is_value_type (dbof_typeof a) = dbof_is_value_type (dbof_typeof b) := by
  simp only [dbof_same_category, container_iff_not_value]
  cases dbof_is_value_type (dbof_typeof a) <;> cases dbof_is_value_type (dbof_typeof b) <;>
    simp

/-- With both hash codes at hand, `dbof_equals` is the test for "same category and
same hash code". -/
theorem equals_eq_of_hashes (cs : Bool) (a b : Obj) (ha hb : Int)
    (h1 : dbof_hash cs (some a) = .ok ha) (h2 : dbof_hash cs (some b) = .ok hb) :
    dbof_equals cs (some a) (some b) =
      .ok (if dbof_same_category a b = true ∧ ha = hb then 1 else 0) := by
  simp only [dbof_equals]
  by_cases hcat : dbof_same_category a b = true
  · simp only [hcat, Bool.not_true, Bool.false_eq_true, if_false, true_and]
    split
    · rename_i hcont
      have hcb := container_of_same_category a b hcat hcont.1
      have e1 := container_hash cs a hcont.1
      have e2 := container_hash cs b hcb
      rw [h1] at e1
      rw [h2] at e2
      cases e1
      cases e2
      rfl
    · rw [h1, h2]
      by_cases he : ha = hb
      · simp [he]
      · simp [he]
  · simp [hcat]

theorem equals_of_other_category (cs : Bool) (a b : Obj)
    (hcat : dbof_same_category a b = false) :
    dbof_equals cs (some a) (some b) = .ok 0 := by
  simp [dbof_equals, hcat]

/-- C37: for objects `a` and `b` (references that are not `NULL`), on either kind of
plain `char`.  When they are of different categories `dbof_equals (a, b)` is 0.  When
`dbof_hash (a)` and `dbof_hash (b)` have the values `ha` and `hb`, `dbof_equals (a, b)`
returns, and its value is nonzero exactly when `a` and `b` are of the same category
and `ha = hb`: nothing else about the two objects enters the result. -/
theorem equals_is_same_category_and_same_hash (cs : Bool) (a b : Obj) :
    (dbof_same_category a b = false → dbof_equals cs (some a) (some b) = .ok 0) ∧
      ∀ ha hb : Int, dbof_hash cs (some a) = .ok ha → dbof_hash cs (some b) = .ok hb →
        ∃ e : Int, dbof_equals cs (some a) (some b) = .ok e ∧
          (e ≠ 0 ↔ dbof_same_category a b = true ∧ ha = hb) := by
  refine ⟨equals_of_other_category cs a b, fun ha hb h1 h2 => ?_⟩
  refine ⟨_, equals_eq_of_hashes cs a b ha hb h1 h2, ?_⟩
  by_cases h : dbof_same_category a b = true ∧ ha = hb
  · simp [h]
  · simp only [h, if_false, ne_eq, not_true_eq_false]

/-- C37 (witness): SignedByte(1) and UnsignedInteger(1), of different kinds, have the
hash code 1 and compare equal; SignedByte(1) and an untyped array have the hash codes
1 and 0 and are of different categories. -/
theorem equals_is_same_category_and_same_hash_witness :
    dbof_hash true (some (.signed_byte 1)) = .ok 1 ∧
      dbof_hash true (some (.unsigned_integer 1)) = .ok 1 ∧
      dbof_same_category (.signed_byte 1) (.untyped_array 10 []) = false ∧
      dbof_equals true (some (.signed_byte 1)) (some (.untyped_array 10 [])) = .ok 0 ∧
      ∃ e : Int, dbof_equals true (some (.signed_byte 1)) (some (.unsigned_integer 1)) = .ok e ∧
        (e ≠ 0 ↔ dbof_same_category (.signed_byte 1) (.unsigned_integer 1) = true ∧
          (1 : Int) = 1) :=
  ⟨rfl, rfl, rfl,
    (equals_is_same_category_and_same_hash true (.signed_byte 1) (.untyped_array 10 [])).1 rfl,
    (equals_is_same_category_and_same_hash true (.signed_byte 1) (.unsigned_integer 1)).2
      1 1 rfl rfl⟩

/-- On the references whose hash code is defined (all but the string objects whose
value is `NULL`), `dbof_equals` is an equivalence relation: it returns 1 on a reference
and itself, returns the same for `(a, b)` as for `(b, a)`, and a nonzero result for
`(a, b)` and for `(b, c)` comes with a nonzero result for `(a, c)`. -/
theorem equals_equivalence_where_hash_defined (cs : Bool) (a b c : dbof_object)
    (ha hb hc : Int) (h1 : dbof_hash cs a = .ok ha) (h2 : dbof_hash cs b = .ok hb)
    (h3 : dbof_hash cs c = .ok hc) :
    dbof_equals cs a a = .ok 1 ∧
      dbof_equals cs a b = dbof_equals cs b a ∧
      ∀ e1 e2 : Int, dbof_equals cs a b = .ok e1 → e1 ≠ 0 →
        dbof_equals cs b c = .ok e2 → e2 ≠ 0 →
        ∃ e3 : Int, dbof_equals cs a c = .ok e3 ∧ e3 ≠ 0 := by
  refine ⟨?_, ?_, ?_⟩
  · cases a with
    | none => rfl
    | some oa =>
      rw [equals_eq_of_hashes cs oa oa ha ha h1 h1]
      have : dbof_same_category oa oa = true := (same_category_iff oa oa).mpr rfl
      simp [this]
  · cases a with
    | none => cases b <;> rfl
    | some oa =>
      cases b with
      | none => rfl
      | some ob =>
        rw [equals_eq_of_hashes cs oa ob ha hb h1 h2, equals_eq_of_hashes cs ob oa hb ha h2 h1]
        have e : (dbof_same_category oa ob = true ∧ ha = hb) ↔
            (dbof_same_category ob oa = true ∧ hb = ha) := by
          rw [same_category_iff, same_category_iff]
          constructor <;> (rintro ⟨x, y⟩; exact ⟨x.symm, y.symm⟩)
        simp only [e]
  · intro e1 e2 hab hne1 hbc hne2
    cases a with
    | none =>
      cases b with
      | none =>
        cases c with
        | none => exact ⟨1, rfl, by decide⟩
        | some oc =>
          simp only [dbof_equals, Except.ok.injEq] at hbc
          exact absurd hbc.symm hne2
      | some ob =>
        simp only [dbof_equals, Except.ok.injEq] at hab
        exact absurd hab.symm hne1
    | some oa =>
      cases b with
      | none =>
        simp only [dbof_equals, Except.ok.injEq] at hab
        exact absurd hab.symm hne1
      | some ob =>
        cases c with
        | none =>
          simp only [dbof_equals, Except.ok.injEq] at hbc
          exact absurd hbc.symm hne2
        | some oc =>
          rw [equals_eq_of_hashes cs oa ob ha hb h1 h2] at hab
          rw [equals_eq_of_hashes cs ob oc hb hc h2 h3] at hbc
          rw [equals_eq_of_hashes cs oa oc ha hc h1 h3]
          by_cases r1 : dbof_same_category oa ob = true ∧ ha = hb
          · by_cases r2 : dbof_same_category ob oc = true ∧ hb = hc
            · have r3 : dbof_same_category oa oc = true ∧ ha = hc := by
                refine ⟨?_, r1.2.trans r2.2⟩
                rw [same_category_iff] at *
                exact r1.1.trans r2.1
              exact ⟨1, by simp [r3], by decide⟩
            · simp only [r2, if_false, Except.ok.injEq] at hbc
              exact absurd hbc.symm hne2
          · simp only [r1, if_false, Except.ok.injEq] at hab
            exact absurd hab.symm hne1

/-- C36: `dbof_equals` is not reflexive on the string object that `dbof_new` returns:
the comparison of the object with itself has no defined result, on either kind of
plain `char`, because the hash of the string runs `strlen` on its `NULL` value. -/
theorem equals_not_reflexive_on_fresh_string (cs : Bool) :
    dbof_equals cs (some (dbof_new DBOF_TYPE_UTF8_STRING))
        (some (dbof_new DBOF_TYPE_UTF8_STRING)) = .error .undefined_behaviour ∧
      dbof_hash cs (some (dbof_new DBOF_TYPE_UTF8_STRING)) = .error .undefined_behaviour := by
  cases cs <;> exact ⟨rfl, rfl⟩

/-! ## The array core with its block

Theorems about the functions of `Heap`, for any allocator where none is named. -/

theorem heap_ensure_space_below_capacity (realloc : Heap.allocator)
    (array : Heap.internal_array_base) (h : array.children.length ≠ array.capacity) :
    Heap.__internal_array_base_ensure_space realloc array = .ok (0, array) := by
  simp only [Heap.__internal_array_base_ensure_space, Heap.__internal_array_base_get_size, h,
    if_false]

theorem heap_push_back_within (realloc : Heap.allocator) (capacity cells : Nat)
    (children : List Obj) (object : Obj) (hcap : children.length ≠ capacity)
    (hblock : children.length < cells) :
    Heap.__internal_array_base_push_back realloc ⟨capacity, children, .block cells⟩ object =
      .ok (0, ⟨capacity, children ++ [object], .block cells⟩) := by
  simp [Heap.__internal_array_base_push_back,
    heap_ensure_space_below_capacity realloc ⟨capacity, children, .block cells⟩ hcap,
    Heap.cell_in_block, Heap.__internal_array_base_get_size, hblock]

theorem heap_push_back_outside (realloc : Heap.allocator) (array : Heap.internal_array_base)
    (object : Obj) (hcap : array.children.length ≠ array.capacity)
    (hblock : Heap.cell_in_block array array.children.length = false) :
    Heap.__internal_array_base_push_back realloc array object =
      .error .undefined_behaviour := by
  simp [Heap.__internal_array_base_push_back,
    heap_ensure_space_below_capacity realloc array hcap,
    Heap.__internal_array_base_get_size, hblock]

/-- Inside the block and below the capacity `insert` does what is expected of it,
whatever the allocator: on an array core that holds `pre` followed by `post`, in a
live block with room for one more cell, the call with index `pre.length` leaves `pre`,
the object, `post`. -/
theorem heap_insert_within (realloc : Heap.allocator) (capacity cells : Nat)
    (pre post : List Obj) (object : Obj) (hcap : (pre ++ post).length < capacity)
    (hblock : (pre ++ post).length < cells) :
    Heap.__internal_array_base_insert realloc ⟨capacity, pre ++ post, .block cells⟩
        pre.length object =
      .ok (0, ⟨capacity, pre ++ object :: post, .block cells⟩) := by
  have hne : (pre ++ post).length ≠ capacity := by omega
  have hn : ¬ pre.length > (pre ++ post).length := by simp
  simp only [Heap.__internal_array_base_insert, Heap.__internal_array_base_get_size, hn,
    if_false, heap_ensure_space_below_capacity realloc ⟨capacity, pre ++ post, .block cells⟩ hne,
    Heap.cell_in_block, List.take_left' rfl, List.drop_left' rfl]
  have hb2 : pre.length + post.length < cells := by simpa using hblock
  simp [hb2]

/-- Above the size `insert` fails before it touches the block. -/
theorem heap_insert_out_of_range (realloc : Heap.allocator) (array : Heap.internal_array_base)
    (index : Nat) (object : Obj) (hi : index > array.children.length) :
    Heap.__internal_array_base_insert realloc array index object = .ok (-1, array) := by
  simp [Heap.__internal_array_base_insert, Heap.__internal_array_base_get_size, hi]

/-- Below the capacity, with the cell `size` outside the block, `insert` stores outside
the block. -/
theorem heap_insert_outside (realloc : Heap.allocator) (array : Heap.internal_array_base)
    (index : Nat) (object : Obj) (hi : index ≤ array.children.length)
    (hcap : array.children.length ≠ array.capacity)
    (hblock : Heap.cell_in_block array array.children.length = false) :
    Heap.__internal_array_base_insert realloc array index object =
      .error .undefined_behaviour := by
  have hn : ¬ index > array.children.length := by omega
  simp [Heap.__internal_array_base_insert, Heap.__internal_array_base_get_size, hn,
    heap_ensure_space_below_capacity realloc array hcap, hblock]


theorem heap_remove_within (realloc : Heap.allocator) (capacity cells : Nat)
    (pre post : List Obj) (e : Obj) (hblock : (pre ++ e :: post).length < cells) :
    Heap.__internal_array_base_remove realloc ⟨capacity, pre ++ e :: post, .block cells⟩
        pre.length =
      match Heap.__internal_array_base_maybe_downscale realloc
          ⟨capacity, pre ++ post, .block cells⟩ with
      | .error f => .error f
      | .ok array => .ok (some e, array) := by
  have h1 : ¬ pre.length ≥ (pre ++ e :: post).length := by simp
  have hget : (pre ++ e :: post)[pre.length]? = some e := cell_after_front pre post e
  have hb : decide ((pre ++ e :: post).length < cells) = true := by simpa using hblock
  simp only [Heap.__internal_array_base_remove, Heap.__internal_array_base_get_size, h1,
    if_false, hget, Heap.cell_in_block, hb, if_true, List.take_left' rfl,
    drop_succ_append_cons]

theorem heap_run_push_back_within (realloc : Heap.allocator) (capacity cells : Nat)
    (children : List Obj) (object : Obj) (hcap : children.length ≠ capacity)
    (hblock : children.length < cells) :
    Heap.run realloc ⟨capacity, children, .block cells⟩ (.push_back object) =
      .ok ⟨capacity, children ++ [object], .block cells⟩ := by
  simp only [Heap.run, heap_push_back_within realloc capacity cells children object hcap hblock]
  rfl

theorem heap_run_push_back_outside (realloc : Heap.allocator)
    (array : Heap.internal_array_base) (object : Obj)
    (hcap : array.children.length ≠ array.capacity)
    (hblock : Heap.cell_in_block array array.children.length = false) :
    Heap.run realloc array (.push_back object) = .error .undefined_behaviour := by
  simp only [Heap.run, heap_push_back_outside realloc array object hcap hblock]
  rfl

theorem heap_run_insert_outside (realloc : Heap.allocator) (array : Heap.internal_array_base)
    (index : Nat) (object : Obj) (hi : index ≤ array.children.length)
    (hcap : array.children.length ≠ array.capacity)
    (hblock : Heap.cell_in_block array array.children.length = false) :
    Heap.run realloc array (.insert index object) = .error .undefined_behaviour := by
  simp only [Heap.run, heap_insert_outside realloc array index object hi hcap hblock]
  rfl

/-- The `remove` that empties the fresh array has the block resized to five cells;
what becomes of the array is the allocator's choice. -/
theorem heap_run_remove_last_of_fresh (realloc : Heap.allocator) (e : Obj) :
    Heap.run realloc ⟨10, [e], .block 10⟩ (.remove 0) =
      match realloc (.block 10) 5 with
      | .in_place => .ok ⟨10, [], .block 5⟩
      | .moved => .ok ⟨10, [], .freed⟩
      | .null => .ok ⟨5, [], .null⟩ := by
  have h := heap_remove_within realloc 10 10 [] [] e (by simp)
  simp only [List.nil_append, List.length_nil] at h
  simp only [Heap.run, h, Heap.__internal_array_base_maybe_downscale,
    Heap.__internal_array_base_get_size, Heap.__internal_array_base_resize,
    List.length_nil, Nat.reduceDiv, Nat.reduceMul, Nat.reduceMod]
  cases realloc (.block 10) 5 <;> rfl

/-- C34: on the array core that `dbof_new (UNTYPED_ARRAY)` builds, `push_back`,
`remove (0)`, five times `push_back`, and `insert (0, o)`.  The `remove` leaves size 0
below half the capacity, and `__internal_array_base_maybe_downscale` has the block
resized to five cells while the capacity stays 10.  Whatever the allocator does with
that request, the sequence ends in undefined behaviour.  With an allocator that
shrinks the block in place the first seven calls are in order and leave an array that
holds five elements, below its capacity 10, in a block of five cells; `insert` finds
size below capacity, and its `memmove` writes cell 5, outside the block. -/
theorem insert_below_capacity_writes_outside_block (realloc : Heap.allocator) :
    List.foldlM (Heap.run realloc) Heap.__internal_array_base_construct
        [.push_back (.signed_byte 0), .remove 0, .push_back (.signed_byte 1),
          .push_back (.signed_byte 2), .push_back (.signed_byte 3),
          .push_back (.signed_byte 4), .push_back (.signed_byte 5),
          .insert 0 (.signed_byte 9)] =
      .error .undefined_behaviour ∧
    List.foldlM (Heap.run Heap.chunk_allocator) Heap.__internal_array_base_construct
        [.push_back (.signed_byte 0), .remove 0, .push_back (.signed_byte 1),
          .push_back (.signed_byte 2), .push_back (.signed_byte 3),
          .push_back (.signed_byte 4), .push_back (.signed_byte 5)] =
      .ok ⟨10, [.signed_byte 1, .signed_byte 2, .signed_byte 3, .signed_byte 4,
        .signed_byte 5], .block 5⟩ ∧
    Heap.__internal_array_base_insert realloc
        ⟨10, [.signed_byte 1, .signed_byte 2, .signed_byte 3, .signed_byte 4,
          .signed_byte 5], .block 5⟩ 0 (.signed_byte 9) =
      .error .undefined_behaviour := by
  refine ⟨?_, rfl, ?_⟩
  · rw [List.foldlM_cons, Heap.__internal_array_base_construct,
      heap_run_push_back_within realloc 10 10 [] _ (by decide) (by decide)]
    simp only [bind, Except.bind, List.nil_append]
    rw [List.foldlM_cons, heap_run_remove_last_of_fresh]
    cases realloc (.block 10) 5 with
    | in_place =>
      simp only [bind, Except.bind]
      rw [List.foldlM_cons, heap_run_push_back_within realloc 10 5 [] _ (by decide) (by decide)]
      simp only [bind, Except.bind, List.nil_append]
      rw [List.foldlM_cons,
        heap_run_push_back_within realloc 10 5 [_] _ (by decide) (by decide)]
      simp only [bind, Except.bind, List.cons_append, List.nil_append]
      rw [List.foldlM_cons,
        heap_run_push_back_within realloc 10 5 [_, _] _ (by decide) (by decide)]
      simp only [bind, Except.bind, List.cons_append, List.nil_append]
      rw [List.foldlM_cons,
        heap_run_push_back_within realloc 10 5 [_, _, _] _ (by decide) (by decide)]
      simp only [bind, Except.bind, List.cons_append, List.nil_append]
      rw [List.foldlM_cons,
        heap_run_push_back_within realloc 10 5 [_, _, _, _] _ (by decide) (by decide)]
      simp only [bind, Except.bind, List.cons_append, List.nil_append]
      rw [List.foldlM_cons,
        heap_run_insert_outside realloc
          ⟨10, [.signed_byte 1, .signed_byte 2, .signed_byte 3, .signed_byte 4,
            .signed_byte 5], .block 5⟩ 0 _ (by decide) (by decide) rfl]
      rfl
    | moved =>
      simp only [bind, Except.bind]
      rw [List.foldlM_cons,
        heap_run_push_back_outside realloc ⟨10, [], .freed⟩ _ (by decide) rfl]
      rfl
    | null =>
      simp only [bind, Except.bind]
      rw [List.foldlM_cons,
        heap_run_push_back_outside realloc ⟨5, [], .null⟩ _ (by decide) rfl]
      rfl
  · exact heap_insert_outside realloc
      ⟨10, [.signed_byte 1, .signed_byte 2, .signed_byte 3, .signed_byte 4,
        .signed_byte 5], .block 5⟩ 0 _ (by decide) (by decide) rfl

/-! ### The decoder's arrays -/

theorem heap_resize_children (realloc : Heap.allocator) (array : Heap.internal_array_base)
    (size : Nat) (r : Int × Heap.internal_array_base)
    (h : Heap.__internal_array_base_resize realloc array size = .ok r) :
    r.2.children = array.children := by
  simp only [Heap.__internal_array_base_resize] at h
  split at h
  · cases h
  · split at h <;> cases h <;> rfl
  · split at h <;> cases h <;> rfl

theorem heap_ensure_space_children (realloc : Heap.allocator)
    (array : Heap.internal_array_base) (r : Int × Heap.internal_array_base)
    (h : Heap.__internal_array_base_ensure_space realloc array = .ok r) :
    r.2.children = array.children := by
  simp only [Heap.__internal_array_base_ensure_space] at h
  split at h
  · split at h
    · cases h
    · rename_i r1 h1
      have e1 : r1.2.children = array.children := by
        split at h1
        · exact heap_resize_children realloc array 1 r1 h1
        · cases h1
          rfl
      split at h
      · cases h
        exact e1
      · split at h
        · cases h
        · rename_i r2 h2
          have e2 := heap_resize_children realloc r1.2 _ r2 h2
          split at h <;> cases h <;> exact e2.trans e1
  · cases h
    rfl

theorem heap_push_back_children (realloc : Heap.allocator) (array : Heap.internal_array_base)
    (object : Obj) (r : Int × Heap.internal_array_base)
    (h : Heap.__internal_array_base_push_back realloc array object = .ok r) :
    r.2.children = array.children ∨ r.2.children = array.children ++ [object] := by
  simp only [Heap.__internal_array_base_push_back] at h
  split at h
  · cases h
  · rename_i r1 h1
    have e1 := heap_ensure_space_children realloc array r1 h1
    split at h
    · cases h
      exact Or.inl e1
    · split at h
      · cases h
        right
        simp only [e1]
      · cases h

/-- The kind test of the typed array's `push_back` keeps the kinds apart: when every
element has the kind in the field `type` before the call, so it is after it. -/
theorem heap_typed_push_back_keeps_kinds (realloc : Heap.allocator)
    (array array2 : Heap.object_typed_array_impl) (object : Obj)
    (hk : ∀ child ∈ array.base.children, dbof_typeof child = array.type)
    (h : Heap.__object_typed_array_impl_push_back realloc array object = .ok array2) :
    ∀ child ∈ array2.base.children, dbof_typeof child = array2.type := by
  simp only [Heap.__object_typed_array_impl_push_back,
    Heap.__object_typed_array_impl_is_empty, Heap.__internal_array_base_get_size,
    beq_iff_eq] at h
  by_cases he : array.base.children.length = 0
  · have hnil : array.base.children = [] := List.length_eq_zero.mp he
    simp only [he, if_true] at h
    split at h
    · cases h
    · rename_i r hr
      cases h
      intro child hc
      simp only at hc ⊢
      rcases heap_push_back_children realloc _ object r hr with e | e
      · rw [e] at hc
        simp only [hnil] at hc
        cases hc
      · rw [e] at hc
        simp only [hnil, List.nil_append, List.mem_singleton] at hc
        rw [hc]
  · simp only [he, if_false] at h
    split at h
    · rename_i hty
      split at h
      · cases h
      · rename_i r hr
        cases h
        intro child hc
        simp only at hc ⊢
        rcases heap_push_back_children realloc _ object r hr with e | e
        · rw [e] at hc
          exact hk child hc
        · rw [e] at hc
          rcases List.mem_append.mp hc with h1 | h1
          · exact hk child h1
          · rw [List.mem_singleton.mp h1]
            exact hty
    · cases h
      exact hk

theorem heap_read_children_keeps {α : Type} (Q : α → Prop)
    (read_object : dbof_reader → Except Fault (dbof_object × dbof_reader))
    (push_back : α → Obj → Except Fault α)
    (hpush : ∀ a a2 o, Q a → push_back a o = .ok a2 → Q a2) :
    ∀ (n : Nat) (a : α) (reader : dbof_reader) (flag : Bool) (a2 : α) (r2 : dbof_reader),
      Q a → Heap.read_children read_object push_back n a reader = .ok (flag, a2, r2) →
      Q a2 := by
  intro n
  induction n with
  | zero =>
    intro a reader flag a2 r2 ha h
    simp only [Heap.read_children, Except.ok.injEq, Prod.mk.injEq] at h
    rw [← h.2.1]
    exact ha
  | succ n ih =>
    intro a reader flag a2 r2 ha h
    simp only [Heap.read_children] at h
    split at h
    · cases h
    · simp only [Except.ok.injEq, Prod.mk.injEq] at h
      rw [← h.2.1]
      exact ha
    · rename_i object rd hro
      split at h
      · cases h
      · rename_i a1 hp
        exact ih a1 rd flag a2 r2 (hpush a a1 object ha hp) h

/-- Whatever the allocator does and whatever objects the element reads deliver: in the
array that `__dbof_1_read_object_typed_array` returns, the cells below `size` were
filled with objects of the kind in the field `type`, and with nothing else. -/
theorem heap_decoded_cells_of_one_kind (realloc : Heap.allocator) (cs : Bool)
    (read_object : dbof_reader → Except Fault (dbof_object × dbof_reader))
    (reader r2 : dbof_reader) (array : Heap.object_typed_array_impl)
    (h : Heap.__dbof_1_read_object_typed_array realloc cs read_object reader =
      .ok (some array, r2)) :
    ∀ child ∈ array.base.children, dbof_typeof child = array.type := by
  simp only [Heap.__dbof_1_read_object_typed_array] at h
  split at h
  · cases h
  · split at h <;> cases h
  · split at h
    · split at h <;> cases h
    · split at h
      · cases h
      · rename_i a0 hres
        split at h
        · cases h
        · split at h <;> cases h
        · rename_i a1 rd hrc
          simp only [Except.ok.injEq, Prod.mk.injEq, Option.some.injEq] at h
          rw [← h.1]
          refine heap_read_children_keeps
            (fun a => ∀ child ∈ a.base.children, dbof_typeof child = a.type) _
            (Heap.__object_typed_array_impl_push_back realloc)
            (fun a a2 o ha hp => heap_typed_push_back_keeps_kinds realloc a a2 o ha hp)
            _ _ _ true a1 rd ?_ hrc
          simp only [Heap.__object_typed_array_impl_resize] at hres
          split at hres
          · cases hres
          · rename_i r hr
            cases hres
            have e := heap_resize_children realloc _ _ r hr
            intro child hc
            simp only at hc
            rw [e] at hc
            simp [Heap.__new_object_typed_array, Heap.__internal_array_base_construct] at hc

/-- C39: the stream 0C 01 0B 01 and eleven SignedByte elements 01 00 .. 01 0A, read
with an allocator in the manner of glibc.  `__dbof_1_read_object` reads the tag 0C and
calls `__dbof_1_read_object_typed_array`.  The request for eleven cells fits the chunk
of the ten-cell block, ten elements are stored, and the eleventh `push_back` finds
size 10 = capacity 10: the request for twenty cells moves the block,
`__internal_array_base_resize` returns -1 with `array->children` still pointing to
the freed block, and the element is dropped.  The decoder returns this array: no
element of it can be read, so none has the element kind.  With a twelfth element the
next `realloc` is given the freed block. -/
theorem decoder_returns_array_with_freed_block :
    Heap.__dbof_1_read_object_typed_array Heap.chunk_allocator true
        (fun rd => __dbof_1_read_object true 1 rd 0)
        (file_reader [0x01, 0x0B, 0x01, 0x01, 0x00, 0x01, 0x01, 0x01, 0x02, 0x01, 0x03, 0x01,
          0x04, 0x01, 0x05, 0x01, 0x06, 0x01, 0x07, 0x01, 0x08, 0x01, 0x09, 0x01, 0x0A]) =
      .ok (some
        { base := ⟨10, [.signed_byte 0, .signed_byte 1, .signed_byte 2, .signed_byte 3,
            .signed_byte 4, .signed_byte 5, .signed_byte 6, .signed_byte 7, .signed_byte 8,
            .signed_byte 9], .freed⟩,
          type := DBOF_TYPE_SIGNED_BYTE }, file_reader []) ∧
    Heap.__object_typed_array_impl_get
        { base := ⟨10, [.signed_byte 0, .signed_byte 1, .signed_byte 2, .signed_byte 3,
            .signed_byte 4, .signed_byte 5, .signed_byte 6, .signed_byte 7, .signed_byte 8,
            .signed_byte 9], .freed⟩,
          type := DBOF_TYPE_SIGNED_BYTE } 0 =
      .error .undefined_behaviour ∧
    Heap.__dbof_1_read_object_typed_array Heap.chunk_allocator true
        (fun rd => __dbof_1_read_object true 1 rd 0)
        (file_reader [0x01, 0x0C, 0x01, 0x01, 0x00, 0x01, 0x01, 0x01, 0x02, 0x01, 0x03, 0x01,
          0x04, 0x01, 0x05, 0x01, 0x06, 0x01, 0x07, 0x01, 0x08, 0x01, 0x09, 0x01, 0x0A,
          0x01, 0x0B]) =
      .error .undefined_behaviour ∧
    Heap.chunk_allocator (.block 10) 11 = .in_place ∧
    Heap.chunk_allocator (.block 11) 20 = .moved :=
  ⟨rfl, rfl, rfl, rfl, rfl⟩

theorem heap_untyped_push_back_within (realloc : Heap.allocator) (capacity cells : Nat)
    (children : List Obj) (object : Obj) (hcap : children.length ≠ capacity)
    (hblock : children.length < cells) :
    Heap.__object_untyped_array_impl_push_back realloc ⟨capacity, children, .block cells⟩
        object =
      .ok ⟨capacity, children ++ [object], .block cells⟩ := by
  have hn : decide (children.length < cells) = true := by simpa using hblock
  simp only [Heap.__object_untyped_array_impl_push_back, Heap.__internal_array_base_push_back,
    Heap.__internal_array_base_ensure_space, Heap.__internal_array_base_get_size, hcap,
    if_false, Heap.cell_in_block, hn, if_true]
  simp

/-- The stream 0D 01 0D, twelve Null elements 00 and the tag 63, read with an allocator
that grows the fresh block in place to thirteen cells (nothing lies behind it yet) and
moves it for the request for twenty cells (the elements lie behind it): the eleventh
`push_back` leaves `array->children` pointing to the freed block, and the twelfth hands
that pointer to `realloc` once more.  The read does not get as far as the tag 63. -/
theorem untyped_array_reader_reallocs_freed_block (realloc : Heap.allocator)
    (h1 : realloc (.block 10) 13 = .in_place) (h2 : realloc (.block 13) 20 = .moved) :
    Heap.__dbof_1_read_object_untyped_array realloc true
        (fun rd => __dbof_1_read_object true 1 rd 0)
        (file_reader [0x01, 0x0D, 0x00, 0x00, 0x00, 0x00, 0x00, 0x00, 0x00, 0x00, 0x00, 0x00,
          0x00, 0x00, 0x63]) =
      .error .undefined_behaviour := by
  have hflex : __dbof_1_read_flex_length_internal true
      (file_reader [0x01, 0x0D, 0x00, 0x00, 0x00, 0x00, 0x00, 0x00, 0x00, 0x00, 0x00, 0x00,
        0x00, 0x00, 0x63]) =
      .ok (some 13, file_reader [0x00, 0x00, 0x00, 0x00, 0x00, 0x00, 0x00, 0x00, 0x00, 0x00,
        0x00, 0x00, 0x63]) := rfl
  have hnull : ∀ rest : List Byte, __dbof_1_read_object true 1 (file_reader (0 :: rest)) 0 =
      .ok (some .null, file_reader rest) := fun rest => rfl
  have h13 : ((13 : U64).val) = 13 := rfl
  simp only [Heap.__dbof_1_read_object_untyped_array, hflex, h13,
    Heap.__new_object_untyped_array, Heap.__internal_array_base_construct,
    Heap.__object_untyped_array_impl_resize, Heap.__internal_array_base_resize,
    Nat.reduceDiv, Nat.reduceMul, Nat.reduceMod, h1]
  simp only [Heap.read_children, hnull]
  rw [heap_untyped_push_back_within realloc 10 13 [] _ (by decide) (by decide)]
  simp only [List.nil_append]
  rw [heap_untyped_push_back_within realloc 10 13 [_] _ (by decide) (by decide)]
  simp only [List.cons_append, List.nil_append]
  rw [heap_untyped_push_back_within realloc 10 13 [_, _] _ (by decide) (by decide)]
  simp only [List.cons_append, List.nil_append]
  rw [heap_untyped_push_back_within realloc 10 13 [_, _, _] _ (by decide) (by decide)]
  simp only [List.cons_append, List.nil_append]
  rw [heap_untyped_push_back_within realloc 10 13 [_, _, _, _] _ (by decide) (by decide)]
  simp only [List.cons_append, List.nil_append]
  rw [heap_untyped_push_back_within realloc 10 13 [_, _, _, _, _] _ (by decide) (by decide)]
  simp only [List.cons_append, List.nil_append]
  rw [heap_untyped_push_back_within realloc 10 13 [_, _, _, _, _, _] _ (by decide) (by decide)]
  simp only [List.cons_append, List.nil_append]
  rw [heap_untyped_push_back_within realloc 10 13 [_, _, _, _, _, _, _] _ (by decide)
    (by decide)]
  simp only [List.cons_append, List.nil_append]
  rw [heap_untyped_push_back_within realloc 10 13 [_, _, _, _, _, _, _, _] _ (by decide)
    (by decide)]
  simp only [List.cons_append, List.nil_append]
  rw [heap_untyped_push_back_within realloc 10 13 [_, _, _, _, _, _, _, _, _] _ (by decide)
    (by decide)]
  simp only [List.cons_append, List.nil_append]
  simp [Heap.__object_untyped_array_impl_push_back, Heap.__internal_array_base_push_back,
    Heap.__internal_array_base_ensure_space, Heap.__internal_array_base_get_size,
    Heap.__internal_array_base_resize, h2]

/-! ### The functions over the fields, seen from the block -/

theorem heap_resize_fields (realloc : Heap.allocator) (hnn : ∀ p n, realloc p n ≠ .null)
    (array : Heap.internal_array_base) (size : Nat) (r : Int × Heap.internal_array_base)
    (h : Heap.__internal_array_base_resize realloc array size = .ok r) :
    __internal_array_base_resize (fields_of array) size = (r.1, fields_of r.2) := by
  rw [resize_keeps]
  simp only [Heap.__internal_array_base_resize] at h
  split at h
  · cases h
  · split at h
    · rename_i hr
      exact absurd hr (hnn _ _)
    · cases h
      rfl
  · split at h
    · cases h
      rfl
    · cases h
      rfl
    · rename_i hr
      exact absurd hr (hnn _ _)

theorem heap_ensure_space_fields (realloc : Heap.allocator) (hnn : ∀ p n, realloc p n ≠ .null)
    (array : Heap.internal_array_base) (r : Int × Heap.internal_array_base)
    (h : Heap.__internal_array_base_ensure_space realloc array = .ok r) :
    __internal_array_base_ensure_space (fields_of array) = (r.1, fields_of r.2) := by
  simp only [Heap.__internal_array_base_ensure_space, Heap.__internal_array_base_get_size] at h
  by_cases hc : array.children.length = array.capacity
  · have hc2 : (fields_of array).children.length = (fields_of array).capacity := hc
    rw [ensure_space_at_capacity _ hc2]
    simp only [hc, if_true] at h
    split at h
    · cases h
    · rename_i r1 h1
      have e1 : r1.1 = (if array.capacity = 0 then -1 else 0) ∧ fields_of r1.2 = fields_of array := by
        split at h1
        · rename_i h0
          have := heap_resize_fields realloc hnn array 1 r1 h1
          rw [resize_keeps] at this
          simp only [Prod.mk.injEq] at this
          exact ⟨by rw [if_pos h0]; exact this.1.symm, this.2.symm⟩
        · rename_i h0
          cases h1
          exact ⟨by rw [if_neg h0], rfl⟩
      by_cases h0 : array.capacity = 0
      · have hne : r1.1 ≠ 0 := by rw [e1.1, if_pos h0]; decide
        simp only [h0, hne, ne_eq, not_false_eq_true, and_self, if_true] at h
        cases h
        rw [e1.2]
      · simp only [h0, false_and, if_false] at h
        split at h
        · cases h
        · rename_i r2 h2
          have := heap_resize_fields realloc hnn r1.2 _ r2 h2
          rw [resize_keeps] at this
          simp only [Prod.mk.injEq] at this
          have hne : r2.1 ≠ 0 := by rw [← this.1]; decide
          simp only [hne, ne_eq, not_false_eq_true, if_true] at h
          cases h
          rw [← this.2, e1.2]
  · have hc2 : ¬ ((fields_of array).children.length = (fields_of array).capacity) := hc
    simp only [hc, if_false] at h
    cases h
    simp only [__internal_array_base_ensure_space, __internal_array_base_get_size, hc2,
      if_false]

/-- Where the functions that follow the block return, the functions over the fields
agree with them in the status and in the fields, for an allocator that never returns
`NULL`: `push_back` and `insert`. -/
theorem heap_push_back_insert_fields (realloc : Heap.allocator)
    (hnn : ∀ p n, realloc p n ≠ .null) (array : Heap.internal_array_base) (index : Nat)
    (object : Obj) (r : Int × Heap.internal_array_base) :
    (Heap.__internal_array_base_push_back realloc array object = .ok r →
        __internal_array_base_push_back (fields_of array) object = (r.1, fields_of r.2)) ∧
      (Heap.__internal_array_base_insert realloc array index object = .ok r →
        __internal_array_base_insert (fields_of array) index object = (r.1, fields_of r.2)) := by
  constructor
  · intro h
    simp only [Heap.__internal_array_base_push_back] at h
    split at h
    · cases h
    · rename_i r1 h1
      have e := heap_ensure_space_fields realloc hnn array r1 h1
      simp only [__internal_array_base_push_back, e]
      split at h
      · rename_i hne
        cases h
        simp only [hne, ne_eq, not_false_eq_true, if_true]
      · rename_i hne
        split at h
        · cases h
          simp only [hne, if_false]
          rfl
        · cases h
  · intro h
    simp only [Heap.__internal_array_base_insert, Heap.__internal_array_base_get_size] at h
    simp only [__internal_array_base_insert, __internal_array_base_get_size]
    have hlen : (fields_of array).children.length = array.children.length := rfl
    rw [hlen]
    split at h
    · rename_i hi
      cases h
      simp only [hi, if_true]
    · rename_i hi
      simp only [hi, if_false]
      split at h
      · cases h
      · rename_i r1 h1
        have e := heap_ensure_space_fields realloc hnn array r1 h1
        simp only [e]
        split at h
        · rename_i hne
          cases h
          simp only [hne, ne_eq, not_false_eq_true, if_true]
        · rename_i hne
          split at h
          · cases h
            simp only [hne, if_false]
            rfl
          · cases h

end Dbof
